import Mathlib

/-!
# UWPOpenIGTLink: the protocol client engine

A shallow embedding of the two revisions of the OpenIGTLink client kept in the
repository:

* `src/UWPOpenIGTLink/IGTLinkClient.cxx` (namespace `UWPOpenIGTLink`): message
  deque, one-shot reply consumers, tracked-frame callback registry;
* `src/UWPOpenIGTLink/Content/IGTLinkClient.cxx` (namespace
  `UWPOpenIGTLink.Content`): message deque, non-consuming "latest" queries
  backed by timestamp-keyed caches.

Conventions of the embedding.

* Time stamps are IEEE doubles in the source. The client only compares them
  (`<`, `<=`, map-key equality) and copies them, so the time stamps that are
  numbers are embedded as `Int`; the sentinel `-1.0` becomes `-1`. NaN, for
  which every comparison of the source is false, has no counterpart: every
  statement about a time stamp, a since value or a cache key speaks of a number.
* `std::map` is a `List (K × V)` kept in ascending key order by `StdMap.assign`.
* `std::deque` is a `List`, front first.
* Everything the receive thread observes from the socket, the cancellation
  token and the message factory during one loop iteration is an explicit input
  record (`PumpIteration`); the loop consumes a list of such records.
* A raised exception and undefined behaviour are explicit outcomes.
-/

namespace UWPOpenIGTLink

/-! ## Messages -/

/-- The dynamic type of a decoded message, as told apart by `typeid` in the source. -/
inductive MessageType where
  | StatusMessage
  | TrackedFrameMessage
  | CommandMessage
  | RTSCommandMessage
  | Other (deviceType : String)
  deriving DecidableEq, Repr

/-- An `igtl::MessageBase` object together with the accessors the client reads
(`GetTimeStamp`, `GetMetaData`, the `TrackedFrameMessage` and `RTSCommandMessage`
getters). Accessors of a different dynamic type are simply unused. -/
structure Message where
  typeId : MessageType
  timeStamp : Int
  metaData : List (String × String) := []
  customFrameFields : List (String × String) := []
  frameSize : Nat × Nat × Nat := (0, 0, 0)
  numberOfComponents : Nat := 0
  imageSizeInBytes : Nat := 0
  image : List Nat := []
  scalarType : Nat := 0
  imageType : Nat := 0
  imageOrientation : Nat := 0
  embeddedImageTransform : List Int := []
  commandContent : String := ""
  commandName : String := ""
  commandId : Nat := 0
  deriving DecidableEq, Repr

/-- The test `typeid(*msg) == typeid(igtl::TrackedFrameMessage)`. -/
def Message.isTrackedFrame (m : Message) : Bool :=
  decide (m.typeId = MessageType.TrackedFrameMessage)

/-- The test `typeid(*msg) == typeid(igtl::RTSCommandMessage)`. -/
def Message.isRTSCommand (m : Message) : Bool :=
  decide (m.typeId = MessageType.RTSCommandMessage)

/-- The test `typeid(*msg) == typeid(igtl::CommandMessage)`. -/
def Message.isCommand (m : Message) : Bool :=
  decide (m.typeId = MessageType.CommandMessage)

/-- The test `typeid(*msg) == typeid(igtl::StatusMessage)`. -/
def Message.isStatus (m : Message) : Bool :=
  decide (m.typeId = MessageType.StatusMessage)

/-! ## `std::map` -/

namespace StdMap

variable {K V : Type}

/-- The lookup `m.find(k)`: `none` stands for `m.end()`. -/
def find [DecidableEq K] (m : List (K × V)) (k : K) : Option V :=
  (m.find? (fun p => decide (p.1 = k))).map Prod.snd

/-- The removal `m.erase(m.find(k))` of the entry stored under `k`. -/
def erase [DecidableEq K] (m : List (K × V)) (k : K) : List (K × V) :=
  m.filter (fun p => !decide (p.1 = k))

/-- Placement of a fresh entry at its position in ascending key order. -/
def insertSorted [LT K] [DecidableRel (fun a b : K => a < b)] (k : K) (v : V) :
    List (K × V) → List (K × V)
  | [] => [(k, v)]
  | p :: rest => if k < p.1 then (k, v) :: p :: rest else p :: insertSorted k v rest

/-- The assignment `m[k] = v` (also `Map::Insert`): insert, or replace the value under `k`. -/
def assign [DecidableEq K] [LT K] [DecidableRel (fun a b : K => a < b)]
    (m : List (K × V)) (k : K) (v : V) : List (K × V) :=
  insertSorted k v (erase m k)

/-- The keys of a map, in iteration order. -/
def keys (m : List (K × V)) : List K := m.map Prod.fst

/-- The value that a sequence of insertions, applied in order, leaves under `k`:
that of the last pair with key `k`, if there is one. -/
def lastValue [DecidableEq K] : List (K × V) → K → Option V
  | [], _ => none
  | p :: rest, k =>
    match lastValue rest k with
    | some v => some v
    | none => if p.1 = k then some p.2 else none

end StdMap

/-- The constant `IGTLinkClient::MESSAGE_LIST_MAX_SIZE`. -/
def MESSAGE_LIST_MAX_SIZE : Nat := 200

/-- The constant `IGTLinkClient::CLIENT_SOCKET_TIMEOUT_MSEC`. -/
def CLIENT_SOCKET_TIMEOUT_MSEC : Nat := 500

/-- The tail of `DataReceiverPump`'s loop body shared by both revisions:
`if (size > MESSAGE_LIST_MAX_SIZE) erase(begin, begin + (size - MESSAGE_LIST_MAX_SIZE))`. -/
def eraseFront (messages : List Message) : List Message :=
  if messages.length > MESSAGE_LIST_MAX_SIZE then
    messages.drop (messages.length - MESSAGE_LIST_MAX_SIZE)
  else messages

/-! ## What one iteration of the receive loop observes -/

/-- The observations of one iteration of `DataReceiverPump`'s `while` loop, in
program order. `createThrows` says that `CreateReceiveMessage` raises a
`std::exception` instead of returning; otherwise `bodyMsg` is the object it
returns (`none` for a null pointer) with the field values it holds after
`Unpack`. -/
structure PumpIteration where
  isCanceled : Bool
  connectedBeforeHeader : Bool
  numOfBytesReceived : Int
  headerSize : Int
  headerUnpacked : Bool
  createThrows : Bool := false
  bodyMsg : Option Message
  bodySizeToRead : Nat := 0
  connectedBeforeBody : Bool
  bodyUnpacked : Bool

/-- A call made on the client socket during an iteration. -/
inductive SocketCall where
  | ReceiveHeader
  | ReceiveBody (size : Nat)
  | Skip (size : Nat)
  deriving DecidableEq, Repr

/-- How an iteration of the loop body ends. -/
inductive PumpOutcome where
  | Continue
  | Return
  | Threw
  | Undefined
  deriving DecidableEq, Repr

/-- An iteration that receives a well-formed header and body of the non-status
message `m` while the loop is neither cancelled nor disconnected. -/
def PumpIteration.Stores (io : PumpIteration) (m : Message) : Prop :=
  io.isCanceled = false ∧ io.connectedBeforeHeader = true ∧
  io.numOfBytesReceived ≠ 0 ∧ io.numOfBytesReceived = io.headerSize ∧
  io.headerUnpacked = true ∧ io.createThrows = false ∧ io.bodyMsg = some m ∧
  m.isStatus = false ∧ io.connectedBeforeBody = true ∧ io.bodyUnpacked = true

/-- The canonical iteration storing `m`. -/
def PumpIteration.receive (m : Message) : PumpIteration :=
  { isCanceled := false, connectedBeforeHeader := true, numOfBytesReceived := 58,
    headerSize := 58, headerUnpacked := true, bodyMsg := some m, bodySizeToRead := 0,
    connectedBeforeBody := true, bodyUnpacked := true }

/-- An iteration that receives a well-formed header announcing the status message
`m` while the loop is neither cancelled nor disconnected. -/
def PumpIteration.SkipsStatus (io : PumpIteration) (m : Message) : Prop :=
  io.isCanceled = false ∧ io.connectedBeforeHeader = true ∧
  io.numOfBytesReceived ≠ 0 ∧ io.numOfBytesReceived = io.headerSize ∧
  io.headerUnpacked = true ∧ io.createThrows = false ∧ io.bodyMsg = some m ∧
  m.isStatus = true ∧ io.connectedBeforeBody = true

/-- An iteration that receives a well-formed header for which the message factory
returns no object, because it raises or because it returns a null pointer, while
the loop is neither cancelled nor disconnected. -/
def PumpIteration.UnknownType (io : PumpIteration) : Prop :=
  io.isCanceled = false ∧ io.connectedBeforeHeader = true ∧
  io.numOfBytesReceived ≠ 0 ∧ io.numOfBytesReceived = io.headerSize ∧
  io.headerUnpacked = true ∧ (io.createThrows = true ∨ io.bodyMsg = none)

/-- An iteration that observes one of the stop conditions of the receive loop of the
cache revision: the token is cancelled at the top of the loop, or the socket
reports disconnected before the header read, or (after a header was received
and unpacked and a message object created) before the body read or skip. -/
def PumpIteration.ObservesStop (io : PumpIteration) : Prop :=
  io.isCanceled = true ∨ io.connectedBeforeHeader = false ∨
  (io.numOfBytesReceived ≠ 0 ∧ io.numOfBytesReceived = io.headerSize ∧
    io.headerUnpacked = true ∧ io.createThrows = false ∧ io.bodyMsg ≠ none ∧
    io.connectedBeforeBody = false)

/-- An iteration that receives a well-formed header of the non-status message `m`
and its body, while the loop is neither cancelled nor disconnected, but whose
body `Unpack` does not report `UNPACK_BODY`. -/
def PumpIteration.BodyUnpackFails (io : PumpIteration) (m : Message) : Prop :=
  io.isCanceled = false ∧ io.connectedBeforeHeader = true ∧
  io.numOfBytesReceived ≠ 0 ∧ io.numOfBytesReceived = io.headerSize ∧
  io.headerUnpacked = true ∧ io.createThrows = false ∧ io.bodyMsg = some m ∧
  m.isStatus = false ∧ io.connectedBeforeBody = true ∧ io.bodyUnpacked = false

/-! ## The connection objects -/

/-- The `concurrency::cancellation_token_source` member: whether cancellation has
been requested. A newly constructed source is not cancelled. -/
structure CancellationTokenSource where
  canceled : Bool := false
  deriving DecidableEq, Repr

/-- The call `m_cancellationTokenSource.cancel()`. -/
def CancellationTokenSource.cancel (_source : CancellationTokenSource) :
    CancellationTokenSource :=
  { canceled := true }

/-- The `igtl::ClientSocket` member, as far as the client observes it: whether
`GetConnected()` reports an open connection. -/
structure ClientSocket where
  connected : Bool := false
  deriving DecidableEq, Repr

/-- The call `m_clientSocket->CloseSocket()` of the socket library: the connection,
if any, is closed. -/
def ClientSocket.CloseSocket (_socket : ClientSocket) : ClientSocket :=
  { connected := false }

/-! ## Connecting -/

/-- What one call of `m_clientSocket->ConnectToServer` does: the error code it
returns (0 for success) and the time it takes, in milliseconds. -/
structure ConnectAttempt where
  errorCode : Int
  durationMsec : Nat := 0
  deriving DecidableEq, Repr

/-- The state of the asynchronous operation started by `ConnectAsync`: the returned
`bool` (`none` while the retry loop is still running), the number of connect
attempts and of retry sleeps made, the time since `start`, in milliseconds, and
whether the receive loop was started. -/
structure ConnectRun where
  result : Option Bool
  attempts : Nat
  sleeps : Nat
  elapsedMsec : Nat
  pumpStarted : Bool
  deriving DecidableEq, Repr

/-- The retry loop of `ConnectAsync` and the code after it (the same in both
revisions), run over the successive connect attempts of the transport:
`while (errorCode != 0) { errorCode = ConnectToServer(...); if (timeDiff > timeoutSec * 1000) break; sleep_for(seconds(retryDelaySec)); }`.
The clock advances by the duration of each attempt and by 1000 ms per sleep. -/
def connectLoop (timeoutSec : Int) :
    List ConnectAttempt → (attempts sleeps elapsedMsec : Nat) → ConnectRun
  | [], attempts, sleeps, elapsedMsec =>
    { result := none, attempts := attempts, sleeps := sleeps, elapsedMsec := elapsedMsec,
      pumpStarted := false }
  | attempt :: rest, attempts, sleeps, elapsedMsec =>
    let timeDiff := elapsedMsec + attempt.durationMsec
    if (timeDiff : Int) > timeoutSec * 1000 then
      -- time is up
      { result := some (decide (attempt.errorCode = 0)), attempts := attempts + 1,
        sleeps := sleeps, elapsedMsec := timeDiff,
        pumpStarted := decide (attempt.errorCode = 0) }
    else if attempt.errorCode ≠ 0 then
      connectLoop timeoutSec rest (attempts + 1) (sleeps + 1) (timeDiff + 1000)
    else
      { result := some true, attempts := attempts + 1, sleeps := sleeps + 1,
        elapsedMsec := timeDiff + 1000, pumpStarted := true }

/-- `IGTLinkClient::ConnectAsync`, as far as the connection attempts go. -/
def ConnectAsync (timeoutSec : Int) (transport : List ConnectAttempt) : ConnectRun :=
  connectLoop timeoutSec transport 0 0 0

/-- What a call of a `std::function<void(igtl::TrackedFrameMessage*)>` does. -/
inductive CallResult where
  | Returned
  | Threw
  deriving DecidableEq, Repr

/-- A subscriber `std::function<void(igtl::TrackedFrameMessage*)>`; the argument is
`none` for a null pointer. -/
abbrev Callback := Option Message → CallResult

/-- The members of `IGTLinkClient` (from `IGTLinkClient.h`) that the embedded
member functions read or write. -/
structure IGTLinkClient where
  m_messages : List Message := []
  m_trackedFrameCallbacks : List (Nat × Callback) := []
  m_lastUnusedCallbackToken : Nat := 0
  m_frameSize : List Nat := [0, 0, 0]
  m_cancellationTokenSource : CancellationTokenSource := {}
  m_clientSocket : ClientSocket := {}

namespace IGTLinkClient

/-- The value range of `uint64`. -/
def UINT64_SIZE : Nat := 2 ^ 64

/-- `IGTLinkClient::Disconnect`: cancel the token source, then close the socket. -/
def Disconnect (self : IGTLinkClient) : IGTLinkClient :=
  { self with
    m_cancellationTokenSource := self.m_cancellationTokenSource.cancel,
    m_clientSocket := self.m_clientSocket.CloseSocket }

/-- `IGTLinkClient::RegisterTrackedFrameCallback`: returns the token. -/
def RegisterTrackedFrameCallback (self : IGTLinkClient) (function : Callback) :
    Nat × IGTLinkClient :=
  let callbacks := StdMap.assign self.m_trackedFrameCallbacks self.m_lastUnusedCallbackToken function
  let token := (self.m_lastUnusedCallbackToken + 1) % UINT64_SIZE
  ((token + UINT64_SIZE - 1) % UINT64_SIZE,
    { self with m_trackedFrameCallbacks := callbacks, m_lastUnusedCallbackToken := token })

/-- `IGTLinkClient::UnregisterTrackedFrameCallback`. -/
def UnregisterTrackedFrameCallback (self : IGTLinkClient) (token : Nat) :
    Bool × IGTLinkClient :=
  if (StdMap.find self.m_trackedFrameCallbacks token).isSome then
    (true, { self with m_trackedFrameCallbacks := StdMap.erase self.m_trackedFrameCallbacks token })
  else
    (false, self)

/-- A call of the registry interface. -/
inductive RegistryCall where
  | Register (function : Callback)
  | Unregister (token : Nat)

/-- A sequence of registry calls on one client; the tokens returned by the
`Register` calls are collected in call order. -/
def runRegistryCalls (self : IGTLinkClient) : List RegistryCall → List Nat × IGTLinkClient
  | [] => ([], self)
  | RegistryCall.Register function :: rest =>
    let r := self.RegisterTrackedFrameCallback function
    let rs := runRegistryCalls r.2 rest
    (r.1 :: rs.1, rs.2)
  | RegistryCall.Unregister token :: rest =>
    runRegistryCalls (self.UnregisterTrackedFrameCallback token).2 rest

/-- The number of `Register` calls in a sequence. -/
def registrations : List RegistryCall → Nat
  | [] => 0
  | RegistryCall.Register _ :: rest => registrations rest + 1
  | RegistryCall.Unregister _ :: rest => registrations rest

/-- The loop `for (auto pair : m_trackedFrameCallbacks) pair.second(tfMsg)`:
the invocations made, as (token, argument) pairs in call order, and whether the
loop ran to its end (`false`: a callback raised, which ends the loop). -/
def invokeCallbacks (tfMsg : Option Message) :
    List (Nat × Callback) → List (Nat × Option Message) × Bool
  | [] => ([], true)
  | pair :: rest =>
    match pair.2 tfMsg with
    | CallResult.Returned =>
      let r := invokeCallbacks tfMsg rest
      ((pair.1, tfMsg) :: r.1, r.2)
    | CallResult.Threw => ([(pair.1, tfMsg)], false)

/-- The result of one iteration of the loop body. -/
structure PumpStep where
  client : IGTLinkClient
  outcome : PumpOutcome
  invoked : List (Nat × Option Message) := []
  socket : List SocketCall := []

/-- One iteration of the `while` loop of `IGTLinkClient::DataReceiverPump`. -/
def DataReceiverPumpBody (self : IGTLinkClient) (io : PumpIteration) : PumpStep :=
  if io.isCanceled then { client := self, outcome := PumpOutcome.Return }
  else if !io.connectedBeforeHeader then { client := self, outcome := PumpOutcome.Return }
  else if io.numOfBytesReceived = 0 ∨ io.numOfBytesReceived ≠ io.headerSize then
    { client := self, outcome := PumpOutcome.Continue, socket := [SocketCall.ReceiveHeader] }
  else if !io.headerUnpacked then
    { client := self, outcome := PumpOutcome.Continue, socket := [SocketCall.ReceiveHeader] }
  else if io.createThrows then
    -- CreateReceiveMessage is called outside any try block: the exception leaves the loop
    { client := self, outcome := PumpOutcome.Threw, socket := [SocketCall.ReceiveHeader] }
  else
    match io.bodyMsg with
    | none =>
      { client := self, outcome := PumpOutcome.Continue, socket := [SocketCall.ReceiveHeader] }
    | some bodyMsg =>
      if !bodyMsg.isStatus then
        if !io.connectedBeforeBody then
          { client := self, outcome := PumpOutcome.Return, socket := [SocketCall.ReceiveHeader] }
        else if !io.bodyUnpacked then
          { client := self, outcome := PumpOutcome.Continue,
            socket := [SocketCall.ReceiveHeader, SocketCall.ReceiveBody io.bodySizeToRead] }
        else
          let saved := { self with m_messages := self.m_messages ++ [bodyMsg] }
          -- if ( typeid( *bodyMsg ) != typeid( igtl::TrackedFrameMessage ) )
          let calls :=
            if !bodyMsg.isTrackedFrame then
              -- tfMsg = dynamic_cast<igtl::TrackedFrameMessage*>( bodyMsg.GetPointer() )
              invokeCallbacks (if bodyMsg.isTrackedFrame then some bodyMsg else none)
                saved.m_trackedFrameCallbacks
            else ([], true)
          if calls.2 then
            { client := { saved with m_messages := eraseFront saved.m_messages },
              outcome := PumpOutcome.Continue, invoked := calls.1,
              socket := [SocketCall.ReceiveHeader, SocketCall.ReceiveBody io.bodySizeToRead] }
          else
            { client := saved, outcome := PumpOutcome.Threw, invoked := calls.1,
              socket := [SocketCall.ReceiveHeader, SocketCall.ReceiveBody io.bodySizeToRead] }
      else
        if !io.connectedBeforeBody then
          { client := self, outcome := PumpOutcome.Return, socket := [SocketCall.ReceiveHeader] }
        else
          { client := { self with m_messages := eraseFront self.m_messages },
            outcome := PumpOutcome.Continue,
            socket := [SocketCall.ReceiveHeader, SocketCall.Skip io.bodySizeToRead] }

/-- The state of a run of the receive loop: the client, whether the loop is
still running (`Continue`) or how it ended, and every callback invocation made. -/
structure PumpRun where
  client : IGTLinkClient
  outcome : PumpOutcome
  invoked : List (Nat × Option Message)

/-- `IGTLinkClient::DataReceiverPump`: the loop, run over the observations of its
successive iterations. It stops at the first iteration that does not `Continue`. -/
def DataReceiverPump (self : IGTLinkClient) : List PumpIteration → PumpRun
  | [] => { client := self, outcome := PumpOutcome.Continue, invoked := [] }
  | io :: rest =>
    let step := DataReceiverPumpBody self io
    match step.outcome with
    | PumpOutcome.Continue =>
      let run := DataReceiverPump step.client rest
      { run with invoked := step.invoked ++ run.invoked }
    | outcome => { client := step.client, outcome := outcome, invoked := step.invoked }

/-! ### One-shot reply consumption -/

/-- The part of the `Windows::Data::Xml::Dom` interface that the client calls. The
library is not part of the repository, so its behaviour is a parameter.
`LoadXml` answers `none` when it raises; `NodeValue` and `GetNamedItem`
(`Attributes->GetNamedItem`) answer `none` for a null reference. -/
structure XmlDom (Doc Node : Type) where
  LoadXml : String → Option Doc
  GetElementsByTagName : Doc → String → List Node
  ChildNodes : Doc → List Node
  NodeName : Node → String
  NodeValue : Node → Option String
  GetNamedItem : Node → String → Option Node

/-- What an XML parser guarantees about element names, which are case-sensitive
and are taken from the text as they stand: when `GetElementsByTagName` finds an
element under a tag name other than the wildcard in a document that `LoadXml`
parsed from `text`, that name occurs in `text`, character by character. -/
def XmlDom.NamesFromText {Doc Node : Type} (dom : XmlDom Doc Node) : Prop :=
  ∀ (text : String) (doc : Doc) (tag : String), dom.LoadXml text = some doc → tag ≠ "*" →
    dom.GetElementsByTagName doc tag ≠ [] → tag.data <:+: text.data

/-- Modelled from the spec: the `CommandReply` ref class, whose header is not among
the sources; the spec's CommandReply record with the properties that
`ParseCommandReply` assigns. -/
structure CommandReply where
  Result : Bool := false
  Parameters : List (String × String) := []
  CommandName : String := ""
  OriginalCommandId : Nat := 0
  CommandContent : String := ""
  deriving DecidableEq, Repr

/-- The conversion `std::transform(..., ::towlower)`. -/
def towlower (s : String) : String := String.mk (s.data.map Char.toLower)

/-- The loop of `ParseCommandReply` over the `Parameter` elements. The flag is
`false` when an iteration dereferences a null attribute, which raises. -/
def insertParameters {Doc Node : Type} (dom : XmlDom Doc Node)
    (parameters : List (String × String)) : List Node → List (String × String) × Bool
  | [] => (parameters, true)
  | entry :: rest =>
    match dom.GetNamedItem entry "Name", dom.GetNamedItem entry "Value" with
    | some nameItem, some valueItem =>
      let name := (dom.NodeValue nameItem).getD ""
      let value := (dom.NodeValue valueItem).getD ""
      insertParameters dom (StdMap.assign parameters name value) rest
    | _, _ => (parameters, false)

/-- The loops `for (auto pair : msg->GetMetaData()) Parameters->Insert(key, value)`. -/
def insertAll (parameters : List (String × String)) (pairs : List (String × String)) :
    List (String × String) :=
  pairs.foldl (fun acc pair => StdMap.assign acc pair.1 pair.2) parameters

/-- The Name and Value attribute values of the `Parameter` elements that carry
both attributes, in document order, as the library reports them. -/
def parameterPairs {Doc Node : Type} (dom : XmlDom Doc Node) :
    List Node → List (String × String)
  | [] => []
  | entry :: rest =>
    match dom.GetNamedItem entry "Name", dom.GetNamedItem entry "Value" with
    | some nameItem, some valueItem =>
      ((dom.NodeValue nameItem).getD "", (dom.NodeValue valueItem).getD "") ::
        parameterPairs dom rest
    | _, _ => parameterPairs dom rest

/-- `IGTLinkClient::ParseCommandReply`. The first component is the returned `bool`,
or `none` when an exception leaves the function; the second is the caller's
`reply` object as the call leaves it. The deque holds pointers; the first
pointer equal to the one found is the first RTS command reply itself, which is
what erasing the first equal message removes. A null `Item(0)` or attribute is
dereferenced by the source, which raises. -/
def ParseCommandReply {Doc Node : Type} (dom : XmlDom Doc Node) (self : IGTLinkClient)
    (reply : CommandReply) : Option Bool × CommandReply × IGTLinkClient :=
  let reply := { reply with Result := false, Parameters := [] }
  match self.m_messages.find? Message.isRTSCommand with
  | none => (some false, reply, self)
  | some message =>
    -- m_messages.erase( std::find( m_messages.begin(), m_messages.end(), reply ) )
    let self := { self with m_messages := self.m_messages.erase message }
    let reply := { reply with
      CommandName := message.commandName,
      OriginalCommandId := message.commandId,
      CommandContent := towlower message.commandContent }
    match dom.LoadXml reply.CommandContent with
    | none => (none, reply, self)
    | some commandDoc =>
      match (dom.GetElementsByTagName commandDoc "Result").head? with
      | none => (none, reply, self)
      | some resultNode =>
        let reply := { reply with Result := decide (dom.NodeValue resultNode = some "true") }
        let inserted :=
          insertParameters dom reply.Parameters (dom.GetElementsByTagName commandDoc "Parameter")
        if inserted.2 then
          let reply := { reply with Parameters := insertAll inserted.1 message.metaData }
          (some true, { reply with Result := true }, self)
        else
          (none, { reply with Parameters := inserted.1 }, self)

/-- Modelled from the spec: the `TrackedFrameMessage` ref class filled by the second
overload of `ParseTrackedFrameReply`, whose header is not among the sources; the
spec's TrackedFrameSnapshot record with the properties this overload assigns.
`FrameSize` is what `SetImageSize` stores and `imageData` what `SetImageData`
stores. -/
structure TrackedFrameMessage where
  Result : Bool := false
  Parameters : List (String × String) := []
  FrameSize : List Nat := []
  ImageSizeBytes : Nat := 0
  imageData : List Nat := []
  NumberOfComponents : Nat := 0
  deriving DecidableEq, Repr

/-- `IGTLinkClient::ParseTrackedFrameReply( TrackedFrameMessage^ message )`. The
buffer is created from the first `GetImageSizeInBytes()` bytes behind
`GetImage()`; `Message.image` is that memory block. -/
def ParseTrackedFrameReply (self : IGTLinkClient) (message : TrackedFrameMessage) :
    Bool × TrackedFrameMessage × IGTLinkClient :=
  match self.m_messages.find? Message.isTrackedFrame with
  | none => (false, message, self)
  | some trackedFrameMsg =>
    -- m_messages.erase( replyIter )
    let self := { self with m_messages := self.m_messages.eraseP Message.isTrackedFrame }
    let parameters :=
      insertAll (insertAll message.Parameters trackedFrameMsg.metaData)
        trackedFrameMsg.customFrameFields
    (true,
      { message with
        Parameters := parameters,
        FrameSize := [trackedFrameMsg.frameSize.1, trackedFrameMsg.frameSize.2.1,
          trackedFrameMsg.frameSize.2.2],
        ImageSizeBytes := trackedFrameMsg.imageSizeInBytes,
        imageData := trackedFrameMsg.image.take trackedFrameMsg.imageSizeInBytes,
        NumberOfComponents := trackedFrameMsg.numberOfComponents,
        Result := true },
      self)

end IGTLinkClient

/-! ## `src/UWPOpenIGTLink/Content/IGTLinkClient.cxx` -/

namespace Content

/-- Modelled from the spec: the `TrackedFrame` ref class, whose header is not among
the sources; the spec's TrackedFrameSnapshot record with the properties that
`GetLatestTrackedFrame` assigns. `objectId` is the identity of the object that
`ref new TrackedFrame()` creates. -/
structure TrackedFrame where
  objectId : Nat
  customFrameFields : List (String × String) := []
  FrameSize : List Nat := []
  Timestamp : Int := 0
  ImageSizeBytes : Nat := 0
  imageData : List Nat := []
  NumberOfComponents : Nat := 0
  ScalarType : Nat := 0
  embeddedImageTransform : List Int := []
  ImageType : Nat := 0
  ImageOrientation : Nat := 0
  deriving DecidableEq, Repr

/-- Modelled from the spec: the `Command` ref class, whose header is not among the
sources; the spec's CommandReply record with the properties that
`GetLatestCommand` assigns. `objectId` is the identity of the object that
`ref new Command()` creates. -/
structure Command where
  objectId : Nat
  CommandContent : String := ""
  CommandName : String := ""
  OriginalCommandId : Nat := 0
  Result : Bool := false
  ErrorString : Option String := none
  Parameters : List (String × String) := []
  deriving DecidableEq, Repr

/-- Modelled from the spec: the member declarations of this revision's
`IGTLinkClient`, whose header is not among the sources. They are the spec's Message
Store (the deque `m_receiveMessages`) and Latest-State Cache (the maps
`m_receiveUWPMessages` and `m_receiveUWPCommands` from time stamp to decoded
object, iterated in key order). `objectsCreated` counts the executions of
`ref new`, which gives every created object its identity. -/
structure IGTLinkClient where
  m_receiveMessages : List Message := []
  m_receiveUWPMessages : List (Int × TrackedFrame) := []
  m_receiveUWPCommands : List (Int × Command) := []
  objectsCreated : Nat := 0
  m_cancellationTokenSource : CancellationTokenSource := {}
  m_clientSocket : ClientSocket := {}
  deriving DecidableEq, Repr

namespace IGTLinkClient

/-- `IGTLinkClient::Disconnect`: cancel the token source, then close the socket. -/
def Disconnect (self : IGTLinkClient) : IGTLinkClient :=
  { self with
    m_cancellationTokenSource := self.m_cancellationTokenSource.cancel,
    m_clientSocket := self.m_clientSocket.CloseSocket }

/-- The reverse scan `for (replyIter = rbegin(); ...)` for the newest message
satisfying a `typeid` test. -/
def newest (messages : List Message) (test : Message → Bool) : Option Message :=
  messages.reverse.find? test

/-- `IGTLinkClient::GetLatestTrackedFrameTimestamp`. -/
def GetLatestTrackedFrameTimestamp (self : IGTLinkClient) : Int :=
  match newest self.m_receiveMessages Message.isTrackedFrame with
  | some m => m.timeStamp
  | none => -1

/-- `IGTLinkClient::GetOldestTrackedFrameTimestamp`. -/
def GetOldestTrackedFrameTimestamp (self : IGTLinkClient) : Int :=
  match self.m_receiveMessages.find? Message.isTrackedFrame with
  | some m => m.timeStamp
  | none => -1

/-- `IGTLinkClient::GetLatestCommandTimestamp`. -/
def GetLatestCommandTimestamp (self : IGTLinkClient) : Int :=
  match newest self.m_receiveMessages Message.isCommand with
  | some m => m.timeStamp
  | none => -1

/-- `IGTLinkClient::GetOldestCommandTimestamp`. -/
def GetOldestCommandTimestamp (self : IGTLinkClient) : Int :=
  match self.m_receiveMessages.find? Message.isCommand with
  | some m => m.timeStamp
  | none => -1

/-- The calls `frame->SetCustomFrameField(key, value)` over a list of pairs. -/
def setCustomFrameFields (fields : List (String × String)) (pairs : List (String × String)) :
    List (String × String) :=
  pairs.foldl (fun acc pair => StdMap.assign acc pair.1 pair.2) fields

/-- The object that `GetLatestTrackedFrame` builds from a tracked-frame message
(lines 189 to 220). -/
def decodeTrackedFrame (objectId : Nat) (trackedFrameMsg : Message) : TrackedFrame :=
  { objectId := objectId,
    customFrameFields :=
      setCustomFrameFields (setCustomFrameFields [] trackedFrameMsg.metaData)
        trackedFrameMsg.customFrameFields,
    FrameSize := [trackedFrameMsg.frameSize.1, trackedFrameMsg.frameSize.2.1,
      trackedFrameMsg.frameSize.2.2],
    Timestamp := trackedFrameMsg.timeStamp,
    ImageSizeBytes := trackedFrameMsg.imageSizeInBytes,
    imageData := trackedFrameMsg.image,
    NumberOfComponents := trackedFrameMsg.numberOfComponents,
    ScalarType := trackedFrameMsg.scalarType,
    embeddedImageTransform := trackedFrameMsg.embeddedImageTransform,
    ImageType := trackedFrameMsg.imageType % 65536,
    ImageOrientation := trackedFrameMsg.imageOrientation % 65536 }

/-- `IGTLinkClient::GetLatestTrackedFrame`. `frame` is the caller's handle (an
in-out reference) and `latestTimestamp` the optional pointer argument. The
result is the returned `bool`, the caller's handle after the call, and the
client. The cache stores handles, so the entry written at line 190 is the object
as completed by lines 193 to 220. -/
def GetLatestTrackedFrame (self : IGTLinkClient) (frame : Option TrackedFrame)
    (latestTimestamp : Option Int) : Bool × Option TrackedFrame × IGTLinkClient :=
  let timestamp :=
    match latestTimestamp with
    | none => self.GetLatestTrackedFrameTimestamp
    | some t => t
  match StdMap.find self.m_receiveUWPMessages timestamp with
  | some cached => (true, some cached, self)
  | none =>
    match newest self.m_receiveMessages Message.isTrackedFrame with
    | none => (false, frame, self)
    | some trackedFrameMsg =>
      if trackedFrameMsg.timeStamp ≤ timestamp then (false, frame, self)
      else
        let created := decodeTrackedFrame self.objectsCreated trackedFrameMsg
        (true, some created,
          { self with
            m_receiveUWPMessages := StdMap.assign self.m_receiveUWPMessages timestamp created,
            objectsCreated := self.objectsCreated + 1 })

/-- A sequence of `GetLatestTrackedFrame` calls on one client, each with its own
optional reference time stamp; the caller passes the same handle variable to
every call. -/
def runQueries (self : IGTLinkClient) (frame : Option TrackedFrame) :
    List (Option Int) → Option TrackedFrame × IGTLinkClient
  | [] => (frame, self)
  | latestTimestamp :: rest =>
    let r := GetLatestTrackedFrame self frame latestTimestamp
    runQueries r.2.2 r.2.1 rest

/-- The first node of `doc->ChildNodes` whose `NodeName` is `name`: the loops
`for (IXmlNode^ node : doc->ChildNodes) if (node->NodeName == name) { ...; break; }`. -/
def firstChildNamed {Doc Node : Type} (dom : UWPOpenIGTLink.IGTLinkClient.XmlDom Doc Node)
    (doc : Doc) (name : String) : Option Node :=
  (dom.ChildNodes doc).find? (fun node => decide (dom.NodeName node = name))

/-- Lines 282 to 319 of `GetLatestCommand`: what the payload document and the
metadata of the message add to the new `Command` object. -/
def decodeCommand {Doc Node : Type} (dom : UWPOpenIGTLink.IGTLinkClient.XmlDom Doc Node)
    (doc : Doc) (cmdMsg : Message) (cmd : Command) : Command :=
  let cmd :=
    match firstChildNamed dom doc "Result" with
    | some node => { cmd with Result := decide (dom.NodeValue node = some "true") }
    | none => cmd
  let cmd :=
    if !cmd.Result then
      match firstChildNamed dom doc "Error" with
      | some node => { cmd with ErrorString := dom.NodeValue node }
      | none => cmd
    else cmd
  { cmd with Parameters := UWPOpenIGTLink.IGTLinkClient.insertAll cmd.Parameters cmdMsg.metaData }

/-- `IGTLinkClient::GetLatestCommand`. `cmd` is the caller's handle (an in-out
reference) and `latestTimestamp` the optional pointer argument. The first
component of the result is the returned `bool`, or `none` when `LoadXml` raises;
the second is the caller's handle after the call. The cache stores handles, so
the entry written at line 274 is the object as the call leaves it. -/
def GetLatestCommand {Doc Node : Type} (dom : UWPOpenIGTLink.IGTLinkClient.XmlDom Doc Node)
    (self : IGTLinkClient) (cmd : Option Command) (latestTimestamp : Option Int) :
    Option Bool × Option Command × IGTLinkClient :=
  let timestamp :=
    match latestTimestamp with
    | none => self.GetLatestTrackedFrameTimestamp
    | some t => t
  match StdMap.find self.m_receiveUWPCommands timestamp with
  | some cached => (some true, some cached, self)
  | none =>
    match newest self.m_receiveMessages Message.isRTSCommand with
    | none => (some false, cmd, self)
    | some cmdMsg =>
      if cmdMsg.timeStamp ≤ timestamp then (some false, cmd, self)
      else
        let created : Command :=
          { objectId := self.objectsCreated,
            CommandContent := cmdMsg.commandContent,
            CommandName := cmdMsg.commandName,
            OriginalCommandId := cmdMsg.commandId }
        match dom.LoadXml created.CommandContent with
        | none =>
          (none, some created,
            { self with
              m_receiveUWPCommands := StdMap.assign self.m_receiveUWPCommands timestamp created,
              objectsCreated := self.objectsCreated + 1 })
        | some doc =>
          let decoded := decodeCommand dom doc cmdMsg created
          (some true, some decoded,
            { self with
              m_receiveUWPCommands := StdMap.assign self.m_receiveUWPCommands timestamp decoded,
              objectsCreated := self.objectsCreated + 1 })

/-- The pruning loop
`for (it = m.begin(); it != m.end(); ++it) if (it->first < oldest) it = m.erase(it);`.
After an erasure `it` is the successor of the erased entry and the loop's `++it`
steps past it; incrementing `m.end()` is undefined (`none`). -/
def pruneLoop {V : Type} (oldest : Int) : List (Int × V) → Option (List (Int × V))
  | [] => some []
  | [p] => if p.1 < oldest then none else some [p]
  | p :: q :: rest =>
    if p.1 < oldest then (pruneLoop oldest rest).map (fun r => q :: r)
    else (pruneLoop oldest (q :: rest)).map (fun r => p :: r)

/-- The result of one iteration of the loop body. -/
structure PumpStep where
  client : IGTLinkClient
  outcome : PumpOutcome
  socket : List SocketCall := []
  deriving DecidableEq, Repr

/-- Lines 442 to 473, the part of the loop body after the `if`/`else` on the
message type: trim the deque, then prune both caches. -/
def trimAndPrune (self : IGTLinkClient) (socket : List SocketCall) : PumpStep :=
  let self := { self with m_receiveMessages := eraseFront self.m_receiveMessages }
  let frames :=
    if self.GetOldestTrackedFrameTimestamp > 0 then
      pruneLoop self.GetOldestTrackedFrameTimestamp self.m_receiveUWPMessages
    else some self.m_receiveUWPMessages
  match frames with
  | none => { client := self, outcome := PumpOutcome.Undefined, socket := socket }
  | some frames =>
    let self := { self with m_receiveUWPMessages := frames }
    let commands :=
      if self.GetOldestCommandTimestamp > 0 then
        pruneLoop self.GetOldestTrackedFrameTimestamp self.m_receiveUWPCommands
      else some self.m_receiveUWPCommands
    match commands with
    | none => { client := self, outcome := PumpOutcome.Undefined, socket := socket }
    | some commands =>
      { client := { self with m_receiveUWPCommands := commands },
        outcome := PumpOutcome.Continue, socket := socket }

/-- One iteration of the `while` loop of `IGTLinkClient::DataReceiverPump`. -/
def DataReceiverPumpBody (self : IGTLinkClient) (io : PumpIteration) : PumpStep :=
  if io.isCanceled then { client := self, outcome := PumpOutcome.Return }
  else if !io.connectedBeforeHeader then { client := self, outcome := PumpOutcome.Return }
  else if io.numOfBytesReceived = 0 ∨ io.numOfBytesReceived ≠ io.headerSize then
    { client := self, outcome := PumpOutcome.Continue, socket := [SocketCall.ReceiveHeader] }
  else if !io.headerUnpacked then
    { client := self, outcome := PumpOutcome.Continue, socket := [SocketCall.ReceiveHeader] }
  else if io.createThrows then
    { client := self, outcome := PumpOutcome.Continue, socket := [SocketCall.ReceiveHeader] }
  else
    match io.bodyMsg with
    | none =>
      { client := self, outcome := PumpOutcome.Continue, socket := [SocketCall.ReceiveHeader] }
    | some bodyMsg =>
      if !bodyMsg.isStatus then
        if !io.connectedBeforeBody then
          { client := self, outcome := PumpOutcome.Return, socket := [SocketCall.ReceiveHeader] }
        else if !io.bodyUnpacked then
          { client := self, outcome := PumpOutcome.Continue,
            socket := [SocketCall.ReceiveHeader, SocketCall.ReceiveBody io.bodySizeToRead] }
        else
          trimAndPrune { self with m_receiveMessages := self.m_receiveMessages ++ [bodyMsg] }
            [SocketCall.ReceiveHeader, SocketCall.ReceiveBody io.bodySizeToRead]
      else
        if !io.connectedBeforeBody then
          { client := self, outcome := PumpOutcome.Return, socket := [SocketCall.ReceiveHeader] }
        else
          trimAndPrune self [SocketCall.ReceiveHeader, SocketCall.Skip io.bodySizeToRead]

/-- The state of a run of the receive loop: the client and whether the loop is
still running (`Continue`) or how it ended. -/
structure PumpRun where
  client : IGTLinkClient
  outcome : PumpOutcome
  deriving DecidableEq, Repr

/-- `IGTLinkClient::DataReceiverPump`: the loop, run over the observations of its
successive iterations. It stops at the first iteration that does not `Continue`. -/
def DataReceiverPump (self : IGTLinkClient) : List PumpIteration → PumpRun
  | [] => { client := self, outcome := PumpOutcome.Continue }
  | io :: rest =>
    let step := DataReceiverPumpBody self io
    match step.outcome with
    | PumpOutcome.Continue => DataReceiverPump step.client rest
    | outcome => { client := step.client, outcome := outcome }

end IGTLinkClient

end Content

/-! ## Lock scopes -/

/-- The two `Concurrency::critical_section` members of `IGTLinkClient`
(`IGTLinkClient.h`, lines 113 and 114). -/
inductive Mutex where
  | m_socketMutex
  | m_messageListMutex
  deriving DecidableEq, Repr

/-- What one thread does to the locks, in program order. -/
inductive LockEvent where
  | acquire (mutex : Mutex)
  | release (mutex : Mutex)
  deriving DecidableEq, Repr

/-- The declaration `critical_section::scoped_lock lock(mutex)` with the rest of
its block: the lock is taken at the declaration and released where the block is
left, also by a `return` inside it. `body` holds the lock events of the
statements in between. -/
def scoped_lock (mutex : Mutex) (body : List LockEvent) : List LockEvent :=
  LockEvent.acquire mutex :: body ++ [LockEvent.release mutex]

/-- Follows the lock events of one thread with the locks it holds. The answer is
`none` as soon as a lock is acquired while the other lock is held, and otherwise
the locks held at the end. -/
def lockWalk : List Mutex → List LockEvent → Option (List Mutex)
  | held, [] => some held
  | held, LockEvent.acquire mutex :: rest =>
    if held.any (fun other => decide (other ≠ mutex)) then none
    else lockWalk (mutex :: held) rest
  | held, LockEvent.release mutex :: rest => lockWalk (held.erase mutex) rest

/-- `IGTLinkClient::Disconnect`, in both revisions: the token source is cancelled
outside any lock and the socket is closed in a block locked with
`m_socketMutex`. -/
def DisconnectLocks : List LockEvent := scoped_lock Mutex.m_socketMutex []

/-- `IGTLinkClient::ConnectAsync`, in both revisions: it calls `Disconnect()`; the
connect loop and `SetTimeout` take no lock. The receive loop is started as a task
of its own. -/
def ConnectAsyncLocks : List LockEvent := DisconnectLocks

/-- `IGTLinkClient::SendMessage`, in both revisions: `Send` in a locked block. -/
def SendMessageLocks : List LockEvent := scoped_lock Mutex.m_socketMutex []

/-- `IGTLinkClient::SocketReceive`, in both revisions. -/
def SocketReceiveLocks : List LockEvent := scoped_lock Mutex.m_socketMutex []

/-- The end of the loop body of `DataReceiverPump`, in both revisions:
`if (size > MESSAGE_LIST_MAX_SIZE) { scoped_lock lock(m_messageListMutex); erase }`. -/
def eraseFrontLocks (messages : List Message) : List LockEvent :=
  if messages.length > MESSAGE_LIST_MAX_SIZE then scoped_lock Mutex.m_messageListMutex []
  else []

namespace IGTLinkClient

/-- The lock events of one iteration of the `while` loop of
`IGTLinkClient::DataReceiverPump`, along the path that `DataReceiverPumpBody`
takes. The header and the body are received, or the body skipped, in blocks
locked with `m_socketMutex`; the message is appended in a block locked with
`m_messageListMutex`; the callbacks are invoked after that block is left. -/
def DataReceiverPumpBodyLocks (self : IGTLinkClient) (io : PumpIteration) : List LockEvent :=
  if io.isCanceled then []
  else if !io.connectedBeforeHeader then scoped_lock Mutex.m_socketMutex []
  else if io.numOfBytesReceived = 0 ∨ io.numOfBytesReceived ≠ io.headerSize then
    scoped_lock Mutex.m_socketMutex []
  else if !io.headerUnpacked then scoped_lock Mutex.m_socketMutex []
  else if io.createThrows then scoped_lock Mutex.m_socketMutex []
  else
    match io.bodyMsg with
    | none => scoped_lock Mutex.m_socketMutex []
    | some bodyMsg =>
      if !bodyMsg.isStatus then
        if !io.connectedBeforeBody then
          scoped_lock Mutex.m_socketMutex [] ++ scoped_lock Mutex.m_socketMutex []
        else if !io.bodyUnpacked then
          scoped_lock Mutex.m_socketMutex [] ++ scoped_lock Mutex.m_socketMutex []
        else
          let saved := { self with m_messages := self.m_messages ++ [bodyMsg] }
          let calls :=
            if !bodyMsg.isTrackedFrame then
              invokeCallbacks (if bodyMsg.isTrackedFrame then some bodyMsg else none)
                saved.m_trackedFrameCallbacks
            else ([], true)
          scoped_lock Mutex.m_socketMutex [] ++ scoped_lock Mutex.m_socketMutex [] ++
            scoped_lock Mutex.m_messageListMutex [] ++
            (if calls.2 then eraseFrontLocks saved.m_messages else [])
      else
        if !io.connectedBeforeBody then
          scoped_lock Mutex.m_socketMutex [] ++ scoped_lock Mutex.m_socketMutex []
        else
          scoped_lock Mutex.m_socketMutex [] ++ scoped_lock Mutex.m_socketMutex [] ++
            eraseFrontLocks self.m_messages

/-- The lock events of a run of `IGTLinkClient::DataReceiverPump`. -/
def DataReceiverPumpLocks (self : IGTLinkClient) : List PumpIteration → List LockEvent
  | [] => []
  | io :: rest =>
    let step := DataReceiverPumpBody self io
    match step.outcome with
    | PumpOutcome.Continue =>
      DataReceiverPumpBodyLocks self io ++ DataReceiverPumpLocks step.client rest
    | _ => DataReceiverPumpBodyLocks self io

/-- `IGTLinkClient::ParseCommandReply`: the search and the erasure are in a block
locked with `m_messageListMutex`; the decoding follows the block. -/
def ParseCommandReplyLocks : List LockEvent := scoped_lock Mutex.m_messageListMutex []

/-- `IGTLinkClient::ParseTrackedFrameReply`, both overloads: the search and the
erasure are in a block locked with `m_messageListMutex`. -/
def ParseTrackedFrameReplyLocks : List LockEvent := scoped_lock Mutex.m_messageListMutex []

end IGTLinkClient

namespace Content.IGTLinkClient

/-- `IGTLinkClient::GetLatestTrackedFrameTimestamp`: the lock is declared first and
held to the end of the function. -/
def GetLatestTrackedFrameTimestampLocks : List LockEvent :=
  scoped_lock Mutex.m_messageListMutex []

/-- `IGTLinkClient::GetOldestTrackedFrameTimestamp`. -/
def GetOldestTrackedFrameTimestampLocks : List LockEvent :=
  scoped_lock Mutex.m_messageListMutex []

/-- `IGTLinkClient::GetLatestCommandTimestamp`. -/
def GetLatestCommandTimestampLocks : List LockEvent :=
  scoped_lock Mutex.m_messageListMutex []

/-- `IGTLinkClient::GetOldestCommandTimestamp`. -/
def GetOldestCommandTimestampLocks : List LockEvent :=
  scoped_lock Mutex.m_messageListMutex []

/-- The lock events of `IGTLinkClient::GetLatestTrackedFrame`: the call of
`GetLatestTrackedFrameTimestamp` when since is omitted, then, unless the cache
holds the key, the block that scans the deque. -/
def GetLatestTrackedFrameLocks (self : IGTLinkClient) (latestTimestamp : Option Int) :
    List LockEvent :=
  let reference :=
    match latestTimestamp with
    | none => GetLatestTrackedFrameTimestampLocks
    | some _ => []
  let timestamp :=
    match latestTimestamp with
    | none => self.GetLatestTrackedFrameTimestamp
    | some t => t
  match StdMap.find self.m_receiveUWPMessages timestamp with
  | some _ => reference
  | none => reference ++ scoped_lock Mutex.m_messageListMutex []

/-- The lock events of `IGTLinkClient::GetLatestCommand`. -/
def GetLatestCommandLocks (self : IGTLinkClient) (latestTimestamp : Option Int) :
    List LockEvent :=
  let reference :=
    match latestTimestamp with
    | none => GetLatestTrackedFrameTimestampLocks
    | some _ => []
  let timestamp :=
    match latestTimestamp with
    | none => self.GetLatestTrackedFrameTimestamp
    | some t => t
  match StdMap.find self.m_receiveUWPCommands timestamp with
  | some _ => reference
  | none => reference ++ scoped_lock Mutex.m_messageListMutex []

/-- The lock events of the pruning loop: its test calls
`GetOldestTrackedFrameTimestamp` once for every entry that the loop visits. -/
def pruneLoopLocks {V : Type} (oldest : Int) : List (Int × V) → List LockEvent
  | [] => []
  | [_] => GetOldestTrackedFrameTimestampLocks
  | p :: q :: rest =>
    if p.1 < oldest then GetOldestTrackedFrameTimestampLocks ++ pruneLoopLocks oldest rest
    else GetOldestTrackedFrameTimestampLocks ++ pruneLoopLocks oldest (q :: rest)

/-- The lock events of lines 442 to 473, along the path that `trimAndPrune` takes. -/
def trimAndPruneLocks (self : IGTLinkClient) : List LockEvent :=
  let trim := eraseFrontLocks self.m_receiveMessages
  let self := { self with m_receiveMessages := eraseFront self.m_receiveMessages }
  let frameLocks :=
    GetOldestTrackedFrameTimestampLocks ++
      (if self.GetOldestTrackedFrameTimestamp > 0 then
        pruneLoopLocks self.GetOldestTrackedFrameTimestamp self.m_receiveUWPMessages
      else [])
  let frames :=
    if self.GetOldestTrackedFrameTimestamp > 0 then
      pruneLoop self.GetOldestTrackedFrameTimestamp self.m_receiveUWPMessages
    else some self.m_receiveUWPMessages
  match frames with
  | none => trim ++ frameLocks
  | some frames =>
    let self := { self with m_receiveUWPMessages := frames }
    trim ++ frameLocks ++ GetOldestCommandTimestampLocks ++
      (if self.GetOldestCommandTimestamp > 0 then
        pruneLoopLocks self.GetOldestTrackedFrameTimestamp self.m_receiveUWPCommands
      else [])

/-- The lock events of one iteration of the `while` loop of
`IGTLinkClient::DataReceiverPump`, along the path that `DataReceiverPumpBody`
takes. -/
def DataReceiverPumpBodyLocks (self : IGTLinkClient) (io : PumpIteration) : List LockEvent :=
  if io.isCanceled then []
  else if !io.connectedBeforeHeader then scoped_lock Mutex.m_socketMutex []
  else if io.numOfBytesReceived = 0 ∨ io.numOfBytesReceived ≠ io.headerSize then
    scoped_lock Mutex.m_socketMutex []
  else if !io.headerUnpacked then scoped_lock Mutex.m_socketMutex []
  else if io.createThrows then scoped_lock Mutex.m_socketMutex []
  else
    match io.bodyMsg with
    | none => scoped_lock Mutex.m_socketMutex []
    | some bodyMsg =>
      if !bodyMsg.isStatus then
        if !io.connectedBeforeBody then
          scoped_lock Mutex.m_socketMutex [] ++ scoped_lock Mutex.m_socketMutex []
        else if !io.bodyUnpacked then
          scoped_lock Mutex.m_socketMutex [] ++ scoped_lock Mutex.m_socketMutex []
        else
          scoped_lock Mutex.m_socketMutex [] ++ scoped_lock Mutex.m_socketMutex [] ++
            scoped_lock Mutex.m_messageListMutex [] ++
            trimAndPruneLocks { self with m_receiveMessages := self.m_receiveMessages ++ [bodyMsg] }
      else
        if !io.connectedBeforeBody then
          scoped_lock Mutex.m_socketMutex [] ++ scoped_lock Mutex.m_socketMutex []
        else
          scoped_lock Mutex.m_socketMutex [] ++ scoped_lock Mutex.m_socketMutex [] ++
            trimAndPruneLocks self

/-- The lock events of a run of `IGTLinkClient::DataReceiverPump`. -/
def DataReceiverPumpLocks (self : IGTLinkClient) : List PumpIteration → List LockEvent
  | [] => []
  | io :: rest =>
    let step := DataReceiverPumpBody self io
    match step.outcome with
    | PumpOutcome.Continue =>
      DataReceiverPumpBodyLocks self io ++ DataReceiverPumpLocks step.client rest
    | _ => DataReceiverPumpBodyLocks self io

end Content.IGTLinkClient

/-! ## Sample data -/

namespace Sample

/-- A tracked-frame message with the given time stamp: a 64 x 64 x 1 image with one
component. -/
def trackedFrame (timeStamp : Int) : Message :=
  { typeId := MessageType.TrackedFrameMessage, timeStamp := timeStamp,
    frameSize := (64, 64, 1), numberOfComponents := 1, imageSizeInBytes := 4096,
    image := List.replicate 4096 0 }

/-- A message of a type the client has no special handling for. -/
def transform (timeStamp : Int) : Message :=
  { typeId := MessageType.Other "TRANSFORM", timeStamp := timeStamp }

/-- The reply to a command: the payload reports a failure. -/
def commandReply (timeStamp : Int) : Message :=
  { typeId := MessageType.RTSCommandMessage, timeStamp := timeStamp,
    commandName := "RequestChannelIds", commandId := 7,
    commandContent := "<Command><Result>false</Result><Error>bad param</Error>" ++
      "<Parameter Name=\"X\" Value=\"1\"/></Command>" }

/-- 201 tracked frames with time stamps 0 to 200, in arrival order. -/
def history : List Message := (List.range 201).map (fun i : Nat => trackedFrame (Int.ofNat i))

/-- A subscriber that returns normally. -/
def subscriber : Callback := fun _ => CallResult.Returned

/-- A freshly constructed client with one subscriber registered. -/
def subscribed : IGTLinkClient :=
  (IGTLinkClient.RegisterTrackedFrameCallback {} subscriber).2

/-- An element of a document parsed in advance: tag name, node value, attributes. -/
structure Element where
  name : String
  value : Option String := none
  attributes : List (String × String) := []
  deriving DecidableEq, Repr

/-- A node handed out by the stand-in library: an element or an attribute value. -/
inductive Node where
  | element (e : Element)
  | attribute (value : String)
  deriving DecidableEq, Repr

/-- A stand-in for the XML library that hands the client the nodes of `document`
whatever the text: `LoadXml` answers `document` for every text, every element is
a child of the document, an element's node value is its text, and look-ups go
by exact tag and attribute name. It shows what the client does with the nodes
it is handed, not what a parser makes of a text; for that see `w3c`. -/
def dom (document : List Element) : IGTLinkClient.XmlDom (List Element) Node :=
  { LoadXml := fun _ => some document,
    GetElementsByTagName := fun doc tag =>
      (doc.filter (fun e => decide (e.name = tag))).map Node.element,
    ChildNodes := fun doc => doc.map Node.element,
    NodeName := fun node =>
      match node with
      | Node.element e => e.name
      | Node.attribute _ => "#attribute",
    NodeValue := fun node =>
      match node with
      | Node.element e => e.value
      | Node.attribute value => some value,
    GetNamedItem := fun node name =>
      match node with
      | Node.element e => (StdMap.find e.attributes name).map Node.attribute
      | Node.attribute _ => none }

/-- A stand-in for the XML library that follows the W3C DOM on the texts it knows.
`known` pairs a text with the elements of its document, the root first and the
others in document order, under the names and with the attribute values that
the text spells. `LoadXml` raises on any other text; the children of a document
are its root element; look-ups go by exact, case-sensitive name; the node value
of an element is null and that of an attribute is its value. -/
def w3c (known : List (String × List Element)) : IGTLinkClient.XmlDom (List Element) Node :=
  { LoadXml := fun text => StdMap.find known text,
    GetElementsByTagName := fun doc tag =>
      (doc.filter (fun e => decide (e.name = tag))).map Node.element,
    ChildNodes := fun doc => doc.head?.toList.map Node.element,
    NodeName := fun node =>
      match node with
      | Node.element e => e.name
      | Node.attribute _ => "#attribute",
    NodeValue := fun node =>
      match node with
      | Node.element _ => none
      | Node.attribute value => some value,
    GetNamedItem := fun node name =>
      match node with
      | Node.element e => (StdMap.find e.attributes name).map Node.attribute
      | Node.attribute _ => none }

/-- The payload of `commandReply` as the stand-in parser reports it. -/
def failureDocument : List Element :=
  [{ name := "Command" }, { name := "Result", value := some "false" },
    { name := "Error", value := some "bad param" },
    { name := "Parameter", attributes := [("Name", "X"), ("Value", "1")] }]

/-- A client of the cache revision after this history: a tracked frame with time
stamp 5 arrives, then 199 other messages; the newest frame since 3 is queried;
one more message arrives, which evicts the tracked frame. -/
def staleClient : Content.IGTLinkClient :=
  (Content.IGTLinkClient.DataReceiverPump
    (Content.IGTLinkClient.GetLatestTrackedFrame
      (Content.IGTLinkClient.DataReceiverPump {}
        (PumpIteration.receive (trackedFrame 5) ::
          List.replicate 199 (PumpIteration.receive (transform 7)))).client
      none (some 3)).2.2
    [PumpIteration.receive (transform 7)]).client

/-- A client of the cache revision that received tracked frames with time stamps 5
and 2, in this order. -/
def unorderedClient : Content.IGTLinkClient :=
  (Content.IGTLinkClient.DataReceiverPump {}
    [PumpIteration.receive (trackedFrame 5), PumpIteration.receive (trackedFrame 2)]).client

/-- A client of the cache revision after this history: tracked frames with time
stamps 1 and 5 arrive; the newest frame since 3 is queried; a tracked frame with
time stamp 9 arrives. -/
def overtakenClient : Content.IGTLinkClient :=
  (Content.IGTLinkClient.DataReceiverPump
    (Content.IGTLinkClient.GetLatestTrackedFrame
      (Content.IGTLinkClient.DataReceiverPump {}
        [PumpIteration.receive (trackedFrame 1), PumpIteration.receive (trackedFrame 5)]).client
      none (some 3)).2.2
    [PumpIteration.receive (trackedFrame 9)]).client

/-- A client of the cache revision that received one tracked frame, with time
stamp 5. -/
def oneFrameClient : Content.IGTLinkClient :=
  (Content.IGTLinkClient.DataReceiverPump {} [PumpIteration.receive (trackedFrame 5)]).client

/-- A command message (not a reply) with the given time stamp. -/
def command (timeStamp : Int) : Message :=
  { typeId := MessageType.CommandMessage, timeStamp := timeStamp,
    commandName := "Get", commandId := 3, commandContent := "<Command/>" }

/-- A status message, the keep-alive of the protocol. -/
def status (timeStamp : Int) : Message :=
  { typeId := MessageType.StatusMessage, timeStamp := timeStamp }

/-- An iteration whose header announces a message of 100 body bytes for which the
factory returns no object. -/
def unknownType : PumpIteration :=
  { isCanceled := false, connectedBeforeHeader := true, numOfBytesReceived := 58,
    headerSize := 58, headerUnpacked := true, bodyMsg := none, bodySizeToRead := 100,
    connectedBeforeBody := true, bodyUnpacked := true }

/-- An iteration whose header announces a message of 100 body bytes at which the
factory raises. -/
def factoryRaises : PumpIteration :=
  { isCanceled := false, connectedBeforeHeader := true, numOfBytesReceived := 58,
    headerSize := 58, headerUnpacked := true, createThrows := true, bodyMsg := none,
    bodySizeToRead := 100, connectedBeforeBody := true, bodyUnpacked := true }

/-- An iteration whose header announces a status message of 30 body bytes. -/
def keepAlive : PumpIteration :=
  { isCanceled := false, connectedBeforeHeader := true, numOfBytesReceived := 58,
    headerSize := 58, headerUnpacked := true, bodyMsg := some (status 6), bodySizeToRead := 30,
    connectedBeforeBody := true, bodyUnpacked := true }

/-- A client of the cache revision after this history: a tracked frame with time
stamp 5 arrives and the newest frame is queried with since = 1 and with
since = 2. -/
def twiceQueriedClient : Content.IGTLinkClient :=
  (Content.IGTLinkClient.runQueries oneFrameClient none [some 1, some 2]).2

/-- A client of the cache revision after this history: a tracked frame with time
stamp 5 arrives and the newest frame is queried with since = 3. -/
def onceQueriedClient : Content.IGTLinkClient :=
  (Content.IGTLinkClient.runQueries oneFrameClient none [some 3]).2

/-- A client of the cache revision after this history: a command reply with time
stamp 8 arrives and the newest command is queried with since = 4. -/
def commandQueriedClient : Content.IGTLinkClient :=
  (Content.IGTLinkClient.GetLatestCommand (dom failureDocument)
    (Content.IGTLinkClient.DataReceiverPump {} [PumpIteration.receive (commandReply 8)]).client
    none (some 4)).2.2

/-- A client of the cache revision after this history: command replies with time
stamps 5 and 30 arrive; the newest command is queried with since = 20 and with
since = 25; a command message with time stamp 1 arrives. -/
def twoCommandsClient : Content.IGTLinkClient :=
  (Content.IGTLinkClient.DataReceiverPump
    (Content.IGTLinkClient.GetLatestCommand (dom failureDocument)
      (Content.IGTLinkClient.GetLatestCommand (dom failureDocument)
        (Content.IGTLinkClient.DataReceiverPump {}
          [PumpIteration.receive (commandReply 5), PumpIteration.receive (commandReply 30)]).client
        none (some 20)).2.2
      none (some 25)).2.2
    [PumpIteration.receive (command 1)]).client

/-- An iteration in which the body of a tracked frame arrives but does not unpack. -/
def corruptBody : PumpIteration :=
  { isCanceled := false, connectedBeforeHeader := true, numOfBytesReceived := 58,
    headerSize := 58, headerUnpacked := true, bodyMsg := some (trackedFrame 9),
    bodySizeToRead := 4200, connectedBeforeBody := true, bodyUnpacked := false }

/-- A subscriber that raises. -/
def failing : Callback := fun _ => CallResult.Threw

/-- A freshly constructed client on which three subscribers are registered: one
that returns (token 0), one that raises (token 1), one that returns (token 2). -/
def failingSecond : IGTLinkClient :=
  (IGTLinkClient.runRegistryCalls {}
    [IGTLinkClient.RegistryCall.Register subscriber,
      IGTLinkClient.RegistryCall.Register failing,
      IGTLinkClient.RegistryCall.Register subscriber]).2

/-- Four registrations, the first of which is unregistered again. -/
def registryCalls : List IGTLinkClient.RegistryCall :=
  [IGTLinkClient.RegistryCall.Register subscriber,
    IGTLinkClient.RegistryCall.Register subscriber,
    IGTLinkClient.RegistryCall.Unregister 0,
    IGTLinkClient.RegistryCall.Register subscriber,
    IGTLinkClient.RegistryCall.Register subscriber]

/-- The reply to a command whose metadata holds the keys X and Y. -/
def collidingReply (timeStamp : Int) : Message :=
  { typeId := MessageType.RTSCommandMessage, timeStamp := timeStamp,
    metaData := [("X", "2"), ("Y", "3")],
    commandName := "Get", commandId := 3,
    commandContent := "<Command><Result>true</Result><Parameter Name=\"X\" Value=\"1\"/>" ++
      "<Parameter Name=\"Z\" Value=\"4\"/></Command>" }

/-- The lower-cased payload of `commandReply` as the W3C DOM reports it. -/
def loweredFailureDocument : List Element :=
  [{ name := "command" }, { name := "result", value := some "false" },
    { name := "error", value := some "bad param" },
    { name := "parameter", attributes := [("name", "x"), ("value", "1")] }]

/-- The lower-cased payload of `collidingReply` as the W3C DOM reports it. -/
def loweredCollidingDocument : List Element :=
  [{ name := "command" }, { name := "result", value := some "true" },
    { name := "parameter", attributes := [("name", "x"), ("value", "1")] },
    { name := "parameter", attributes := [("name", "z"), ("value", "4")] }]

/-- The texts that the stand-in `w3c` parses: the payload of `commandReply` as it
is sent, the same payload lower-cased, and the lower-cased payload of
`collidingReply`, each with its document. -/
def library : List (String × List Element) :=
  [((commandReply 0).commandContent, failureDocument),
    (IGTLinkClient.towlower (commandReply 0).commandContent, loweredFailureDocument),
    (IGTLinkClient.towlower (collidingReply 0).commandContent, loweredCollidingDocument)]

/-- A client of the cache revision that received a command message with time
stamp 3, a command reply with time stamp 8 and a tracked frame with time stamp 5,
in this order. -/
def mixedClient : Content.IGTLinkClient :=
  (Content.IGTLinkClient.DataReceiverPump {}
    [PumpIteration.receive (command 3), PumpIteration.receive (commandReply 8),
      PumpIteration.receive (trackedFrame 5)]).client

/-- A transport on which every connect attempt fails at once. -/
def refusing (attempts : Nat) : List ConnectAttempt :=
  List.replicate attempts { errorCode := -1 }

end Sample

end UWPOpenIGTLink

/-! # Properties -/

namespace UWPOpenIGTLink

/-! ## `std::map` -/

namespace StdMap

variable {K V : Type}

theorem find_erase_self [DecidableEq K] (m : List (K × V)) (k : K) :
    find (erase m k) k = none := by
  unfold find erase
  rw [List.find?_filter]
  have hnone : List.find?
      (fun a : K × V => decide ((!decide (a.1 = k)) = true ∧ decide (a.1 = k) = true)) m = none := by
    rw [List.find?_eq_none]
    intro a _
    by_cases h : a.1 = k <;> simp [h]
  rw [hnone]
  rfl

theorem find_erase_ne [DecidableEq K] (m : List (K × V)) (k other : K) (h : other ≠ k) :
    find (erase m k) other = find m other := by
  unfold find erase
  rw [List.find?_filter]
  have hfun : (fun a : K × V => decide ((!decide (a.1 = k)) = true ∧ decide (a.1 = other) = true)) =
      (fun a : K × V => decide (a.1 = other)) := by
    funext a
    by_cases ho : a.1 = other
    · have hk : ¬ a.1 = k := fun e => h (ho.symm.trans e)
      simp [ho, hk, h]
    · simp [ho]
  rw [hfun]

theorem erase_of_find_none [DecidableEq K] (m : List (K × V)) (k : K) (h : find m k = none) :
    erase m k = m := by
  induction m with
  | nil => rfl
  | cons p rest ih =>
    by_cases hk : p.1 = k
    · simp [find, List.find?_cons, hk] at h
    · have hrest : find rest k = none := by
        simpa [find, List.find?_cons, hk] using h
      have := ih hrest
      simp only [erase] at this ⊢
      simp [List.filter_cons, hk, this]

theorem find_insertSorted_self [DecidableEq K] [LT K] [DecidableRel (fun a b : K => a < b)]
    (m : List (K × V)) (k : K) (v : V) (h : ∀ p ∈ m, p.1 ≠ k) :
    find (insertSorted k v m) k = some v := by
  induction m with
  | nil => simp [find, insertSorted]
  | cons p rest ih =>
    have hp : ¬ p.1 = k := h p (List.mem_cons_self _ _)
    have hrest := ih (fun q hq => h q (List.mem_cons_of_mem _ hq))
    unfold insertSorted
    split
    · simp [find]
    · simpa [find, List.find?_cons, hp] using hrest

theorem find_insertSorted_ne [DecidableEq K] [LT K] [DecidableRel (fun a b : K => a < b)]
    (m : List (K × V)) (k other : K) (v : V) (h : other ≠ k) :
    find (insertSorted k v m) other = find m other := by
  have hne : ¬ k = other := fun e => h e.symm
  induction m with
  | nil => simp [find, insertSorted, hne]
  | cons p rest ih =>
    unfold insertSorted
    split
    · simp [find, List.find?_cons, hne]
    · by_cases ho : p.1 = other
      · simp [find, List.find?_cons, ho]
      · simpa [find, List.find?_cons, ho] using ih

theorem erase_insertSorted_self [DecidableEq K] [LT K] [DecidableRel (fun a b : K => a < b)]
    (m : List (K × V)) (k : K) (v : V) :
    erase (insertSorted k v m) k = erase m k := by
  induction m with
  | nil => simp [erase, insertSorted]
  | cons p rest ih =>
    unfold insertSorted
    split
    · simp [erase, List.filter_cons]
    · simp only [erase] at ih ⊢
      simp [List.filter_cons, ih]

theorem mem_erase_key_ne [DecidableEq K] (m : List (K × V)) (k : K) :
    ∀ p ∈ erase m k, p.1 ≠ k := by
  intro p hp
  simp only [erase, List.mem_filter] at hp
  simpa using hp.2

theorem find_assign_self [DecidableEq K] [LT K] [DecidableRel (fun a b : K => a < b)]
    (m : List (K × V)) (k : K) (v : V) :
    find (assign m k v) k = some v :=
  find_insertSorted_self (erase m k) k v (mem_erase_key_ne m k)

theorem find_assign_ne [DecidableEq K] [LT K] [DecidableRel (fun a b : K => a < b)]
    (m : List (K × V)) (k other : K) (v : V) (h : other ≠ k) :
    find (assign m k v) other = find m other := by
  unfold assign
  rw [find_insertSorted_ne _ _ _ _ h, find_erase_ne _ _ _ h]

theorem erase_assign_self [DecidableEq K] [LT K] [DecidableRel (fun a b : K => a < b)]
    (m : List (K × V)) (k : K) (v : V) :
    erase (assign m k v) k = erase m k := by
  unfold assign
  rw [erase_insertSorted_self]
  exact erase_of_find_none _ _ (find_erase_self m k)

theorem mem_insertSorted [LT K] [DecidableRel (fun a b : K => a < b)]
    (m : List (K × V)) (k : K) (v : V) (p : K × V) :
    p ∈ insertSorted k v m ↔ p = (k, v) ∨ p ∈ m := by
  induction m with
  | nil => simp [insertSorted]
  | cons q rest ih =>
    unfold insertSorted
    split
    · simp
    · simp only [List.mem_cons, ih]
      constructor
      · rintro (h | h | h)
        · exact Or.inr (Or.inl h)
        · exact Or.inl h
        · exact Or.inr (Or.inr h)
      · rintro (h | h | h)
        · exact Or.inr (Or.inl h)
        · exact Or.inl h
        · exact Or.inr (Or.inr h)

theorem perm_insertSorted [LT K] [DecidableRel (fun a b : K => a < b)]
    (m : List (K × V)) (k : K) (v : V) :
    List.Perm (insertSorted k v m) ((k, v) :: m) := by
  induction m with
  | nil => exact List.Perm.refl _
  | cons q rest ih =>
    unfold insertSorted
    split
    · exact List.Perm.refl _
    · exact (List.Perm.cons q ih).trans (List.Perm.swap _ _ _)

theorem mem_assign [DecidableEq K] [LT K] [DecidableRel (fun a b : K => a < b)]
    (m : List (K × V)) (k : K) (v : V) (p : K × V) (h : p ∈ assign m k v) :
    p = (k, v) ∨ p ∈ m := by
  unfold assign at h
  rcases (mem_insertSorted _ _ _ _).mp h with h | h
  · exact Or.inl h
  · exact Or.inr (List.mem_filter.mp h).1

/-- An assignment keeps the keys of a map distinct. -/
theorem nodup_keys_assign [DecidableEq K] [LT K] [DecidableRel (fun a b : K => a < b)]
    (m : List (K × V)) (k : K) (v : V) (h : (keys m).Nodup) : (keys (assign m k v)).Nodup := by
  unfold assign keys at *
  have hperm := (perm_insertSorted (erase m k) k v).map Prod.fst
  rw [hperm.nodup_iff, List.map_cons, List.nodup_cons]
  refine ⟨?_, (List.filter_sublist m).map Prod.fst |>.nodup h⟩
  intro hmem
  obtain ⟨q, hq, hk⟩ := List.mem_map.mp hmem
  exact mem_erase_key_ne m k q hq hk

end StdMap

/-! ## The bounded message store -/

theorem eraseFront_eq_drop (l : List Message) :
    eraseFront l = l.drop (l.length - MESSAGE_LIST_MAX_SIZE) := by
  unfold eraseFront
  split
  · rfl
  · rename_i h
    have h0 : l.length - MESSAGE_LIST_MAX_SIZE = 0 := by omega
    rw [h0, List.drop_zero]

theorem eraseFront_length_le (l : List Message) :
    (eraseFront l).length ≤ MESSAGE_LIST_MAX_SIZE := by
  rw [eraseFront_eq_drop, List.length_drop]
  omega

/-- Trimming after every append keeps what a single trim of the whole history keeps. -/
theorem eraseFront_append_eraseFront (l rest : List Message) :
    eraseFront (eraseFront l ++ rest) = eraseFront (l ++ rest) := by
  simp only [eraseFront_eq_drop, List.length_append, List.length_drop]
  have h : l.length - MESSAGE_LIST_MAX_SIZE ≤ l.length := Nat.sub_le _ _
  rw [← List.drop_append_of_le_length h, List.drop_drop]
  exact congrArg (fun k => List.drop k (l ++ rest)) (by omega)

theorem eraseFront_of_length_le (l : List Message) (h : l.length ≤ MESSAGE_LIST_MAX_SIZE) :
    eraseFront l = l := by
  unfold eraseFront
  rw [if_neg (by omega)]

namespace IGTLinkClient

theorem invokeCallbacks_of_returning (tfMsg : Option Message) (callbacks : List (Nat × Callback))
    (h : ∀ p ∈ callbacks, ∀ arg, p.2 arg = CallResult.Returned) :
    (invokeCallbacks tfMsg callbacks).2 = true ∧
      (invokeCallbacks tfMsg callbacks).1 = callbacks.map (fun p => (p.1, tfMsg)) := by
  induction callbacks with
  | nil => exact ⟨rfl, rfl⟩
  | cons p rest ih =>
    have hp : p.2 tfMsg = CallResult.Returned := h p (List.mem_cons_self _ _) tfMsg
    have hrest := ih (fun q hq => h q (List.mem_cons_of_mem _ hq))
    simp only [invokeCallbacks, hp, List.map_cons]
    exact ⟨hrest.1, by rw [hrest.2]⟩

/-- An iteration that stores `m`, with callbacks that return, appends `m`, trims
the deque and continues. -/
theorem DataReceiverPumpBody_stores (self : IGTLinkClient) (io : PumpIteration) (m : Message)
    (hio : io.Stores m)
    (hcb : ∀ p ∈ self.m_trackedFrameCallbacks, ∀ arg, p.2 arg = CallResult.Returned) :
    (DataReceiverPumpBody self io).outcome = PumpOutcome.Continue ∧
      (DataReceiverPumpBody self io).client.m_messages = eraseFront (self.m_messages ++ [m]) ∧
      (DataReceiverPumpBody self io).client.m_trackedFrameCallbacks =
        self.m_trackedFrameCallbacks := by
  obtain ⟨h1, h2, h3, h4, h5, h6, h7, h8, h9, h10⟩ := hio
  have hne : ¬ (io.numOfBytesReceived = 0 ∨ io.numOfBytesReceived ≠ io.headerSize) := by
    rintro (h | h)
    · exact h3 h
    · exact h h4
  have hinv := invokeCallbacks_of_returning
    (if m.isTrackedFrame then some m else none) self.m_trackedFrameCallbacks hcb
  unfold DataReceiverPumpBody
  simp only [h1, h2, h5, h6, h7, h8, h9, h10, hne, if_false, Bool.not_true, Bool.not_false,
    Bool.false_eq_true, if_true]
  by_cases htf : m.isTrackedFrame = true
  · simp [htf]
  · simp only [Bool.not_eq_true] at htf
    simp only [htf, Bool.not_false, if_true, Bool.false_eq_true, if_false] at hinv ⊢
    simp [hinv.1]

/-- The deque after a run of storing iterations is the trimmed history. -/
theorem DataReceiverPump_stores (ios : List PumpIteration) (msgs : List Message)
    (hio : List.Forall₂ PumpIteration.Stores ios msgs) (self : IGTLinkClient)
    (hlen : self.m_messages.length ≤ MESSAGE_LIST_MAX_SIZE)
    (hcb : ∀ p ∈ self.m_trackedFrameCallbacks, ∀ arg, p.2 arg = CallResult.Returned) :
    (DataReceiverPump self ios).outcome = PumpOutcome.Continue ∧
      (DataReceiverPump self ios).client.m_messages = eraseFront (self.m_messages ++ msgs) := by
  induction hio generalizing self with
  | nil =>
    refine ⟨rfl, ?_⟩
    rw [List.append_nil, eraseFront_of_length_le _ hlen]
    rfl
  | @cons io m ios msgs hhead _ ih =>
    obtain ⟨hout, hstore, hcbs⟩ := DataReceiverPumpBody_stores self io m hhead hcb
    have hstep := ih (DataReceiverPumpBody self io).client
      (by rw [hstore]; exact eraseFront_length_le _) (by rw [hcbs]; exact hcb)
    simp only [DataReceiverPump, hout]
    refine ⟨hstep.1, ?_⟩
    rw [hstep.2, hstore, eraseFront_append_eraseFront, List.append_assoc, List.singleton_append]

end IGTLinkClient

/-- The canonical iterations for a list of non-status messages store them. -/
theorem forall₂_stores_receive (msgs : List Message) (h : ∀ m ∈ msgs, m.isStatus = false) :
    List.Forall₂ PumpIteration.Stores (msgs.map PumpIteration.receive) msgs := by
  induction msgs with
  | nil => exact List.Forall₂.nil
  | cons m rest ih =>
    refine List.Forall₂.cons ?_ (ih (fun x hx => h x (List.mem_cons_of_mem _ hx)))
    refine ⟨rfl, rfl, ?_, rfl, rfl, rfl, rfl, h m (List.mem_cons_self _ _), rfl, rfl⟩
    show (58 : Int) ≠ 0
    decide

namespace Content.IGTLinkClient

theorem trimAndPrune_messages (self : IGTLinkClient) (socket : List SocketCall) :
    (trimAndPrune self socket).client.m_receiveMessages = eraseFront self.m_receiveMessages := by
  unfold trimAndPrune
  dsimp only
  split
  · rfl
  · split <;> rfl

theorem trimAndPrune_outcome (self : IGTLinkClient) (socket : List SocketCall) :
    (trimAndPrune self socket).outcome = PumpOutcome.Continue ∨
      (trimAndPrune self socket).outcome = PumpOutcome.Undefined := by
  unfold trimAndPrune
  dsimp only
  split
  · exact Or.inr rfl
  · split
    · exact Or.inr rfl
    · exact Or.inl rfl

theorem pruneLoop_nil {V : Type} (oldest : Int) :
    pruneLoop oldest ([] : List (Int × V)) = some [] := rfl

/-- With both caches empty the pruning loops have nothing to visit. -/
theorem trimAndPrune_of_empty_caches (self : IGTLinkClient) (socket : List SocketCall)
    (hf : self.m_receiveUWPMessages = []) (hc : self.m_receiveUWPCommands = []) :
    (trimAndPrune self socket).outcome = PumpOutcome.Continue ∧
      (trimAndPrune self socket).client.m_receiveUWPMessages = [] ∧
      (trimAndPrune self socket).client.m_receiveUWPCommands = [] := by
  unfold trimAndPrune
  simp [hf, hc, pruneLoop_nil]

theorem cachePumpBody_stores (self : IGTLinkClient) (io : PumpIteration) (m : Message)
    (hio : io.Stores m) :
    DataReceiverPumpBody self io =
      trimAndPrune { self with m_receiveMessages := self.m_receiveMessages ++ [m] }
        [SocketCall.ReceiveHeader, SocketCall.ReceiveBody io.bodySizeToRead] := by
  obtain ⟨h1, h2, h3, h4, h5, h6, h7, h8, h9, h10⟩ := hio
  have hne : ¬ (io.numOfBytesReceived = 0 ∨ io.numOfBytesReceived ≠ io.headerSize) := by
    rintro (h | h)
    · exact h3 h
    · exact h h4
  unfold DataReceiverPumpBody
  simp only [h1, h2, h5, h6, h7, h8, h9, h10, hne, if_false, Bool.not_true, Bool.not_false,
    Bool.false_eq_true, if_true]

/-- Whatever the caches hold, a run of storing iterations that is still running
has the trimmed history in its deque. -/
theorem cachePump_stores (ios : List PumpIteration) (msgs : List Message)
    (hio : List.Forall₂ PumpIteration.Stores ios msgs) (self : IGTLinkClient)
    (hlen : self.m_receiveMessages.length ≤ MESSAGE_LIST_MAX_SIZE)
    (hrun : (DataReceiverPump self ios).outcome = PumpOutcome.Continue) :
    (DataReceiverPump self ios).client.m_receiveMessages =
      eraseFront (self.m_receiveMessages ++ msgs) := by
  induction hio generalizing self with
  | nil =>
    rw [List.append_nil, eraseFront_of_length_le _ hlen]
    rfl
  | @cons io m ios msgs hhead _ ih =>
    have hbody := cachePumpBody_stores self io m hhead
    have hstore := trimAndPrune_messages
      { self with m_receiveMessages := self.m_receiveMessages ++ [m] }
      [SocketCall.ReceiveHeader, SocketCall.ReceiveBody io.bodySizeToRead]
    rw [← hbody] at hstore
    rcases trimAndPrune_outcome { self with m_receiveMessages := self.m_receiveMessages ++ [m] }
      [SocketCall.ReceiveHeader, SocketCall.ReceiveBody io.bodySizeToRead] with hout | hout
    · rw [← hbody] at hout
      simp only [DataReceiverPump, hout] at hrun ⊢
      rw [ih _ (by rw [hstore]; exact eraseFront_length_le _) hrun, hstore,
        eraseFront_append_eraseFront, List.append_assoc, List.singleton_append]
    · rw [← hbody] at hout
      simp [DataReceiverPump, hout] at hrun

/-- With empty caches a run of storing iterations never leaves the loop. -/
theorem cachePump_stores_running (ios : List PumpIteration) (msgs : List Message)
    (hio : List.Forall₂ PumpIteration.Stores ios msgs) (self : IGTLinkClient)
    (hf : self.m_receiveUWPMessages = []) (hc : self.m_receiveUWPCommands = []) :
    (DataReceiverPump self ios).outcome = PumpOutcome.Continue := by
  induction hio generalizing self with
  | nil => rfl
  | @cons io m ios msgs hhead _ ih =>
    have hbody := cachePumpBody_stores self io m hhead
    obtain ⟨hout, hf2, hc2⟩ := trimAndPrune_of_empty_caches
      { self with m_receiveMessages := self.m_receiveMessages ++ [m] }
      [SocketCall.ReceiveHeader, SocketCall.ReceiveBody io.bodySizeToRead] hf hc
    rw [← hbody] at hout hf2 hc2
    simp only [DataReceiverPump, hout]
    exact ih _ hf2 hc2

end Content.IGTLinkClient

/-- C1. Message store bound, for the receive loops of both revisions. Let `ios` be
more than 200 consecutive loop iterations, each of which receives, decodes and
appends one message (`msgs`, in arrival order), starting from an empty deque and
with nothing removed from the deque in between. In the revision with callbacks
(callbacks that return) the loop is still running afterwards and the deque holds
exactly the last 200 messages of `msgs`, in arrival order. In the revision with
caches the deque holds the same whenever the loop is still running, and it is
still running when the caches start empty. -/
theorem message_store_keeps_newest_200 (ios : List PumpIteration) (msgs : List Message)
    (client : IGTLinkClient) (content : Content.IGTLinkClient)
    (hio : List.Forall₂ PumpIteration.Stores ios msgs)
    (hn : 200 < msgs.length)
    (hempty : client.m_messages = [])
    (hcb : ∀ p ∈ client.m_trackedFrameCallbacks, ∀ arg, p.2 arg = CallResult.Returned)
    (hempty2 : content.m_receiveMessages = []) :
    ((client.DataReceiverPump ios).outcome = PumpOutcome.Continue ∧
      (client.DataReceiverPump ios).client.m_messages = msgs.drop (msgs.length - 200) ∧
      (client.DataReceiverPump ios).client.m_messages.length = 200) ∧
    ((content.m_receiveUWPMessages = [] ∧ content.m_receiveUWPCommands = [] →
        (content.DataReceiverPump ios).outcome = PumpOutcome.Continue) ∧
      ((content.DataReceiverPump ios).outcome = PumpOutcome.Continue →
        (content.DataReceiverPump ios).client.m_receiveMessages =
            msgs.drop (msgs.length - 200) ∧
          (content.DataReceiverPump ios).client.m_receiveMessages.length = 200)) := by
  have hlast : eraseFront msgs = msgs.drop (msgs.length - 200) := eraseFront_eq_drop msgs
  have hlen : (msgs.drop (msgs.length - 200)).length = 200 := by
    rw [List.length_drop]; omega
  refine ⟨?_, ?_, ?_⟩
  · have h := IGTLinkClient.DataReceiverPump_stores ios msgs hio client
      (by rw [hempty]; exact Nat.zero_le _) hcb
    rw [hempty, List.nil_append, hlast] at h
    exact ⟨h.1, h.2, by rw [h.2]; exact hlen⟩
  · rintro ⟨hf, hc⟩
    exact Content.IGTLinkClient.cachePump_stores_running ios msgs hio content hf hc
  · intro hrun
    have h := Content.IGTLinkClient.cachePump_stores ios msgs hio content
      (by rw [hempty2]; exact Nat.zero_le _) hrun
    rw [hempty2, List.nil_append, hlast] at h
    exact ⟨h, by rw [h]; exact hlen⟩

theorem Sample.history_not_status : ∀ m ∈ Sample.history, m.isStatus = false := by
  intro m hm
  simp only [Sample.history, List.mem_map] at hm
  obtain ⟨i, _, rfl⟩ := hm
  rfl

/-- C1, at a concrete input: 201 tracked frames received by freshly constructed
clients of both revisions. -/
theorem message_store_keeps_newest_200_witness :
    200 < Sample.history.length ∧
    (((IGTLinkClient.DataReceiverPump {} (Sample.history.map PumpIteration.receive)).outcome =
        PumpOutcome.Continue ∧
      (IGTLinkClient.DataReceiverPump {} (Sample.history.map PumpIteration.receive)).client.m_messages =
        Sample.history.drop (Sample.history.length - 200) ∧
      (IGTLinkClient.DataReceiverPump {}
        (Sample.history.map PumpIteration.receive)).client.m_messages.length = 200) ∧
    ((({} : Content.IGTLinkClient).m_receiveUWPMessages = [] ∧
        ({} : Content.IGTLinkClient).m_receiveUWPCommands = [] →
        (Content.IGTLinkClient.DataReceiverPump {}
          (Sample.history.map PumpIteration.receive)).outcome = PumpOutcome.Continue) ∧
      ((Content.IGTLinkClient.DataReceiverPump {}
          (Sample.history.map PumpIteration.receive)).outcome = PumpOutcome.Continue →
        (Content.IGTLinkClient.DataReceiverPump {}
          (Sample.history.map PumpIteration.receive)).client.m_receiveMessages =
            Sample.history.drop (Sample.history.length - 200) ∧
          (Content.IGTLinkClient.DataReceiverPump {}
            (Sample.history.map PumpIteration.receive)).client.m_receiveMessages.length = 200))) :=
  have hlen : 200 < Sample.history.length := by simp [Sample.history]
  ⟨hlen, message_store_keeps_newest_200 (Sample.history.map PumpIteration.receive) Sample.history
    {} {} (forall₂_stores_receive Sample.history Sample.history_not_status) hlen rfl
    (fun _ hp => absurd hp (List.not_mem_nil _)) rfl⟩

/-! ## The callback registry -/

namespace IGTLinkClient

/-- On a well-typed counter the token returned is the key the callback is stored under. -/
theorem RegisterTrackedFrameCallback_token (self : IGTLinkClient) (f : Callback)
    (h64 : self.m_lastUnusedCallbackToken < UINT64_SIZE) :
    (self.RegisterTrackedFrameCallback f).1 = self.m_lastUnusedCallbackToken := by
  unfold RegisterTrackedFrameCallback
  dsimp only
  have hpos : 0 < UINT64_SIZE := Nat.two_pow_pos 64
  by_cases hlast : self.m_lastUnusedCallbackToken + 1 = UINT64_SIZE
  · rw [hlast, Nat.mod_self, Nat.zero_add]
    exact (Nat.mod_eq_of_lt (by omega)).trans (by omega)
  · rw [Nat.mod_eq_of_lt (by omega : self.m_lastUnusedCallbackToken + 1 < UINT64_SIZE)]
    have e : self.m_lastUnusedCallbackToken + 1 + UINT64_SIZE - 1 =
        self.m_lastUnusedCallbackToken + UINT64_SIZE := by omega
    rw [e, Nat.add_mod_right]
    exact Nat.mod_eq_of_lt h64

theorem UnregisterTrackedFrameCallback_unknown (self : IGTLinkClient) (token : Nat)
    (h : StdMap.find self.m_trackedFrameCallbacks token = none) :
    self.UnregisterTrackedFrameCallback token = (false, self) := by
  unfold UnregisterTrackedFrameCallback
  rw [h]
  rfl

theorem UnregisterTrackedFrameCallback_known (self : IGTLinkClient) (token : Nat) (f : Callback)
    (h : StdMap.find self.m_trackedFrameCallbacks token = some f) :
    self.UnregisterTrackedFrameCallback token =
      (true, { self with
        m_trackedFrameCallbacks := StdMap.erase self.m_trackedFrameCallbacks token }) := by
  unfold UnregisterTrackedFrameCallback
  rw [h]
  rfl

/-- C7. Register/unregister round trip. For every client whose token counter is a
`uint64` value and every callback `f`: the token `t` returned by
`RegisterTrackedFrameCallback(f)` is the key under which `f` is registered; the
first `UnregisterTrackedFrameCallback(t)` returns true and removes exactly the
entry of `t` (no entry of `t` is left, every other token keeps its callback, no
other member changes); the second returns false and changes nothing; and on any
client, unregistering a token that is not registered returns false and changes
nothing. -/
theorem register_unregister_round_trip (self : IGTLinkClient) (f : Callback)
    (h64 : self.m_lastUnusedCallbackToken < UINT64_SIZE) :
    StdMap.find (self.RegisterTrackedFrameCallback f).2.m_trackedFrameCallbacks
        (self.RegisterTrackedFrameCallback f).1 = some f ∧
    ((self.RegisterTrackedFrameCallback f).2.UnregisterTrackedFrameCallback
        (self.RegisterTrackedFrameCallback f).1).1 = true ∧
    StdMap.find ((self.RegisterTrackedFrameCallback f).2.UnregisterTrackedFrameCallback
        (self.RegisterTrackedFrameCallback f).1).2.m_trackedFrameCallbacks
        (self.RegisterTrackedFrameCallback f).1 = none ∧
    (∀ other, other ≠ (self.RegisterTrackedFrameCallback f).1 →
      StdMap.find ((self.RegisterTrackedFrameCallback f).2.UnregisterTrackedFrameCallback
          (self.RegisterTrackedFrameCallback f).1).2.m_trackedFrameCallbacks other =
        StdMap.find (self.RegisterTrackedFrameCallback f).2.m_trackedFrameCallbacks other) ∧
    ((self.RegisterTrackedFrameCallback f).2.UnregisterTrackedFrameCallback
        (self.RegisterTrackedFrameCallback f).1).2 =
      { (self.RegisterTrackedFrameCallback f).2 with
        m_trackedFrameCallbacks := StdMap.erase self.m_trackedFrameCallbacks
          self.m_lastUnusedCallbackToken } ∧
    (((self.RegisterTrackedFrameCallback f).2.UnregisterTrackedFrameCallback
        (self.RegisterTrackedFrameCallback f).1).2.UnregisterTrackedFrameCallback
        (self.RegisterTrackedFrameCallback f).1) =
      (false, ((self.RegisterTrackedFrameCallback f).2.UnregisterTrackedFrameCallback
        (self.RegisterTrackedFrameCallback f).1).2) ∧
    (∀ (client : IGTLinkClient) (token : Nat),
      StdMap.find client.m_trackedFrameCallbacks token = none →
        client.UnregisterTrackedFrameCallback token = (false, client)) := by
  have htoken := RegisterTrackedFrameCallback_token self f h64
  have hfind : StdMap.find (self.RegisterTrackedFrameCallback f).2.m_trackedFrameCallbacks
      self.m_lastUnusedCallbackToken = some f :=
    StdMap.find_assign_self _ _ _
  rw [htoken]
  have hun := UnregisterTrackedFrameCallback_known _ _ f hfind
  rw [hun]
  dsimp only
  have hgone : StdMap.find
      (StdMap.erase (self.RegisterTrackedFrameCallback f).2.m_trackedFrameCallbacks
        self.m_lastUnusedCallbackToken) self.m_lastUnusedCallbackToken = none :=
    StdMap.find_erase_self _ _
  refine ⟨hfind, rfl, hgone, ?_, ?_, ?_, UnregisterTrackedFrameCallback_unknown⟩
  · intro other hother
    exact StdMap.find_erase_ne _ _ _ hother
  · have hreg : (self.RegisterTrackedFrameCallback f).2.m_trackedFrameCallbacks =
        StdMap.assign self.m_trackedFrameCallbacks self.m_lastUnusedCallbackToken f := rfl
    rw [hreg, StdMap.erase_assign_self]
  · exact UnregisterTrackedFrameCallback_unknown _ _ hgone

/-- C7, at a concrete input: a callback registered on a freshly constructed client
gets token 0; unregistering token 0 succeeds once and fails the second time. -/
theorem register_unregister_round_trip_witness :
    (0 : Nat) < UINT64_SIZE ∧
    (RegisterTrackedFrameCallback {} Sample.subscriber).1 = 0 ∧
    (Sample.subscribed.UnregisterTrackedFrameCallback 0).1 = true ∧
    StdMap.find (Sample.subscribed.UnregisterTrackedFrameCallback 0).2.m_trackedFrameCallbacks 0 =
      none ∧
    ((Sample.subscribed.UnregisterTrackedFrameCallback 0).2.UnregisterTrackedFrameCallback 0).1 =
      false :=
  have h64 : (0 : Nat) < UINT64_SIZE := Nat.two_pow_pos 64
  have h := register_unregister_round_trip {} Sample.subscriber h64
  ⟨h64, rfl, h.2.1, h.2.2.1, congrArg Prod.fst h.2.2.2.2.2.1⟩

/-- The tokens handed out from counter value `c` are `c, c + 1, ...` as long as the
counter does not wrap. -/
theorem runRegistryCalls_tokens (calls : List RegistryCall) (self : IGTLinkClient)
    (h : self.m_lastUnusedCallbackToken + registrations calls ≤ UINT64_SIZE) :
    (runRegistryCalls self calls).1 =
      List.range' self.m_lastUnusedCallbackToken (registrations calls) := by
  induction calls generalizing self with
  | nil => rfl
  | cons call rest ih =>
    cases call with
    | Register f =>
      simp only [registrations] at h ⊢
      have h64 : self.m_lastUnusedCallbackToken < UINT64_SIZE := by omega
      have htoken := RegisterTrackedFrameCallback_token self f h64
      have hcounter : (self.RegisterTrackedFrameCallback f).2.m_lastUnusedCallbackToken =
          (self.m_lastUnusedCallbackToken + 1) % UINT64_SIZE := rfl
      simp only [runRegistryCalls, htoken, List.range'_succ]
      refine congrArg (List.cons self.m_lastUnusedCallbackToken) ?_
      by_cases hzero : registrations rest = 0
      · rw [ih _ (by rw [hcounter, hzero]; exact Nat.le_of_lt (Nat.mod_lt _ (Nat.two_pow_pos 64))),
          hzero]
        rfl
      · have hlt : self.m_lastUnusedCallbackToken + 1 < UINT64_SIZE := by omega
        have hmod : (self.m_lastUnusedCallbackToken + 1) % UINT64_SIZE =
            self.m_lastUnusedCallbackToken + 1 := Nat.mod_eq_of_lt hlt
        rw [ih _ (by rw [hcounter, hmod]; omega), hcounter, hmod]
    | Unregister token =>
      simp only [registrations] at h ⊢
      simp only [runRegistryCalls]
      have hcounter : (self.UnregisterTrackedFrameCallback token).2.m_lastUnusedCallbackToken =
          self.m_lastUnusedCallbackToken := by
        unfold UnregisterTrackedFrameCallback
        split <;> rfl
      rw [ih _ (by rw [hcounter]; exact h), hcounter]

/-- C8. Callback tokens are strictly increasing and never reused. For every
interleaved sequence of register and unregister calls on a freshly constructed
client (counter 0) with fewer than 2^64 registrations, the tokens returned by
`RegisterTrackedFrameCallback`, in call order, are 0, 1, 2, ...: each is strictly
greater than every token returned earlier, so they are pairwise distinct,
whatever was unregistered in between. -/
theorem callback_tokens_strictly_increasing (calls : List RegistryCall)
    (h : registrations calls < 2 ^ 64) :
    (runRegistryCalls {} calls).1 = List.range (registrations calls) ∧
    (runRegistryCalls {} calls).1.Pairwise (fun earlier later => earlier < later) ∧
    (runRegistryCalls {} calls).1.Nodup := by
  have htokens := runRegistryCalls_tokens calls {}
    (by show 0 + registrations calls ≤ 2 ^ 64; omega)
  have hrange : List.range' 0 (registrations calls) = List.range (registrations calls) :=
    (List.range_eq_range' _).symm
  rw [show ({} : IGTLinkClient).m_lastUnusedCallbackToken = 0 from rfl, hrange] at htokens
  rw [htokens]
  exact ⟨rfl, List.pairwise_lt_range _, List.nodup_range _⟩

/-- C8, at a concrete input: three registrations interleaved with the
unregistration of the first and of an unknown token yield the tokens 0, 1, 2. -/
theorem callback_tokens_strictly_increasing_witness :
    registrations [RegistryCall.Register Sample.subscriber, RegistryCall.Unregister 0,
      RegistryCall.Register Sample.subscriber, RegistryCall.Unregister 5,
      RegistryCall.Register Sample.subscriber] < 2 ^ 64 ∧
    (runRegistryCalls {} [RegistryCall.Register Sample.subscriber, RegistryCall.Unregister 0,
      RegistryCall.Register Sample.subscriber, RegistryCall.Unregister 5,
      RegistryCall.Register Sample.subscriber]).1 = [0, 1, 2] ∧
    (runRegistryCalls {} [RegistryCall.Register Sample.subscriber, RegistryCall.Unregister 0,
      RegistryCall.Register Sample.subscriber, RegistryCall.Unregister 5,
      RegistryCall.Register Sample.subscriber]).1.Pairwise
        (fun earlier later => earlier < later) :=
  have hn : registrations [RegistryCall.Register Sample.subscriber, RegistryCall.Unregister 0,
      RegistryCall.Register Sample.subscriber, RegistryCall.Unregister 5,
      RegistryCall.Register Sample.subscriber] < 2 ^ 64 := by decide
  have h := callback_tokens_strictly_increasing _ hn
  ⟨hn, h.1, h.2.1⟩

/-! ## Callback dispatch -/

/-- What the dispatch does in an iteration that stores `m`: nothing for a tracked
frame, and one call with a null pointer per registered callback otherwise. -/
theorem DataReceiverPumpBody_invoked (self : IGTLinkClient) (io : PumpIteration) (m : Message)
    (hio : io.Stores m)
    (hcb : ∀ p ∈ self.m_trackedFrameCallbacks, ∀ arg, p.2 arg = CallResult.Returned) :
    (DataReceiverPumpBody self io).invoked =
      if m.isTrackedFrame then []
      else self.m_trackedFrameCallbacks.map (fun p => (p.1, (none : Option Message))) := by
  obtain ⟨h1, h2, h3, h4, h5, h6, h7, h8, h9, h10⟩ := hio
  have hne : ¬ (io.numOfBytesReceived = 0 ∨ io.numOfBytesReceived ≠ io.headerSize) := by
    rintro (h | h)
    · exact h3 h
    · exact h h4
  have hinv := invokeCallbacks_of_returning
    (if m.isTrackedFrame then some m else none) self.m_trackedFrameCallbacks hcb
  unfold DataReceiverPumpBody
  simp only [h1, h2, h5, h6, h7, h8, h9, h10, hne, if_false, Bool.not_true, Bool.not_false,
    Bool.false_eq_true, if_true]
  by_cases htf : m.isTrackedFrame = true
  · simp [htf]
  · simp only [Bool.not_eq_true] at htf
    simp only [htf, Bool.not_false, if_true, Bool.false_eq_true, if_false] at hinv ⊢
    simp [hinv.1, hinv.2]

/-- C9, the code at the failing inputs. With one callback registered (token 0), an
iteration that decodes and stores a tracked frame invokes no callback, and an
iteration that decodes and stores a message of another type invokes the
callback once, with a null pointer. -/
theorem callback_dispatch_inverted :
    ((Sample.subscribed.DataReceiverPumpBody
        (PumpIteration.receive (Sample.trackedFrame 5))).outcome = PumpOutcome.Continue ∧
      (Sample.subscribed.DataReceiverPumpBody
        (PumpIteration.receive (Sample.trackedFrame 5))).client.m_messages =
          [Sample.trackedFrame 5] ∧
      (Sample.subscribed.DataReceiverPumpBody
        (PumpIteration.receive (Sample.trackedFrame 5))).invoked = []) ∧
    ((Sample.subscribed.DataReceiverPumpBody
        (PumpIteration.receive (Sample.transform 5))).outcome = PumpOutcome.Continue ∧
      (Sample.subscribed.DataReceiverPumpBody
        (PumpIteration.receive (Sample.transform 5))).client.m_messages =
          [Sample.transform 5] ∧
      (Sample.subscribed.DataReceiverPumpBody
        (PumpIteration.receive (Sample.transform 5))).invoked = [(0, none)]) :=
  ⟨⟨rfl, rfl, rfl⟩, ⟨rfl, rfl, rfl⟩⟩

/-! ## Command reply decoding -/

/-- Lower-casing leaves no capital R in a text. -/
theorem towlower_no_capital_R (s : String) : 'R' ∉ (towlower s).data := by
  intro hmem
  obtain ⟨c, _, hc⟩ := List.mem_map.mp hmem
  unfold Char.toLower at hc
  dsimp only at hc
  by_cases hupper : c.toNat ≥ 65 ∧ c.toNat ≤ 90
  · rw [if_pos hupper] at hc
    obtain ⟨h1, h2⟩ := hupper
    generalize c.toNat = n at hc h1 h2
    interval_cases n <;> exact absurd hc (by decide)
  · rw [if_neg hupper] at hc
    rw [hc] at hupper
    exact hupper (by decide)

/-- A parser that takes element names from the text finds no element named
`Result` in a document parsed from a lower-cased text. -/
theorem Result_not_found_of_lowered {Doc Node : Type} (dom : XmlDom Doc Node)
    (hdom : dom.NamesFromText) (content : String) (doc : Doc)
    (hdoc : dom.LoadXml (towlower content) = some doc) :
    dom.GetElementsByTagName doc "Result" = [] := by
  by_contra hfinds
  have hoccurs := hdom (towlower content) doc "Result" hdoc (by decide) hfinds
  exact towlower_no_capital_R content (List.IsInfix.subset hoccurs (by decide))

/-- With an RTS command reply in the deque and a parser that takes element names
from the text, the call erases the reply, copies its name, id and lower-cased
content, and is then left by an exception: `LoadXml` raises, or the look-up of
`Result` in the lower-cased document finds nothing and `Item(0)` is null. -/
theorem ParseCommandReply_raises_of_found {Doc Node : Type} (dom : XmlDom Doc Node)
    (hdom : dom.NamesFromText) (self : IGTLinkClient) (reply : CommandReply) (message : Message)
    (hfound : self.m_messages.find? Message.isRTSCommand = some message) :
    ParseCommandReply dom self reply =
      (none,
        { reply with
          Result := false, Parameters := [], CommandName := message.commandName,
          OriginalCommandId := message.commandId,
          CommandContent := towlower message.commandContent },
        { self with m_messages := self.m_messages.erase message }) := by
  unfold ParseCommandReply
  simp only [hfound]
  cases hdoc : dom.LoadXml (towlower message.commandContent) with
  | none => rfl
  | some doc =>
    simp only [Result_not_found_of_lowered dom hdom message.commandContent doc hdoc,
      List.head?_nil]

/-- A look-up that succeeds names an entry of the map. -/
theorem mem_of_find_eq_some {K V : Type} [DecidableEq K] (m : List (K × V)) (k : K) (v : V)
    (h : StdMap.find m k = some v) : (k, v) ∈ m := by
  unfold StdMap.find at h
  obtain ⟨p, hp, hv⟩ := Option.map_eq_some'.mp h
  have hkey : p.1 = k := by simpa using List.find?_some hp
  have hmem := List.mem_of_find?_eq_some hp
  rw [← hkey, ← hv]
  exact hmem

/-- The stand-in parser takes element names from the text, provided its table
spells each document's element names as the text does. -/
theorem w3c_namesFromText (known : List (String × List Sample.Element))
    (hknown : ∀ entry ∈ known, ∀ e ∈ entry.2, e.name.data <:+: entry.1.data) :
    (Sample.w3c known).NamesFromText := by
  intro text doc tag hdoc _ hfinds
  have hentry := mem_of_find_eq_some known text doc hdoc
  have hsome : ∃ e ∈ doc, e.name = tag := by
    by_contra hnone
    apply hfinds
    show (doc.filter (fun e => decide (e.name = tag))).map Sample.Node.element = []
    rw [List.map_eq_nil_iff, List.filter_eq_nil_iff]
    intro e he
    simpa using fun heq => hnone ⟨e, he, heq⟩
  obtain ⟨e, he, hname⟩ := hsome
  rw [← hname]
  exact hknown (text, doc) hentry e he

/-- Whatever the XML library answers and whatever the payload of the reply says:
when the deque holds an RTS command reply, `ParseCommandReply` either is left by
an exception or returns true with `reply.Result == true`, because line 354
assigns true after the payload was decoded. -/
theorem ParseCommandReply_result_overwritten {Doc Node : Type} (dom : XmlDom Doc Node)
    (self : IGTLinkClient) (reply : CommandReply) (message : Message)
    (hfound : self.m_messages.find? Message.isRTSCommand = some message) :
    (ParseCommandReply dom self reply).1 = none ∨
      ((ParseCommandReply dom self reply).1 = some true ∧
        (ParseCommandReply dom self reply).2.1.Result = true) := by
  unfold ParseCommandReply
  simp only [hfound]
  split
  · exact Or.inl rfl
  · split
    · exact Or.inl rfl
    · split
      · exact Or.inr ⟨rfl, rfl⟩
      · exact Or.inl rfl

/-- C10, what the code does instead. For every XML parser that takes element names
from the text, every client whose deque holds an RTS command reply and whatever
the payload says: `ParseCommandReply` yields no reply. It lower-cases the
payload (line 332) and then looks up the element `Result`, which a lower-cased
document does not contain; `Item(0)` is null and the call is left by the
exception of line 337, after the message was erased from the deque. The
caller's object is left with the `Result == false` and the empty `Parameters` of
lines 303 and 304, which say nothing about the payload. -/
theorem ParseCommandReply_yields_no_result {Doc Node : Type} (dom : XmlDom Doc Node)
    (self : IGTLinkClient) (reply : CommandReply) (message : Message)
    (hdom : dom.NamesFromText)
    (hfound : self.m_messages.find? Message.isRTSCommand = some message) :
    (ParseCommandReply dom self reply).1 = none ∧
    (ParseCommandReply dom self reply).2.1.Result = false ∧
    (ParseCommandReply dom self reply).2.1.Parameters = [] ∧
    (ParseCommandReply dom self reply).2.2.m_messages = self.m_messages.erase message := by
  rw [ParseCommandReply_raises_of_found dom hdom self reply message hfound]
  exact ⟨rfl, rfl, rfl, rfl⟩

/-- C10, at the failing input: the deque holds one RTS command reply whose `Result`
node reads "false" (with `Error` "bad param" and one `Parameter` X = 1). The
parser reports the lower-cased document, in which no element is named `Result`;
the call is left by the exception and the deque is empty. -/
theorem ParseCommandReply_yields_no_result_witness :
    (Sample.w3c Sample.library).NamesFromText ∧
    List.find? Message.isRTSCommand [Sample.commandReply 0] = some (Sample.commandReply 0) ∧
    (Sample.w3c Sample.library).LoadXml (towlower (Sample.commandReply 0).commandContent) =
      some Sample.loweredFailureDocument ∧
    (Sample.w3c Sample.library).GetElementsByTagName Sample.loweredFailureDocument "Result" =
      [] ∧
    (ParseCommandReply (Sample.w3c Sample.library)
      { m_messages := [Sample.commandReply 0] } {}).1 = none ∧
    (ParseCommandReply (Sample.w3c Sample.library)
      { m_messages := [Sample.commandReply 0] } {}).2.2.m_messages = [] :=
  have hdom : (Sample.w3c Sample.library).NamesFromText :=
    w3c_namesFromText Sample.library (by decide)
  have h := ParseCommandReply_yields_no_result (Sample.w3c Sample.library)
    { m_messages := [Sample.commandReply 0] } {} (Sample.commandReply 0) hdom rfl
  ⟨hdom, rfl, by decide, by decide, h.1, h.2.2.2.trans (by decide)⟩

end IGTLinkClient

/-! ## The query for the latest tracked frame -/

namespace Content.IGTLinkClient

theorem newest_some (messages : List Message) (test : Message → Bool) (m : Message)
    (h : newest messages test = some m) : m ∈ messages ∧ test m = true := by
  unfold newest at h
  exact ⟨List.mem_reverse.mp (List.mem_of_find?_eq_some h), List.find?_some h⟩

theorem find?_eq_head?_filter {α : Type} (test : α → Bool) (l : List α) :
    l.find? test = (l.filter test).head? := by
  induction l with
  | nil => rfl
  | cons a rest ih =>
    cases h : test a
    · rw [List.find?_cons_of_neg _ (by simp [h]), List.filter_cons_of_neg (by simp [h]), ih]
    · rw [List.find?_cons_of_pos _ h, List.filter_cons_of_pos h]
      rfl

theorem newest_eq_getLast? (messages : List Message) (test : Message → Bool) :
    newest messages test = (messages.filter test).getLast? := by
  unfold newest
  rw [find?_eq_head?_filter, List.filter_reverse, List.head?_reverse]

/-- In a list ordered by a reflexive relation every element is below the last. -/
theorem pairwise_le_getLast {α : Type} (r : α → α → Prop) (hrefl : ∀ a, r a a) (l : List α)
    (z : α) (hp : l.Pairwise r) (hlast : l.getLast? = some z) : ∀ x ∈ l, r x z := by
  obtain ⟨init, rfl⟩ := List.getLast?_eq_some_iff.mp hlast
  intro x hx
  rcases List.mem_append.mp hx with hin | hin
  · exact (List.pairwise_append.mp hp).2.2 x hin z (List.mem_singleton.mpr rfl)
  · rw [List.mem_singleton.mp hin]
    exact hrefl z

theorem GetLatestTrackedFrameTimestamp_of_newest (self : IGTLinkClient) (m : Message)
    (h : newest self.m_receiveMessages Message.isTrackedFrame = some m) :
    self.GetLatestTrackedFrameTimestamp = m.timeStamp := by
  unfold GetLatestTrackedFrameTimestamp
  rw [h]

/-- The query on a cache miss when the newest tracked frame is newer than the
reference time stamp: it is decoded and cached under the reference time stamp. -/
theorem GetLatestTrackedFrame_decodes (self : IGTLinkClient) (frame : Option TrackedFrame)
    (T : Int) (m : Message) (hcache : StdMap.find self.m_receiveUWPMessages T = none)
    (hnewest : newest self.m_receiveMessages Message.isTrackedFrame = some m)
    (hlt : T < m.timeStamp) :
    GetLatestTrackedFrame self frame (some T) =
      (true, some (decodeTrackedFrame self.objectsCreated m),
        { self with
          m_receiveUWPMessages := StdMap.assign self.m_receiveUWPMessages T
            (decodeTrackedFrame self.objectsCreated m),
          objectsCreated := self.objectsCreated + 1 }) := by
  unfold GetLatestTrackedFrame
  simp only [hcache, hnewest]
  rw [if_neg (by omega)]

/-- The query on a cache miss when there is no tracked frame, or the newest one is
not newer than the reference time stamp: it fails and changes nothing. -/
theorem GetLatestTrackedFrame_fails (self : IGTLinkClient) (frame : Option TrackedFrame)
    (T : Int) (hcache : StdMap.find self.m_receiveUWPMessages T = none)
    (hold : ∀ m, newest self.m_receiveMessages Message.isTrackedFrame = some m →
      m.timeStamp ≤ T) :
    GetLatestTrackedFrame self frame (some T) = (false, frame, self) := by
  unfold GetLatestTrackedFrame
  simp only [hcache]
  cases hnewest : newest self.m_receiveMessages Message.isTrackedFrame with
  | none => rfl
  | some m =>
    simp only
    rw [if_pos (hold m hnewest)]

/-- C2, the claim fails. A client reached by receiving 201 messages with one query
in between: its deque holds no tracked frame at all, yet the query with
since = 3 returns true, with the frame of time stamp 5 that was cached under
key 3 before the frame was evicted. -/
theorem GetLatestTrackedFrame_stale_cache_hit :
    (∀ m ∈ Sample.staleClient.m_receiveMessages, m.isTrackedFrame = true → m.timeStamp ≤ 3) ∧
    (∀ m ∈ Sample.staleClient.m_receiveMessages, m.isTrackedFrame = false) ∧
    (GetLatestTrackedFrame Sample.staleClient none (some 3)).1 = true ∧
    (GetLatestTrackedFrame Sample.staleClient none (some 3)).2.1.map TrackedFrame.Timestamp =
      some 5 := by
  set_option maxRecDepth 100000 in decide

/-- C2, amended. For every client, caller handle and time stamp T that is a
number (not NaN): if the tracked-frame cache holds no entry under key T and no
tracked-frame message in the deque has a time stamp strictly greater than T (in
particular if the deque holds no tracked-frame message), `GetLatestTrackedFrame`
with since = T returns false, leaving the caller's handle and the client as they
were. -/
theorem GetLatestTrackedFrame_none_without_newer (self : IGTLinkClient)
    (frame : Option TrackedFrame) (T : Int)
    (hcache : StdMap.find self.m_receiveUWPMessages T = none)
    (hold : ∀ m ∈ self.m_receiveMessages, m.isTrackedFrame = true → m.timeStamp ≤ T) :
    GetLatestTrackedFrame self frame (some T) = (false, frame, self) :=
  GetLatestTrackedFrame_fails self frame T hcache
    (fun m hm => hold m (newest_some _ _ m hm).1 (newest_some _ _ m hm).2)

/-- C2 amended, at a concrete input: frames with time stamps 5 and 2 in the deque,
an empty cache, since = 5. -/
theorem GetLatestTrackedFrame_none_without_newer_witness :
    StdMap.find Sample.unorderedClient.m_receiveUWPMessages 5 = none ∧
    (∀ m ∈ Sample.unorderedClient.m_receiveMessages, m.isTrackedFrame = true → m.timeStamp ≤ 5) ∧
    GetLatestTrackedFrame Sample.unorderedClient none (some 5) =
      (false, none, Sample.unorderedClient) :=
  have hcache : StdMap.find Sample.unorderedClient.m_receiveUWPMessages 5 = none := by decide
  have hold : ∀ m ∈ Sample.unorderedClient.m_receiveMessages,
      m.isTrackedFrame = true → m.timeStamp ≤ 5 := by decide
  ⟨hcache, hold, GetLatestTrackedFrame_none_without_newer Sample.unorderedClient none 5 hcache hold⟩

/-- C3, the claim fails, in two ways. (1) Frames with time stamps 5 and 2 arrived in
this order and the cache is empty: a frame newer than 3 is in the deque, but the
query with since = 3 looks at the most recent arrival only and returns false.
(2) Frames 1 and 5 arrived, since = 3 was queried, then frame 9 arrived: the
query with since = 3 returns the snapshot cached under key 3, whose time stamp
is 5, not the maximum 9. -/
theorem GetLatestTrackedFrame_not_maximum :
    ((∃ m ∈ Sample.unorderedClient.m_receiveMessages,
        m.isTrackedFrame = true ∧ 3 < m.timeStamp) ∧
      Sample.unorderedClient.m_receiveUWPMessages = [] ∧
      (GetLatestTrackedFrame Sample.unorderedClient none (some 3)).1 = false) ∧
    ((∃ m ∈ Sample.overtakenClient.m_receiveMessages,
        m.isTrackedFrame = true ∧ m.timeStamp = 9) ∧
      (GetLatestTrackedFrame Sample.overtakenClient none (some 3)).1 = true ∧
      (GetLatestTrackedFrame Sample.overtakenClient none (some 3)).2.1.map
        TrackedFrame.Timestamp = some 5) := by
  refine ⟨⟨⟨Sample.trackedFrame 5, ?_, ?_⟩, ?_, ?_⟩, ⟨⟨Sample.trackedFrame 9, ?_, ?_⟩, ?_, ?_⟩⟩
  · exact List.mem_cons_self _ _
  · decide
  · rfl
  · decide
  · exact List.mem_cons_of_mem _ (List.mem_cons_of_mem _ (List.mem_cons_self _ _))
  · decide
  · decide
  · decide

/-- C3, amended. For every client, caller handle and time stamp T: if the
tracked-frame cache holds no entry under key T and the most recently received
tracked-frame message `m` of the deque has a time stamp greater than T, then
`GetLatestTrackedFrame` with since = T returns true with the snapshot decoded
from `m`, whose `Timestamp` is that of `m`; this is the maximum time stamp over
all tracked-frame messages in the deque whenever their time stamps do not
decrease in arrival order. -/
theorem GetLatestTrackedFrame_newest_arrival (self : IGTLinkClient)
    (frame : Option TrackedFrame) (T : Int) (m : Message)
    (hcache : StdMap.find self.m_receiveUWPMessages T = none)
    (hnewest : newest self.m_receiveMessages Message.isTrackedFrame = some m)
    (hlt : T < m.timeStamp) :
    (GetLatestTrackedFrame self frame (some T)).1 = true ∧
    (GetLatestTrackedFrame self frame (some T)).2.1 =
      some (decodeTrackedFrame self.objectsCreated m) ∧
    (decodeTrackedFrame self.objectsCreated m).Timestamp = m.timeStamp ∧
    m ∈ self.m_receiveMessages ∧ m.isTrackedFrame = true ∧
    ((self.m_receiveMessages.filter Message.isTrackedFrame).Pairwise
        (fun earlier later => earlier.timeStamp ≤ later.timeStamp) →
      ∀ other ∈ self.m_receiveMessages, other.isTrackedFrame = true →
        other.timeStamp ≤ (decodeTrackedFrame self.objectsCreated m).Timestamp) := by
  have hcall := GetLatestTrackedFrame_decodes self frame T m hcache hnewest hlt
  have hm := newest_some _ _ m hnewest
  refine ⟨by rw [hcall], by rw [hcall], rfl, hm.1, hm.2, ?_⟩
  intro hsorted other hother htf
  have hlast := newest_eq_getLast? self.m_receiveMessages Message.isTrackedFrame
  rw [hnewest] at hlast
  exact pairwise_le_getLast (fun earlier later : Message => earlier.timeStamp ≤ later.timeStamp)
    (fun a => Int.le_refl _) _ m hsorted hlast.symm other
    (List.mem_filter.mpr ⟨hother, htf⟩)

/-- C3 amended, at a concrete input: one frame with time stamp 5 in the deque, an
empty cache, since = 3. -/
theorem GetLatestTrackedFrame_newest_arrival_witness :
    StdMap.find Sample.oneFrameClient.m_receiveUWPMessages 3 = none ∧
    newest Sample.oneFrameClient.m_receiveMessages Message.isTrackedFrame =
      some (Sample.trackedFrame 5) ∧
    (3 : Int) < (Sample.trackedFrame 5).timeStamp ∧
    (GetLatestTrackedFrame Sample.oneFrameClient none (some 3)).1 = true ∧
    (GetLatestTrackedFrame Sample.oneFrameClient none (some 3)).2.1 =
      some (decodeTrackedFrame Sample.oneFrameClient.objectsCreated (Sample.trackedFrame 5)) ∧
    (decodeTrackedFrame Sample.oneFrameClient.objectsCreated (Sample.trackedFrame 5)).Timestamp =
      5 :=
  have hcache : StdMap.find Sample.oneFrameClient.m_receiveUWPMessages 3 = none := rfl
  have hnewest : newest Sample.oneFrameClient.m_receiveMessages Message.isTrackedFrame =
      some (Sample.trackedFrame 5) := rfl
  have hlt : (3 : Int) < (Sample.trackedFrame 5).timeStamp := by decide
  have h := GetLatestTrackedFrame_newest_arrival Sample.oneFrameClient none 3
    (Sample.trackedFrame 5) hcache hnewest hlt
  ⟨hcache, hnewest, hlt, h.1, h.2.1, h.2.2.1⟩

/-- C4, what the code does instead. With since omitted the reference time stamp is
that of the newest tracked frame itself, which is never strictly newer than
itself: unless the cache already holds an entry under that time stamp (so in
particular when the cache is empty), the call returns false, decodes nothing and
leaves the cache and the caller's handle as they were. -/
theorem GetLatestTrackedFrame_default_fails (self : IGTLinkClient)
    (frame : Option TrackedFrame)
    (hcache : StdMap.find self.m_receiveUWPMessages self.GetLatestTrackedFrameTimestamp = none) :
    GetLatestTrackedFrame self frame none = (false, frame, self) := by
  have h := GetLatestTrackedFrame_fails self frame self.GetLatestTrackedFrameTimestamp hcache
    (fun m hm => by rw [GetLatestTrackedFrameTimestamp_of_newest self m hm])
  unfold GetLatestTrackedFrame at h ⊢
  exact h

/-- C4, at the failing input: one tracked frame (time stamp 5) in the deque, an
empty cache, since omitted. -/
theorem GetLatestTrackedFrame_default_fails_witness :
    (∃ m ∈ Sample.oneFrameClient.m_receiveMessages, m.isTrackedFrame = true) ∧
    Sample.oneFrameClient.m_receiveUWPMessages = [] ∧
    GetLatestTrackedFrame Sample.oneFrameClient none none =
      (false, none, Sample.oneFrameClient) :=
  ⟨⟨Sample.trackedFrame 5, List.mem_cons_self _ _, rfl⟩, rfl,
    GetLatestTrackedFrame_default_fails Sample.oneFrameClient none rfl⟩

/-- C5. Idempotent re-query. For every client and time stamp T: if
`GetLatestTrackedFrame` with since = T returns true, then it hands out a
snapshot, and a second call with since = T on the client as the first call left
it (no loop iteration in between) returns true with the same snapshot object and
leaves the client unchanged: the cache gains no entry and no object is created. -/
theorem GetLatestTrackedFrame_requery (self : IGTLinkClient)
    (frame again : Option TrackedFrame) (T : Int)
    (h : (GetLatestTrackedFrame self frame (some T)).1 = true) :
    (∃ snapshot, (GetLatestTrackedFrame self frame (some T)).2.1 = some snapshot) ∧
    GetLatestTrackedFrame (GetLatestTrackedFrame self frame (some T)).2.2 again (some T) =
      (true, (GetLatestTrackedFrame self frame (some T)).2.1,
        (GetLatestTrackedFrame self frame (some T)).2.2) := by
  cases hcache : StdMap.find self.m_receiveUWPMessages T with
  | some cached =>
    have hcall : ∀ handle, GetLatestTrackedFrame self handle (some T) =
        (true, some cached, self) := by
      intro handle
      unfold GetLatestTrackedFrame
      simp only [hcache]
    rw [hcall frame]
    exact ⟨⟨cached, rfl⟩, hcall again⟩
  | none =>
    cases hnewest : newest self.m_receiveMessages Message.isTrackedFrame with
    | none =>
      rw [GetLatestTrackedFrame_fails self frame T hcache
        (fun m hm => by rw [hnewest] at hm; cases hm)] at h
      cases h
    | some m =>
      by_cases hlt : T < m.timeStamp
      · rw [GetLatestTrackedFrame_decodes self frame T m hcache hnewest hlt]
        refine ⟨⟨_, rfl⟩, ?_⟩
        unfold GetLatestTrackedFrame
        simp only [StdMap.find_assign_self]
      · rw [GetLatestTrackedFrame_fails self frame T hcache
          (fun m2 hm2 => by rw [hnewest] at hm2; cases hm2; omega)] at h
        cases h

/-- C5, at a concrete input: one frame with time stamp 5, since = 3, asked twice. -/
theorem GetLatestTrackedFrame_requery_witness :
    (GetLatestTrackedFrame Sample.oneFrameClient none (some 3)).1 = true ∧
    GetLatestTrackedFrame (GetLatestTrackedFrame Sample.oneFrameClient none (some 3)).2.2 none
        (some 3) =
      (true, (GetLatestTrackedFrame Sample.oneFrameClient none (some 3)).2.1,
        (GetLatestTrackedFrame Sample.oneFrameClient none (some 3)).2.2) :=
  have h : (GetLatestTrackedFrame Sample.oneFrameClient none (some 3)).1 = true := rfl
  ⟨h, (GetLatestTrackedFrame_requery Sample.oneFrameClient none none 3 h).2⟩

/-- An entry written by the query is stored under the reference time stamp of the
query, which is strictly less than the `Timestamp` of the snapshot it holds. -/
theorem GetLatestTrackedFrame_entry_key_lt (self : IGTLinkClient)
    (frame : Option TrackedFrame) (T : Int)
    (hcache : StdMap.find self.m_receiveUWPMessages T = none)
    (h : (GetLatestTrackedFrame self frame (some T)).1 = true) :
    ∃ snapshot,
      StdMap.find (GetLatestTrackedFrame self frame (some T)).2.2.m_receiveUWPMessages T =
        some snapshot ∧ T < snapshot.Timestamp := by
  cases hnewest : newest self.m_receiveMessages Message.isTrackedFrame with
  | none =>
    rw [GetLatestTrackedFrame_fails self frame T hcache
      (fun m hm => by rw [hnewest] at hm; cases hm)] at h
    cases h
  | some m =>
    by_cases hlt : T < m.timeStamp
    · rw [GetLatestTrackedFrame_decodes self frame T m hcache hnewest hlt]
      exact ⟨_, StdMap.find_assign_self _ _ _, hlt⟩
    · rw [GetLatestTrackedFrame_fails self frame T hcache
        (fun m2 hm2 => by rw [hnewest] at hm2; cases hm2; omega)] at h
      cases h

/-- C6, the code at the failing input. One tracked frame with time stamp 5 is in
the deque; it is queried with since = 3 and then with since = 4. The cache then
holds two entries, under the keys 3 and 4, each a snapshot of that one message
(`Timestamp` 5), decoded twice into two objects (0 and 1): no entry is stored
under its snapshot's `Timestamp`. -/
theorem cache_keyed_by_reference_timestamp :
    (GetLatestTrackedFrame (GetLatestTrackedFrame Sample.oneFrameClient none
        (some 3)).2.2 none (some 4)).2.2.m_receiveUWPMessages.map
        (fun entry => (entry.1, entry.2.Timestamp, entry.2.objectId)) =
      [(3, 5, 0), (4, 5, 1)] ∧
    (GetLatestTrackedFrame (GetLatestTrackedFrame Sample.oneFrameClient none
        (some 3)).2.2 none (some 4)).2.2.m_receiveMessages = [Sample.trackedFrame 5] := by
  exact ⟨by decide, rfl⟩

/-- What a call can do to the client: nothing, or (reference time stamp T given,
no entry under T, newest tracked frame `m` newer than T) create one object from
`m` and store it under T. -/
theorem GetLatestTrackedFrame_client (self : IGTLinkClient) (frame : Option TrackedFrame)
    (latestTimestamp : Option Int) :
    (GetLatestTrackedFrame self frame latestTimestamp).2.2 = self ∨
    ∃ T m, latestTimestamp = some T ∧ StdMap.find self.m_receiveUWPMessages T = none ∧
      m ∈ self.m_receiveMessages ∧ m.isTrackedFrame = true ∧ T < m.timeStamp ∧
      (GetLatestTrackedFrame self frame latestTimestamp).2.2 =
        { self with
          m_receiveUWPMessages := StdMap.assign self.m_receiveUWPMessages T
            (decodeTrackedFrame self.objectsCreated m),
          objectsCreated := self.objectsCreated + 1 } := by
  cases latestTimestamp with
  | none =>
    cases hcache : StdMap.find self.m_receiveUWPMessages self.GetLatestTrackedFrameTimestamp with
    | none =>
      have h := GetLatestTrackedFrame_fails self frame self.GetLatestTrackedFrameTimestamp hcache
        (fun m hm => by rw [GetLatestTrackedFrameTimestamp_of_newest self m hm])
      unfold GetLatestTrackedFrame at h ⊢
      exact Or.inl (by rw [h])
    | some cached =>
      refine Or.inl ?_
      unfold GetLatestTrackedFrame
      simp only [hcache]
  | some T =>
    cases hcache : StdMap.find self.m_receiveUWPMessages T with
    | some cached =>
      refine Or.inl ?_
      unfold GetLatestTrackedFrame
      simp only [hcache]
    | none =>
      cases hnewest : newest self.m_receiveMessages Message.isTrackedFrame with
      | none =>
        rw [GetLatestTrackedFrame_fails self frame T hcache
          (fun m hm => by rw [hnewest] at hm; cases hm)]
        exact Or.inl rfl
      | some m =>
        by_cases hlt : T < m.timeStamp
        · have hm := newest_some _ _ m hnewest
          exact Or.inr ⟨T, m, rfl, hcache, hm.1, hm.2, hlt,
            by rw [GetLatestTrackedFrame_decodes self frame T m hcache hnewest hlt]⟩
        · rw [GetLatestTrackedFrame_fails self frame T hcache
            (fun m2 hm2 => by rw [hnewest] at hm2; cases hm2; omega)]
          exact Or.inl rfl

/-- What the keying by the since value amounts to, for since values that are
numbers: after any sequence of `GetLatestTrackedFrame` calls (since given or
omitted) on a client whose cache entries have distinct keys, each strictly less
than the `Timestamp` of the snapshot stored under it, the deque is unchanged,
the keys are still distinct, and every entry either was there before or is
stored under the since value of one of the calls, is a snapshot of a
tracked-frame message of the deque, and has a key strictly less than its
snapshot's `Timestamp`. No entry is ever stored under its snapshot's
`Timestamp`. -/
theorem cache_keyed_by_since (queries : List (Option Int)) (self : IGTLinkClient)
    (frame : Option TrackedFrame)
    (hkeys : (StdMap.keys self.m_receiveUWPMessages).Nodup)
    (hinv : ∀ entry ∈ self.m_receiveUWPMessages, entry.1 < entry.2.Timestamp) :
    (runQueries self frame queries).2.m_receiveMessages = self.m_receiveMessages ∧
    (StdMap.keys (runQueries self frame queries).2.m_receiveUWPMessages).Nodup ∧
    (∀ entry ∈ (runQueries self frame queries).2.m_receiveUWPMessages,
      entry.1 < entry.2.Timestamp ∧
      (entry ∈ self.m_receiveUWPMessages ∨
        (some entry.1 ∈ queries ∧
          ∃ m ∈ self.m_receiveMessages, m.isTrackedFrame = true ∧
            entry.2.Timestamp = m.timeStamp))) := by
  induction queries generalizing self frame with
  | nil => exact ⟨rfl, hkeys, fun entry h => ⟨hinv entry h, Or.inl h⟩⟩
  | cons q rest ih =>
    simp only [runQueries]
    rcases GetLatestTrackedFrame_client self frame q with hsame | ⟨T, m, hq, _, hm, htf, hlt, hnew⟩
    · rw [hsame]
      obtain ⟨h1, h2, h3⟩ := ih self (GetLatestTrackedFrame self frame q).2.1 hkeys hinv
      refine ⟨h1, h2, fun entry h => ⟨(h3 entry h).1, ?_⟩⟩
      rcases (h3 entry h).2 with hold | ⟨hin, hex⟩
      · exact Or.inl hold
      · exact Or.inr ⟨List.mem_cons_of_mem _ hin, hex⟩
    · rw [hnew]
      have hinv2 : ∀ entry ∈ StdMap.assign self.m_receiveUWPMessages T
          (decodeTrackedFrame self.objectsCreated m), entry.1 < entry.2.Timestamp := by
        intro entry h
        rcases StdMap.mem_assign _ _ _ _ h with rfl | hold
        · exact hlt
        · exact hinv entry hold
      obtain ⟨h1, h2, h3⟩ := ih
        { self with
          m_receiveUWPMessages := StdMap.assign self.m_receiveUWPMessages T
            (decodeTrackedFrame self.objectsCreated m),
          objectsCreated := self.objectsCreated + 1 }
        (GetLatestTrackedFrame self frame q).2.1
        (StdMap.nodup_keys_assign _ _ _ hkeys) hinv2
      refine ⟨h1, h2, fun entry h => ⟨(h3 entry h).1, ?_⟩⟩
      rcases (h3 entry h).2 with hold | ⟨hin, hex⟩
      · rcases StdMap.mem_assign _ _ _ _ hold with rfl | hold2
        · exact Or.inr ⟨by rw [hq]; exact List.mem_cons_self _ _, m, hm, htf, rfl⟩
        · exact Or.inl hold2
      · exact Or.inr ⟨List.mem_cons_of_mem _ hin, hex⟩

/-- The keying at a concrete input: the queries since = 3, since omitted,
since = 3 and since = 4 on a client holding one frame with time stamp 5 leave
two entries, under the keys 3 and 4. -/
theorem cache_keyed_by_since_witness :
    (StdMap.keys Sample.oneFrameClient.m_receiveUWPMessages).Nodup ∧
    (∀ entry ∈ Sample.oneFrameClient.m_receiveUWPMessages, entry.1 < entry.2.Timestamp) ∧
    StdMap.keys (runQueries Sample.oneFrameClient none
      [some 3, none, some 3, some 4]).2.m_receiveUWPMessages = [3, 4] ∧
    (∀ entry ∈ (runQueries Sample.oneFrameClient none
        [some 3, none, some 3, some 4]).2.m_receiveUWPMessages,
      entry.1 < entry.2.Timestamp ∧
      (entry ∈ Sample.oneFrameClient.m_receiveUWPMessages ∨
        (some entry.1 ∈ [some 3, none, some 3, some 4] ∧
          ∃ m ∈ Sample.oneFrameClient.m_receiveMessages, m.isTrackedFrame = true ∧
            entry.2.Timestamp = m.timeStamp))) :=
  have hkeys : (StdMap.keys Sample.oneFrameClient.m_receiveUWPMessages).Nodup := List.nodup_nil
  have hinv : ∀ entry ∈ Sample.oneFrameClient.m_receiveUWPMessages,
      entry.1 < entry.2.Timestamp := fun _ h => absurd h (List.not_mem_nil _)
  ⟨hkeys, hinv, by decide,
    (cache_keyed_by_since [some 3, none, some 3, some 4] Sample.oneFrameClient none
      hkeys hinv).2.2⟩

/-! ## The query for the latest command -/

/-- The query on a cache miss when the newest command reply is newer than the
reference time stamp and its payload parses: a `Command` is created, filled from
the top-level nodes of the payload and from the metadata, and cached. -/
theorem GetLatestCommand_decodes {Doc Node : Type}
    (dom : UWPOpenIGTLink.IGTLinkClient.XmlDom Doc Node) (self : IGTLinkClient)
    (cmd : Option Command) (T : Int) (m : Message) (doc : Doc)
    (hcache : StdMap.find self.m_receiveUWPCommands T = none)
    (hnewest : newest self.m_receiveMessages Message.isRTSCommand = some m)
    (hlt : T < m.timeStamp) (hdoc : dom.LoadXml m.commandContent = some doc) :
    GetLatestCommand dom self cmd (some T) =
      (some true,
        some (decodeCommand dom doc m
          { objectId := self.objectsCreated, CommandContent := m.commandContent,
            CommandName := m.commandName, OriginalCommandId := m.commandId }),
        { self with
          m_receiveUWPCommands := StdMap.assign self.m_receiveUWPCommands T
            (decodeCommand dom doc m
              { objectId := self.objectsCreated, CommandContent := m.commandContent,
                CommandName := m.commandName, OriginalCommandId := m.commandId }),
          objectsCreated := self.objectsCreated + 1 }) := by
  unfold GetLatestCommand
  simp only [hcache, hnewest]
  rw [if_neg (by omega)]
  simp only [hdoc]

/-- The `Parameters` of a decoded command are the metadata of the message and
nothing else: the payload document plays no part in them. -/
theorem decodeCommand_parameters {Doc Node : Type}
    (dom : UWPOpenIGTLink.IGTLinkClient.XmlDom Doc Node) (doc : Doc) (m : Message)
    (cmd : Command) :
    (decodeCommand dom doc m cmd).Parameters =
      UWPOpenIGTLink.IGTLinkClient.insertAll cmd.Parameters m.metaData := by
  unfold decodeCommand
  dsimp only
  split <;> split <;> (try split) <;> rfl

/-- The `ErrorString` of a decoded command: when no top-level node named `Result`
has the value "true" and a top-level node named `Error` exists, it is the value
of the first such node. -/
theorem decodeCommand_errorString {Doc Node : Type}
    (dom : UWPOpenIGTLink.IGTLinkClient.XmlDom Doc Node) (doc : Doc) (m : Message)
    (cmd : Command) (node : Node) (hcmd : cmd.Result = false)
    (hresult : ∀ r, firstChildNamed dom doc "Result" = some r → dom.NodeValue r ≠ some "true")
    (herror : firstChildNamed dom doc "Error" = some node) :
    (decodeCommand dom doc m cmd).Result = false ∧
      (decodeCommand dom doc m cmd).ErrorString = dom.NodeValue node := by
  unfold decodeCommand
  cases hr : firstChildNamed dom doc "Result" with
  | none => simp [hcmd, herror]
  | some r => simp [hresult r hr, herror]

/-- C11, the code at the failing input. The deque holds one command reply (time
stamp 8, no metadata) whose payload carries Result = false, Error = "bad param"
and one Parameter with Name "X" and Value "1"; the XML library reports these
elements. `GetLatestCommand` with since = 4 returns true with Result false and
ErrorString "bad param", but with an empty `Parameters` map: "X" is not in it. -/
theorem GetLatestCommand_drops_payload_parameters :
    ((Sample.dom Sample.failureDocument).GetElementsByTagName Sample.failureDocument
      "Parameter").map
        (fun entry => ((Sample.dom Sample.failureDocument).GetNamedItem entry "Name",
          (Sample.dom Sample.failureDocument).GetNamedItem entry "Value")) =
      [(some (Sample.Node.attribute "X"), some (Sample.Node.attribute "1"))] ∧
    (Sample.commandReply 8).metaData = [] ∧
    (GetLatestCommand (Sample.dom Sample.failureDocument)
      (DataReceiverPump {} [PumpIteration.receive (Sample.commandReply 8)]).client
      none (some 4)).1 = some true ∧
    (GetLatestCommand (Sample.dom Sample.failureDocument)
      (DataReceiverPump {} [PumpIteration.receive (Sample.commandReply 8)]).client
      none (some 4)).2.1.map (fun c => (c.Result, c.ErrorString, c.Parameters)) =
        some (false, some "bad param", []) ∧
    (GetLatestCommand (Sample.dom Sample.failureDocument)
      (DataReceiverPump {} [PumpIteration.receive (Sample.commandReply 8)]).client
      none (some 4)).2.1.map (fun c => StdMap.find c.Parameters "X") = some none := by
  refine ⟨by decide, rfl, by decide, by decide, by decide⟩

end Content.IGTLinkClient

/-! ## Tracked-frame decoding -/

/-- The one-shot consumer finds the oldest tracked frame and fills the caller's
object from it. -/
theorem IGTLinkClient.ParseTrackedFrameReply_found (self : IGTLinkClient)
    (message : IGTLinkClient.TrackedFrameMessage) (m : Message)
    (hfound : self.m_messages.find? Message.isTrackedFrame = some m) :
    (self.ParseTrackedFrameReply message).1 = true ∧
    (self.ParseTrackedFrameReply message).2.1.FrameSize =
      [m.frameSize.1, m.frameSize.2.1, m.frameSize.2.2] ∧
    (self.ParseTrackedFrameReply message).2.1.NumberOfComponents = m.numberOfComponents ∧
    (self.ParseTrackedFrameReply message).2.1.ImageSizeBytes = m.imageSizeInBytes ∧
    (self.ParseTrackedFrameReply message).2.1.imageData = m.image.take m.imageSizeInBytes ∧
    (self.ParseTrackedFrameReply message).2.1.Result = true := by
  unfold IGTLinkClient.ParseTrackedFrameReply
  simp [hfound]

/-- C12. Tracked-frame decoding, in both revisions. Let `m` be a tracked-frame
message whose image block holds `GetImageSizeInBytes()` bytes. The snapshot that
`GetLatestTrackedFrame` decodes from `m` (cache miss, `m` the newest tracked
frame and newer than since) and the object that
`ParseTrackedFrameReply(TrackedFrameMessage^)` fills from `m` (`m` the oldest
tracked frame of the deque) both have FrameSize equal to the three dimensions of
`m`, NumberOfComponents equal to its component count, ImageSizeBytes equal to
its image size in bytes, and an image buffer of ImageSizeBytes bytes. -/
theorem tracked_frame_decoding (m : Message) (content : Content.IGTLinkClient)
    (frame : Option Content.TrackedFrame) (T : Int) (client : IGTLinkClient)
    (message : IGTLinkClient.TrackedFrameMessage)
    (hsize : m.image.length = m.imageSizeInBytes)
    (hcache : StdMap.find content.m_receiveUWPMessages T = none)
    (hnewest : Content.IGTLinkClient.newest content.m_receiveMessages Message.isTrackedFrame =
      some m)
    (hlt : T < m.timeStamp)
    (hfound : client.m_messages.find? Message.isTrackedFrame = some m) :
    (∃ snapshot, content.GetLatestTrackedFrame frame (some T) =
        (true, some snapshot, (content.GetLatestTrackedFrame frame (some T)).2.2) ∧
      snapshot.FrameSize = [m.frameSize.1, m.frameSize.2.1, m.frameSize.2.2] ∧
      snapshot.NumberOfComponents = m.numberOfComponents ∧
      snapshot.ImageSizeBytes = m.imageSizeInBytes ∧
      snapshot.imageData.length = snapshot.ImageSizeBytes) ∧
    ((client.ParseTrackedFrameReply message).1 = true ∧
      (client.ParseTrackedFrameReply message).2.1.FrameSize =
        [m.frameSize.1, m.frameSize.2.1, m.frameSize.2.2] ∧
      (client.ParseTrackedFrameReply message).2.1.NumberOfComponents = m.numberOfComponents ∧
      (client.ParseTrackedFrameReply message).2.1.ImageSizeBytes = m.imageSizeInBytes ∧
      (client.ParseTrackedFrameReply message).2.1.imageData.length =
        (client.ParseTrackedFrameReply message).2.1.ImageSizeBytes) := by
  constructor
  · refine ⟨Content.IGTLinkClient.decodeTrackedFrame content.objectsCreated m, ?_, rfl, rfl, rfl,
      hsize⟩
    rw [Content.IGTLinkClient.GetLatestTrackedFrame_decodes content frame T m hcache hnewest hlt]
  · obtain ⟨h1, h2, h3, h4, h5, _⟩ :=
      IGTLinkClient.ParseTrackedFrameReply_found client message m hfound
    refine ⟨h1, h2, h3, h4, ?_⟩
    rw [h5, h4, List.length_take, hsize, Nat.min_self]

/-- C12, at a concrete input: a tracked frame with dimensions (64, 64, 1), one
component and a 4096-byte image gives a 4096-byte buffer in both revisions. -/
theorem tracked_frame_decoding_witness :
    (Sample.trackedFrame 5).image.length = (Sample.trackedFrame 5).imageSizeInBytes ∧
    (∃ snapshot, Content.IGTLinkClient.GetLatestTrackedFrame Sample.oneFrameClient none (some 3) =
        (true, some snapshot,
          (Content.IGTLinkClient.GetLatestTrackedFrame Sample.oneFrameClient none (some 3)).2.2) ∧
      snapshot.FrameSize = [64, 64, 1] ∧
      snapshot.NumberOfComponents = 1 ∧
      snapshot.ImageSizeBytes = 4096 ∧
      snapshot.imageData.length = snapshot.ImageSizeBytes) ∧
    (IGTLinkClient.ParseTrackedFrameReply { m_messages := [Sample.trackedFrame 5] } {}).2.1.FrameSize =
      [64, 64, 1] ∧
    (IGTLinkClient.ParseTrackedFrameReply
      { m_messages := [Sample.trackedFrame 5] } {}).2.1.imageData.length =
      (IGTLinkClient.ParseTrackedFrameReply
        { m_messages := [Sample.trackedFrame 5] } {}).2.1.ImageSizeBytes :=
  have hsize : (Sample.trackedFrame 5).image.length = (Sample.trackedFrame 5).imageSizeInBytes :=
    List.length_replicate 4096 0
  have h := tracked_frame_decoding (Sample.trackedFrame 5) Sample.oneFrameClient none 3
    { m_messages := [Sample.trackedFrame 5] } {} hsize rfl rfl (by decide) rfl
  ⟨hsize, h.1, h.2.2.1, h.2.2.2.2.2⟩

/-! ## Connecting -/

/-- C14, what the code does instead. For every negative timeoutSec the elapsed time,
which is never negative, exceeds `timeoutSec * 1000` right after the first
connect attempt: `ConnectAsync` makes exactly one attempt, never sleeps, and
returns whether that attempt succeeded. A failed first attempt is not retried. -/
theorem ConnectAsync_negative_timeout_single_attempt (timeoutSec : Int)
    (attempt : ConnectAttempt) (rest : List ConnectAttempt) (hneg : timeoutSec < 0) :
    ConnectAsync timeoutSec (attempt :: rest) =
      { result := some (decide (attempt.errorCode = 0)), attempts := 1, sleeps := 0,
        elapsedMsec := attempt.durationMsec,
        pumpStarted := decide (attempt.errorCode = 0) } := by
  have hup : (attempt.durationMsec : Int) > timeoutSec * 1000 := by omega
  simp only [ConnectAsync, connectLoop, Nat.zero_add, hup, if_true]

/-- C14, at the failing input: timeoutSec = -1 and a transport on which every
attempt fails: one attempt is made and false is returned. -/
theorem ConnectAsync_negative_timeout_single_attempt_witness :
    (-1 : Int) < 0 ∧
    (ConnectAsync (-1) (Sample.refusing 10)).attempts = 1 ∧
    (ConnectAsync (-1) (Sample.refusing 10)).result = some false :=
  have hneg : (-1 : Int) < 0 := by decide
  have h := ConnectAsync_negative_timeout_single_attempt (-1) { errorCode := -1 }
    (Sample.refusing 9) hneg
  ⟨hneg, congrArg ConnectRun.attempts h, congrArg ConnectRun.result h⟩

/-! ## One-shot reply consumption -/

namespace IGTLinkClient

theorem find?_split (test : Message → Bool) (pre post : List Message) (m : Message)
    (hpre : ∀ x ∈ pre, test x = false) (hm : test m = true) :
    (pre ++ m :: post).find? test = some m := by
  induction pre with
  | nil => simp [List.find?_cons, hm]
  | cons x rest ih =>
    have hx : test x = false := hpre x (List.mem_cons_self _ _)
    simp only [List.cons_append, List.find?_cons, hx]
    exact ih (fun y hy => hpre y (List.mem_cons_of_mem _ hy))

theorem erase_split (test : Message → Bool) (pre post : List Message) (m : Message)
    (hpre : ∀ x ∈ pre, test x = false) (hm : test m = true) :
    (pre ++ m :: post).erase m = pre ++ post := by
  have hnot : m ∉ pre := by
    intro hmem
    rw [hpre m hmem] at hm
    cases hm
  rw [List.erase_append_right _ hnot, List.erase_cons_head]

/-- Without an RTS command reply in the deque the call returns false and only
resets the caller's object. -/
theorem ParseCommandReply_not_found {Doc Node : Type} (dom : XmlDom Doc Node)
    (self : IGTLinkClient) (reply : CommandReply)
    (hnone : self.m_messages.find? Message.isRTSCommand = none) :
    ParseCommandReply dom self reply =
      (some false, { reply with Result := false, Parameters := [] }, self) := by
  unfold ParseCommandReply
  simp only [hnone]

/-- With an RTS command reply in the deque the call erases the oldest one, whether
it then returns true or is left by an exception. -/
theorem ParseCommandReply_found {Doc Node : Type} (dom : XmlDom Doc Node)
    (self : IGTLinkClient) (reply : CommandReply) (message : Message)
    (hfound : self.m_messages.find? Message.isRTSCommand = some message) :
    (ParseCommandReply dom self reply).2.2 =
        { self with m_messages := self.m_messages.erase message } ∧
      ((ParseCommandReply dom self reply).1 = some true ∨
        (ParseCommandReply dom self reply).1 = none) := by
  unfold ParseCommandReply
  simp only [hfound]
  split
  · exact ⟨rfl, Or.inr rfl⟩
  · split
    · exact ⟨rfl, Or.inr rfl⟩
    · split
      · exact ⟨rfl, Or.inl rfl⟩
      · exact ⟨rfl, Or.inr rfl⟩

/-- C15, what the code does instead. For every XML parser that takes element names
from the text and every store state, `ParseCommandReply` never returns true.
Without an RTS command reply in the deque it returns false, and then the deque
is unchanged, `reply.Result` is false and `reply.Parameters` is empty. With one,
it removes exactly the oldest RTS command reply, leaving all other entries in
their order, and is then left by an exception, because line 337 dereferences the
null `Item(0)` of the look-up of `Result` in the lower-cased document: the reply
is cleared from the queue but retrieved by no one. -/
theorem ParseCommandReply_consumes_without_delivering {Doc Node : Type}
    (dom : XmlDom Doc Node) (self : IGTLinkClient) (reply : CommandReply)
    (hdom : dom.NamesFromText) :
    (ParseCommandReply dom self reply).1 ≠ some true ∧
    ((ParseCommandReply dom self reply).1 = some false ↔
      ∀ m ∈ self.m_messages, m.isRTSCommand = false) ∧
    ((ParseCommandReply dom self reply).1 = some false →
      (ParseCommandReply dom self reply).2.2 = self ∧
      (ParseCommandReply dom self reply).2.1.Result = false ∧
      (ParseCommandReply dom self reply).2.1.Parameters = []) ∧
    (∀ pre m post, self.m_messages = pre ++ m :: post →
      (∀ x ∈ pre, x.isRTSCommand = false) → m.isRTSCommand = true →
      (ParseCommandReply dom self reply).1 = none ∧
      (ParseCommandReply dom self reply).2.2 = { self with m_messages := pre ++ post }) := by
  have hfalse : (ParseCommandReply dom self reply).1 = some false →
      self.m_messages.find? Message.isRTSCommand = none := by
    intro h
    cases hfind : self.m_messages.find? Message.isRTSCommand with
    | none => rfl
    | some message =>
      rw [ParseCommandReply_raises_of_found dom hdom self reply message hfind] at h
      cases h
  refine ⟨?_, ⟨?_, ?_⟩, ?_, ?_⟩
  · intro htrue
    cases hfind : self.m_messages.find? Message.isRTSCommand with
    | none =>
      rw [ParseCommandReply_not_found dom self reply hfind] at htrue
      cases htrue
    | some message =>
      rw [ParseCommandReply_raises_of_found dom hdom self reply message hfind] at htrue
      cases htrue
  · intro h m hm
    have hnone := List.find?_eq_none.mp (hfalse h) m hm
    simpa using hnone
  · intro h
    have hnone : self.m_messages.find? Message.isRTSCommand = none :=
      List.find?_eq_none.mpr (fun m hm => by simp [h m hm])
    rw [ParseCommandReply_not_found dom self reply hnone]
  · intro h
    rw [ParseCommandReply_not_found dom self reply (hfalse h)]
    exact ⟨rfl, rfl, rfl⟩
  · intro pre m post hsplit hpre hm
    have hfind : self.m_messages.find? Message.isRTSCommand = some m := by
      rw [hsplit]
      exact find?_split _ pre post m hpre hm
    rw [ParseCommandReply_raises_of_found dom hdom self reply m hfind]
    refine ⟨rfl, ?_⟩
    show { self with m_messages := self.m_messages.erase m } = _
    rw [hsplit, erase_split _ pre post m hpre hm]

/-- C15, at the failing input: a reply between two other messages. The call
removes the reply and is left by the exception; it does not return true. On the
deque that is left a second call returns false. -/
theorem ParseCommandReply_consumes_without_delivering_witness :
    (Sample.w3c Sample.library).NamesFromText ∧
    (ParseCommandReply (Sample.w3c Sample.library)
      { m_messages := [Sample.transform 1, Sample.commandReply 0, Sample.transform 3] } {}).1 =
      none ∧
    (ParseCommandReply (Sample.w3c Sample.library)
      { m_messages := [Sample.transform 1, Sample.commandReply 0, Sample.transform 3] }
      {}).2.2.m_messages = [Sample.transform 1, Sample.transform 3] ∧
    ((ParseCommandReply (Sample.w3c Sample.library)
      { m_messages := [Sample.transform 1, Sample.transform 3] } {}).1 = some false ↔
      ∀ m ∈ [Sample.transform 1, Sample.transform 3], m.isRTSCommand = false) :=
  have hdom : (Sample.w3c Sample.library).NamesFromText :=
    w3c_namesFromText Sample.library (by decide)
  have h := (ParseCommandReply_consumes_without_delivering (Sample.w3c Sample.library)
    { m_messages := [Sample.transform 1, Sample.commandReply 0, Sample.transform 3] } {}
    hdom).2.2.2
    [Sample.transform 1] (Sample.commandReply 0) [Sample.transform 3] rfl (by decide) rfl
  ⟨hdom, h.1, congrArg IGTLinkClient.m_messages h.2,
    (ParseCommandReply_consumes_without_delivering (Sample.w3c Sample.library)
      { m_messages := [Sample.transform 1, Sample.transform 3] } {} hdom).2.1⟩

end IGTLinkClient

/-! ## Pruning the caches -/

namespace Content.IGTLinkClient

/-- The pruning loop, when it runs to its end, keeps every entry whose key is not
below the watermark. -/
theorem pruneLoop_retains {V : Type} (oldest : Int) (l : List (Int × V)) :
    ∀ r, pruneLoop oldest l = some r → ∀ p ∈ l, ¬ p.1 < oldest → p ∈ r := by
  induction l using pruneLoop.induct oldest with
  | case1 => intro r _ p hp; cases hp
  | case2 p0 hlt => intro r h; simp [pruneLoop, hlt] at h
  | case3 p0 hge =>
    intro r h p hp _
    simp only [pruneLoop, hge, if_false, Option.some.injEq] at h
    rw [← h]; exact hp
  | case4 p0 q rest hlt ih =>
    intro r h p hp hkeep
    simp only [pruneLoop, hlt, if_true, Option.map_eq_some'] at h
    obtain ⟨r2, hr2, rfl⟩ := h
    rcases List.mem_cons.mp hp with rfl | hp
    · exact absurd hlt hkeep
    · rcases List.mem_cons.mp hp with rfl | hp
      · exact List.mem_cons_self _ _
      · exact List.mem_cons_of_mem _ (ih r2 hr2 p hp hkeep)
  | case5 p0 q rest hge ih =>
    intro r h p hp hkeep
    simp only [pruneLoop, hge, if_false, Option.map_eq_some'] at h
    obtain ⟨r2, hr2, rfl⟩ := h
    rcases List.mem_cons.mp hp with rfl | hp
    · exact List.mem_cons_self _ _
    · exact List.mem_cons_of_mem _ (ih r2 hr2 p hp hkeep)

/-- C16, the code at the failing input. A tracked frame with time stamp 5 is in the
deque and the cache holds two entries, under the keys 1 and 2 (two queries). The
next iteration that stores a message prunes with the watermark 5: the loop
erases the entry under 1, steps over the entry under 2 and ends. The entry under
2, strictly less than the watermark, is still in the cache. -/
theorem tracked_frame_prune_skips_entry :
    StdMap.keys Sample.twiceQueriedClient.m_receiveUWPMessages = [1, 2] ∧
    (DataReceiverPumpBody Sample.twiceQueriedClient
      (PumpIteration.receive (Sample.transform 6))).outcome = PumpOutcome.Continue ∧
    (DataReceiverPumpBody Sample.twiceQueriedClient
      (PumpIteration.receive (Sample.transform 6))).client.GetOldestTrackedFrameTimestamp = 5 ∧
    StdMap.keys (DataReceiverPumpBody Sample.twiceQueriedClient
      (PumpIteration.receive (Sample.transform 6))).client.m_receiveUWPMessages = [2] := by
  refine ⟨by decide, by decide, by decide, by decide⟩

/-- C17, the code at the failing inputs. (1) The deque holds a command reply with
time stamp 8 and the command cache an entry under key 4; a command message with
time stamp 10 arrives. The entry is older than every command in the deque, but
the loop compares it with the tracked-frame watermark (-1, no tracked frame) and
keeps it. (2) The deque holds command replies 5 and 30 and a command message 1,
the cache entries under 20 and 25; a tracked frame with time stamp 100 arrives.
The entry under 20 is not older than the oldest command, but it is below the
tracked-frame watermark 100 and is erased. -/
theorem command_prune_uses_tracked_frame_watermark :
    (StdMap.keys Sample.commandQueriedClient.m_receiveUWPCommands = [4] ∧
      (DataReceiverPumpBody Sample.commandQueriedClient
        (PumpIteration.receive (Sample.command 10))).client.m_receiveMessages.map
          (fun m => (m.typeId, m.timeStamp)) =
        [(MessageType.RTSCommandMessage, 8), (MessageType.CommandMessage, 10)] ∧
      (DataReceiverPumpBody Sample.commandQueriedClient
        (PumpIteration.receive (Sample.command 10))).client.GetOldestCommandTimestamp = 10 ∧
      (DataReceiverPumpBody Sample.commandQueriedClient
        (PumpIteration.receive (Sample.command 10))).client.GetOldestTrackedFrameTimestamp = -1 ∧
      StdMap.keys (DataReceiverPumpBody Sample.commandQueriedClient
        (PumpIteration.receive (Sample.command 10))).client.m_receiveUWPCommands = [4]) ∧
    (StdMap.keys Sample.twoCommandsClient.m_receiveUWPCommands = [20, 25] ∧
      (DataReceiverPumpBody Sample.twoCommandsClient
        (PumpIteration.receive (Sample.trackedFrame 100))).client.m_receiveMessages.map
          (fun m => (m.typeId, m.timeStamp)) =
        [(MessageType.RTSCommandMessage, 5), (MessageType.RTSCommandMessage, 30),
          (MessageType.CommandMessage, 1), (MessageType.TrackedFrameMessage, 100)] ∧
      StdMap.keys (DataReceiverPumpBody Sample.twoCommandsClient
        (PumpIteration.receive (Sample.trackedFrame 100))).client.m_receiveUWPCommands = [25]) := by
  refine ⟨⟨by decide, by decide, by decide, by decide, by decide⟩, by decide, by decide,
    by decide⟩

end Content.IGTLinkClient

/-! ## The paths through one iteration of the receive loop -/

theorem mem_eraseFront (l : List Message) (x : Message) (h : x ∈ eraseFront l) : x ∈ l := by
  rw [eraseFront_eq_drop] at h
  exact List.mem_of_mem_drop h

/-- C18, what the code does instead. In an iteration whose header is received and
unpacked but for which the message factory returns no object, neither revision
skips the body: the only socket call of the iteration is the header read, no
byte of the announced body is read or skipped, nothing is stored and no callback
is invoked. The cache revision continues with the next iteration, whether the
factory returned a null pointer or raised; the callback revision continues after
a null pointer and is left by the exception when the factory raises, since it
calls the factory outside any try block. Where the loop continues, the next
iteration reads its header from the unconsumed body bytes. -/
theorem unknown_type_body_not_skipped (client : IGTLinkClient) (content : Content.IGTLinkClient)
    (io : PumpIteration) (hio : io.UnknownType) :
    client.DataReceiverPumpBody io =
      { client := client,
        outcome := if io.createThrows then PumpOutcome.Threw else PumpOutcome.Continue,
        invoked := [], socket := [SocketCall.ReceiveHeader] } ∧
    content.DataReceiverPumpBody io =
      { client := content, outcome := PumpOutcome.Continue,
        socket := [SocketCall.ReceiveHeader] } ∧
    SocketCall.Skip io.bodySizeToRead ∉ (client.DataReceiverPumpBody io).socket ∧
    SocketCall.Skip io.bodySizeToRead ∉ (content.DataReceiverPumpBody io).socket := by
  obtain ⟨h1, h2, h3, h4, h5, h6⟩ := hio
  have hne : ¬ (io.numOfBytesReceived = 0 ∨ io.numOfBytesReceived ≠ io.headerSize) := by
    rintro (h | h)
    · exact h3 h
    · exact h h4
  have hclient : client.DataReceiverPumpBody io =
      { client := client,
        outcome := if io.createThrows then PumpOutcome.Threw else PumpOutcome.Continue,
        invoked := [], socket := [SocketCall.ReceiveHeader] } := by
    unfold IGTLinkClient.DataReceiverPumpBody
    simp only [h1, h2, h5, hne, if_false, Bool.not_true, Bool.false_eq_true]
    by_cases hthrows : io.createThrows = true
    · rw [if_pos hthrows, if_pos hthrows]
    · rw [if_neg hthrows, if_neg hthrows]
      rcases h6 with h6 | h6
      · exact absurd h6 hthrows
      · rw [h6]
  have hcontent : content.DataReceiverPumpBody io =
      { client := content, outcome := PumpOutcome.Continue,
        socket := [SocketCall.ReceiveHeader] } := by
    unfold Content.IGTLinkClient.DataReceiverPumpBody
    simp only [h1, h2, h5, hne, if_false, Bool.not_true, Bool.false_eq_true]
    by_cases hthrows : io.createThrows = true
    · rw [if_pos hthrows]
    · rw [if_neg hthrows]
      rcases h6 with h6 | h6
      · exact absurd h6 hthrows
      · rw [h6]
  refine ⟨hclient, hcontent, ?_, ?_⟩
  · rw [hclient]; simp
  · rw [hcontent]; simp

/-- C18, at the failing inputs: a header announcing 100 body bytes of a type for
which the factory returns a null pointer, and one at which the factory raises;
no iteration makes a `Skip(100)` call, and the callback revision is left by the
exception in the second case. -/
theorem unknown_type_body_not_skipped_witness :
    Sample.unknownType.UnknownType ∧ Sample.unknownType.bodySizeToRead = 100 ∧
    (Sample.subscribed.DataReceiverPumpBody Sample.unknownType).socket =
      [SocketCall.ReceiveHeader] ∧
    (Sample.subscribed.DataReceiverPumpBody Sample.unknownType).outcome =
      PumpOutcome.Continue ∧
    (Content.IGTLinkClient.DataReceiverPumpBody Sample.oneFrameClient Sample.unknownType).socket =
      [SocketCall.ReceiveHeader] ∧
    Sample.factoryRaises.UnknownType ∧
    (Sample.subscribed.DataReceiverPumpBody Sample.factoryRaises).socket =
      [SocketCall.ReceiveHeader] ∧
    (Sample.subscribed.DataReceiverPumpBody Sample.factoryRaises).outcome =
      PumpOutcome.Threw ∧
    (Content.IGTLinkClient.DataReceiverPumpBody Sample.oneFrameClient
      Sample.factoryRaises).outcome = PumpOutcome.Continue :=
  have hio : Sample.unknownType.UnknownType := ⟨rfl, rfl, by decide, rfl, rfl, Or.inr rfl⟩
  have hraises : Sample.factoryRaises.UnknownType :=
    ⟨rfl, rfl, by decide, rfl, rfl, Or.inl rfl⟩
  have h := unknown_type_body_not_skipped Sample.subscribed Sample.oneFrameClient
    Sample.unknownType hio
  have h2 := unknown_type_body_not_skipped Sample.subscribed Sample.oneFrameClient
    Sample.factoryRaises hraises
  ⟨hio, rfl, congrArg IGTLinkClient.PumpStep.socket h.1,
    congrArg IGTLinkClient.PumpStep.outcome h.1,
    congrArg Content.IGTLinkClient.PumpStep.socket h.2.1, hraises,
    congrArg IGTLinkClient.PumpStep.socket h2.1,
    congrArg IGTLinkClient.PumpStep.outcome h2.1,
    congrArg Content.IGTLinkClient.PumpStep.outcome h2.2.1⟩

namespace IGTLinkClient

/-- An iteration of the callback revision never puts a status message in the deque. -/
theorem DataReceiverPumpBody_no_status (self : IGTLinkClient) (io : PumpIteration)
    (hclean : ∀ x ∈ self.m_messages, x.isStatus = false) :
    ∀ x ∈ (DataReceiverPumpBody self io).client.m_messages, x.isStatus = false := by
  intro x hx
  have happend : ∀ b : Message, (!b.isStatus) = true → x ∈ self.m_messages ++ [b] →
      x.isStatus = false := by
    intro b hb hmem
    rcases List.mem_append.mp hmem with h | h
    · exact hclean x h
    · rw [List.mem_singleton.mp h]
      simpa using hb
  unfold DataReceiverPumpBody at hx
  by_cases h1 : io.isCanceled = true
  · rw [if_pos h1] at hx; exact hclean x hx
  rw [if_neg h1] at hx
  by_cases h2 : (!io.connectedBeforeHeader) = true
  · rw [if_pos h2] at hx; exact hclean x hx
  rw [if_neg h2] at hx
  by_cases h3 : io.numOfBytesReceived = 0 ∨ io.numOfBytesReceived ≠ io.headerSize
  · rw [if_pos h3] at hx; exact hclean x hx
  rw [if_neg h3] at hx
  by_cases h5 : (!io.headerUnpacked) = true
  · rw [if_pos h5] at hx; exact hclean x hx
  rw [if_neg h5] at hx
  by_cases hthrows : io.createThrows = true
  · rw [if_pos hthrows] at hx; exact hclean x hx
  rw [if_neg hthrows] at hx
  cases h6 : io.bodyMsg with
  | none => rw [h6] at hx; exact hclean x hx
  | some b =>
    rw [h6] at hx
    dsimp only at hx
    by_cases hs : (!b.isStatus) = true
    · rw [if_pos hs] at hx
      by_cases h9 : (!io.connectedBeforeBody) = true
      · rw [if_pos h9] at hx; exact hclean x hx
      rw [if_neg h9] at hx
      by_cases h10 : (!io.bodyUnpacked) = true
      · rw [if_pos h10] at hx; exact hclean x hx
      rw [if_neg h10] at hx
      repeat' split at hx
      all_goals first
        | exact happend b hs (mem_eraseFront (self.m_messages ++ [b]) x hx)
        | exact happend b hs hx
    · rw [if_neg hs] at hx
      by_cases h9 : (!io.connectedBeforeBody) = true
      · rw [if_pos h9] at hx; exact hclean x hx
      rw [if_neg h9] at hx
      exact hclean x (mem_eraseFront self.m_messages x hx)

theorem DataReceiverPump_no_status (ios : List PumpIteration) (self : IGTLinkClient)
    (hclean : ∀ x ∈ self.m_messages, x.isStatus = false) :
    ∀ x ∈ (DataReceiverPump self ios).client.m_messages, x.isStatus = false := by
  induction ios generalizing self with
  | nil => exact hclean
  | cons io rest ih =>
    have hstep := DataReceiverPumpBody_no_status self io hclean
    simp only [DataReceiverPump]
    split
    · exact ih _ hstep
    · exact hstep

end IGTLinkClient

namespace Content.IGTLinkClient

/-- An iteration of the cache revision never puts a status message in the deque. -/
theorem cachePumpBody_no_status (self : IGTLinkClient) (io : PumpIteration)
    (hclean : ∀ x ∈ self.m_receiveMessages, x.isStatus = false) :
    ∀ x ∈ (DataReceiverPumpBody self io).client.m_receiveMessages, x.isStatus = false := by
  intro x hx
  unfold DataReceiverPumpBody at hx
  by_cases h1 : io.isCanceled = true
  · rw [if_pos h1] at hx; exact hclean x hx
  rw [if_neg h1] at hx
  by_cases h2 : (!io.connectedBeforeHeader) = true
  · rw [if_pos h2] at hx; exact hclean x hx
  rw [if_neg h2] at hx
  by_cases h3 : io.numOfBytesReceived = 0 ∨ io.numOfBytesReceived ≠ io.headerSize
  · rw [if_pos h3] at hx; exact hclean x hx
  rw [if_neg h3] at hx
  by_cases h5 : (!io.headerUnpacked) = true
  · rw [if_pos h5] at hx; exact hclean x hx
  rw [if_neg h5] at hx
  by_cases h6 : io.createThrows = true
  · rw [if_pos h6] at hx; exact hclean x hx
  rw [if_neg h6] at hx
  cases h7 : io.bodyMsg with
  | none => rw [h7] at hx; exact hclean x hx
  | some b =>
    rw [h7] at hx
    dsimp only at hx
    by_cases hs : (!b.isStatus) = true
    · rw [if_pos hs] at hx
      by_cases h9 : (!io.connectedBeforeBody) = true
      · rw [if_pos h9] at hx; exact hclean x hx
      rw [if_neg h9] at hx
      by_cases h10 : (!io.bodyUnpacked) = true
      · rw [if_pos h10] at hx; exact hclean x hx
      rw [if_neg h10, trimAndPrune_messages] at hx
      rcases List.mem_append.mp (mem_eraseFront (self.m_receiveMessages ++ [b]) x hx) with h | h
      · exact hclean x h
      · rw [List.mem_singleton.mp h]
        simpa using hs
    · rw [if_neg hs] at hx
      by_cases h9 : (!io.connectedBeforeBody) = true
      · rw [if_pos h9] at hx; exact hclean x hx
      rw [if_neg h9, trimAndPrune_messages] at hx
      exact hclean x (mem_eraseFront self.m_receiveMessages x hx)

theorem cachePump_no_status (ios : List PumpIteration) (self : IGTLinkClient)
    (hclean : ∀ x ∈ self.m_receiveMessages, x.isStatus = false) :
    ∀ x ∈ (DataReceiverPump self ios).client.m_receiveMessages, x.isStatus = false := by
  induction ios generalizing self with
  | nil => exact hclean
  | cons io rest ih =>
    have hstep := cachePumpBody_no_status self io hclean
    simp only [DataReceiverPump]
    split
    · exact ih _ hstep
    · exact hstep

end Content.IGTLinkClient

namespace Content.IGTLinkClient

theorem trimAndPrune_socket (self : IGTLinkClient) (socket : List SocketCall) :
    (trimAndPrune self socket).socket = socket := by
  unfold trimAndPrune
  dsimp only
  split
  · rfl
  · split <;> rfl

/-- The iteration returns exactly when it observes a stop condition; otherwise it
continues, unless a pruning loop increments the end iterator. -/
theorem cachePumpBody_outcome (self : IGTLinkClient) (io : PumpIteration) :
    ((DataReceiverPumpBody self io).outcome = PumpOutcome.Return ↔ io.ObservesStop) ∧
    ((DataReceiverPumpBody self io).outcome = PumpOutcome.Return ∨
      (DataReceiverPumpBody self io).outcome = PumpOutcome.Continue ∨
      (DataReceiverPumpBody self io).outcome = PumpOutcome.Undefined) := by
  have hprune : ∀ (c : IGTLinkClient) (socket : List SocketCall) (stop : Prop), ¬ stop →
      ((trimAndPrune c socket).outcome = PumpOutcome.Return ↔ stop) ∧
      ((trimAndPrune c socket).outcome = PumpOutcome.Return ∨
        (trimAndPrune c socket).outcome = PumpOutcome.Continue ∨
        (trimAndPrune c socket).outcome = PumpOutcome.Undefined) := by
    intro c socket stop hstop
    rcases trimAndPrune_outcome c socket with h | h
    · rw [h]; exact ⟨⟨(fun e => nomatch e), fun e => absurd e hstop⟩, Or.inr (Or.inl rfl)⟩
    · rw [h]; exact ⟨⟨(fun e => nomatch e), fun e => absurd e hstop⟩, Or.inr (Or.inr rfl)⟩
  have hcontinue : ∀ stop : Prop, ¬ stop →
      ((PumpOutcome.Continue = PumpOutcome.Return ↔ stop) ∧
        (PumpOutcome.Continue = PumpOutcome.Return ∨
          PumpOutcome.Continue = PumpOutcome.Continue ∨
          PumpOutcome.Continue = PumpOutcome.Undefined)) :=
    fun stop hstop => ⟨⟨(fun e => nomatch e), fun e => absurd e hstop⟩, Or.inr (Or.inl rfl)⟩
  have hreturn : ∀ stop : Prop, stop →
      ((PumpOutcome.Return = PumpOutcome.Return ↔ stop) ∧
        (PumpOutcome.Return = PumpOutcome.Return ∨
          PumpOutcome.Return = PumpOutcome.Continue ∨
          PumpOutcome.Return = PumpOutcome.Undefined)) :=
    fun stop hstop => ⟨⟨fun _ => hstop, fun _ => rfl⟩, Or.inl rfl⟩
  unfold DataReceiverPumpBody
  by_cases h1 : io.isCanceled = true
  · rw [if_pos h1]; exact hreturn _ (Or.inl h1)
  rw [if_neg h1]
  by_cases h2 : (!io.connectedBeforeHeader) = true
  · rw [if_pos h2]; exact hreturn _ (Or.inr (Or.inl (by simpa using h2)))
  rw [if_neg h2]
  have h1f : io.isCanceled = false := by simpa using h1
  have h2t : io.connectedBeforeHeader = true := by simpa using h2
  by_cases h3 : io.numOfBytesReceived = 0 ∨ io.numOfBytesReceived ≠ io.headerSize
  · rw [if_pos h3]
    refine hcontinue _ ?_
    rintro (h | h | ⟨ha, hb, _⟩)
    · rw [h1f] at h; cases h
    · rw [h2t] at h; cases h
    · rcases h3 with h3 | h3
      · exact ha h3
      · exact h3 hb
  rw [if_neg h3]
  by_cases h5 : (!io.headerUnpacked) = true
  · rw [if_pos h5]
    refine hcontinue _ ?_
    rintro (h | h | ⟨_, _, hc, _⟩)
    · rw [h1f] at h; cases h
    · rw [h2t] at h; cases h
    · rw [hc] at h5; cases h5
  rw [if_neg h5]
  by_cases h6 : io.createThrows = true
  · rw [if_pos h6]
    refine hcontinue _ ?_
    rintro (h | h | ⟨_, _, _, hd, _⟩)
    · rw [h1f] at h; cases h
    · rw [h2t] at h; cases h
    · rw [hd] at h6; cases h6
  rw [if_neg h6]
  have hhead : io.numOfBytesReceived ≠ 0 ∧ io.numOfBytesReceived = io.headerSize := by
    constructor
    · exact fun e => h3 (Or.inl e)
    · exact Classical.byContradiction (fun e => h3 (Or.inr e))
  have h5t : io.headerUnpacked = true := by simpa using h5
  have h6f : io.createThrows = false := by simpa using h6
  cases h7 : io.bodyMsg with
  | none =>
    refine hcontinue _ ?_
    rintro (h | h | ⟨_, _, _, _, he, _⟩)
    · rw [h1f] at h; cases h
    · rw [h2t] at h; cases h
    · exact he h7
  | some b =>
    have hstops : io.connectedBeforeBody = false → io.ObservesStop := fun h9 =>
      Or.inr (Or.inr ⟨hhead.1, hhead.2, h5t, h6f, (by rw [h7]; exact Option.some_ne_none b), h9⟩)
    have hruns : io.connectedBeforeBody = true → ¬ io.ObservesStop := by
      rintro h9 (h | h | ⟨_, _, _, _, _, hf⟩)
      · rw [h1f] at h; cases h
      · rw [h2t] at h; cases h
      · rw [h9] at hf; cases hf
    dsimp only
    by_cases hs : (!b.isStatus) = true
    · rw [if_pos hs]
      by_cases h9 : (!io.connectedBeforeBody) = true
      · rw [if_pos h9]; exact hreturn _ (hstops (by simpa using h9))
      rw [if_neg h9]
      by_cases h10 : (!io.bodyUnpacked) = true
      · rw [if_pos h10]; exact hcontinue _ (hruns (by simpa using h9))
      rw [if_neg h10]
      exact hprune _ _ _ (hruns (by simpa using h9))
    · rw [if_neg hs]
      by_cases h9 : (!io.connectedBeforeBody) = true
      · rw [if_pos h9]; exact hreturn _ (hstops (by simpa using h9))
      rw [if_neg h9]
      exact hprune _ _ _ (hruns (by simpa using h9))

/-- C20, the code at the failing input. A tracked frame with time stamp 5 is in the
deque and the cache holds one entry, under key 3 (one query). The next iteration
receives and stores a message while the token is not cancelled and the socket
is connected, so it observes no stop condition. Its pruning loop erases the only
cache entry, which leaves the iterator at `end()`, and then executes `++it`:
the iteration neither returns nor is it guaranteed to continue, its behaviour
is undefined. -/
theorem storing_iteration_undefined :
    StdMap.keys Sample.onceQueriedClient.m_receiveUWPMessages = [3] ∧
    Sample.onceQueriedClient.GetOldestTrackedFrameTimestamp = 5 ∧
    ¬ (PumpIteration.receive (Sample.transform 6)).ObservesStop ∧
    (DataReceiverPumpBody Sample.onceQueriedClient
      (PumpIteration.receive (Sample.transform 6))).outcome = PumpOutcome.Undefined ∧
    (DataReceiverPumpBody Sample.onceQueriedClient
      (PumpIteration.receive (Sample.transform 6))).outcome ≠ PumpOutcome.Continue := by
  refine ⟨by decide, by decide, ?_, by decide, by decide⟩
  rintro (h | h | ⟨_, _, _, _, _, h⟩) <;> cases h

end Content.IGTLinkClient

/-- C19. Status (keep-alive) messages are never stored, in both revisions. In an
iteration whose header announces a status message `m`, with the socket connected
and the token not cancelled, the loop reads the header and skips exactly the
announced body size, without reading a body; it appends nothing to the deque
(the deque is only trimmed to its capacity, so unchanged when within capacity),
invokes no callback and continues. And after any run of the loop from a deque
without status messages (the empty deque of a new client in particular) the
deque holds no status message. -/
theorem status_messages_never_stored (client : IGTLinkClient) (content : Content.IGTLinkClient)
    (io : PumpIteration) (m : Message) (ios : List PumpIteration)
    (hio : io.SkipsStatus m)
    (hclean : ∀ x ∈ client.m_messages, x.isStatus = false)
    (hclean2 : ∀ x ∈ content.m_receiveMessages, x.isStatus = false) :
    ((client.DataReceiverPumpBody io).socket =
        [SocketCall.ReceiveHeader, SocketCall.Skip io.bodySizeToRead] ∧
      (client.DataReceiverPumpBody io).client.m_messages = eraseFront client.m_messages ∧
      (client.m_messages.length ≤ MESSAGE_LIST_MAX_SIZE →
        (client.DataReceiverPumpBody io).client.m_messages = client.m_messages) ∧
      (client.DataReceiverPumpBody io).invoked = [] ∧
      (client.DataReceiverPumpBody io).outcome = PumpOutcome.Continue) ∧
    ((content.DataReceiverPumpBody io).socket =
        [SocketCall.ReceiveHeader, SocketCall.Skip io.bodySizeToRead] ∧
      (content.DataReceiverPumpBody io).client.m_receiveMessages =
        eraseFront content.m_receiveMessages ∧
      (content.m_receiveMessages.length ≤ MESSAGE_LIST_MAX_SIZE →
        (content.DataReceiverPumpBody io).client.m_receiveMessages =
          content.m_receiveMessages)) ∧
    (∀ x ∈ (client.DataReceiverPump ios).client.m_messages, x.isStatus = false) ∧
    (∀ x ∈ (content.DataReceiverPump ios).client.m_receiveMessages, x.isStatus = false) := by
  obtain ⟨h1, h2, h3, h4, h5, h6, h7, h8, h9⟩ := hio
  have hne : ¬ (io.numOfBytesReceived = 0 ∨ io.numOfBytesReceived ≠ io.headerSize) := by
    rintro (h | h)
    · exact h3 h
    · exact h h4
  have hclient : client.DataReceiverPumpBody io =
      { client := { client with m_messages := eraseFront client.m_messages },
        outcome := PumpOutcome.Continue, invoked := [],
        socket := [SocketCall.ReceiveHeader, SocketCall.Skip io.bodySizeToRead] } := by
    unfold IGTLinkClient.DataReceiverPumpBody
    simp only [h1, h2, h5, h6, h7, h8, h9, hne, if_false, Bool.not_true, Bool.false_eq_true]
  have hcontent : content.DataReceiverPumpBody io =
      Content.IGTLinkClient.trimAndPrune content
        [SocketCall.ReceiveHeader, SocketCall.Skip io.bodySizeToRead] := by
    unfold Content.IGTLinkClient.DataReceiverPumpBody
    simp only [h1, h2, h5, h6, h7, h8, h9, hne, if_false, Bool.not_true, Bool.false_eq_true]
  refine ⟨?_, ?_, IGTLinkClient.DataReceiverPump_no_status ios client hclean,
    Content.IGTLinkClient.cachePump_no_status ios content hclean2⟩
  · rw [hclient]
    exact ⟨rfl, rfl, fun hlen => eraseFront_of_length_le _ hlen, rfl, rfl⟩
  · rw [hcontent, Content.IGTLinkClient.trimAndPrune_socket,
      Content.IGTLinkClient.trimAndPrune_messages]
    exact ⟨rfl, rfl, fun hlen => eraseFront_of_length_le _ hlen⟩

/-- C19, at a concrete input: a keep-alive of 30 body bytes received by clients of
both revisions, and a run in which a keep-alive arrives between two stored
messages. -/
theorem status_messages_never_stored_witness :
    Sample.keepAlive.SkipsStatus (Sample.status 6) ∧
    (Sample.subscribed.DataReceiverPumpBody Sample.keepAlive).socket =
      [SocketCall.ReceiveHeader, SocketCall.Skip 30] ∧
    (Sample.subscribed.DataReceiverPumpBody Sample.keepAlive).invoked = [] ∧
    (Content.IGTLinkClient.DataReceiverPumpBody Sample.oneFrameClient Sample.keepAlive).socket =
      [SocketCall.ReceiveHeader, SocketCall.Skip 30] ∧
    (Content.IGTLinkClient.DataReceiverPumpBody Sample.oneFrameClient
      Sample.keepAlive).client.m_receiveMessages = Sample.oneFrameClient.m_receiveMessages ∧
    (∀ x ∈ (Content.IGTLinkClient.DataReceiverPump Sample.oneFrameClient
        [PumpIteration.receive (Sample.transform 6), Sample.keepAlive,
          PumpIteration.receive (Sample.transform 7)]).client.m_receiveMessages,
      x.isStatus = false) :=
  have hio : Sample.keepAlive.SkipsStatus (Sample.status 6) :=
    ⟨rfl, rfl, by decide, rfl, rfl, rfl, rfl, rfl, rfl⟩
  have h := status_messages_never_stored Sample.subscribed Sample.oneFrameClient
    Sample.keepAlive (Sample.status 6)
    [PumpIteration.receive (Sample.transform 6), Sample.keepAlive,
      PumpIteration.receive (Sample.transform 7)]
    hio (fun _ hx => absurd hx (List.not_mem_nil _))
    (fun x hx => by rw [List.mem_singleton.mp hx]; rfl)
  ⟨hio, h.1.1, h.1.2.2.2.1, h.2.1.1, h.2.1.2.2 (by decide), h.2.2.2⟩

/-! ## Frame conditions of the queries -/

namespace Content.IGTLinkClient

/-- A call of the tracked-frame query either succeeds or returns false with the
caller's handle and the client untouched. -/
theorem GetLatestTrackedFrame_result (self : IGTLinkClient) (frame : Option TrackedFrame)
    (latestTimestamp : Option Int) :
    (GetLatestTrackedFrame self frame latestTimestamp).1 = true ∨
      GetLatestTrackedFrame self frame latestTimestamp = (false, frame, self) := by
  unfold GetLatestTrackedFrame
  dsimp only
  split
  · exact Or.inl rfl
  · split
    · exact Or.inr rfl
    · split
      · exact Or.inr rfl
      · exact Or.inl rfl

/-- The command query never touches the deque, whether it returns or raises. -/
theorem GetLatestCommand_messages {Doc Node : Type}
    (dom : UWPOpenIGTLink.IGTLinkClient.XmlDom Doc Node) (self : IGTLinkClient)
    (cmd : Option Command) (latestTimestamp : Option Int) :
    (GetLatestCommand dom self cmd latestTimestamp).2.2.m_receiveMessages =
      self.m_receiveMessages := by
  unfold GetLatestCommand
  dsimp only
  split
  · rfl
  · split
    · rfl
    · split
      · rfl
      · split <;> rfl

/-- C29. Queries are non-consuming. For every client (deque and caches), every
caller handle and every argument (since given or omitted), and every behaviour
of the XML library, `GetLatestTrackedFrame` and `GetLatestCommand` leave the
deque of received messages exactly as it was, the same messages in the same
order, whatever they return. -/
theorem queries_leave_store_unchanged {Doc Node : Type}
    (dom : UWPOpenIGTLink.IGTLinkClient.XmlDom Doc Node) (self : IGTLinkClient)
    (frame : Option TrackedFrame) (cmd : Option Command) (latestTimestamp : Option Int) :
    (GetLatestTrackedFrame self frame latestTimestamp).2.2.m_receiveMessages =
      self.m_receiveMessages ∧
    (GetLatestCommand dom self cmd latestTimestamp).2.2.m_receiveMessages =
      self.m_receiveMessages := by
  refine ⟨?_, GetLatestCommand_messages dom self cmd latestTimestamp⟩
  rcases GetLatestTrackedFrame_client self frame latestTimestamp with h | ⟨_, _, _, _, _, _, _, h⟩
  · rw [h]
  · rw [h]

/-- C30. Failed query is atomic. For every client, caller handle and argument:
whenever `GetLatestTrackedFrame` returns false, the client is exactly as before,
so the tracked-frame cache has no entry added or replaced and no object was
created, and the caller's frame handle is left as it was. -/
theorem failed_query_leaves_cache_and_frame (self : IGTLinkClient)
    (frame : Option TrackedFrame) (latestTimestamp : Option Int)
    (hfalse : (GetLatestTrackedFrame self frame latestTimestamp).1 = false) :
    (GetLatestTrackedFrame self frame latestTimestamp).2.2.m_receiveUWPMessages =
      self.m_receiveUWPMessages ∧
    (GetLatestTrackedFrame self frame latestTimestamp).2.1 = frame ∧
    (GetLatestTrackedFrame self frame latestTimestamp).2.2 = self := by
  rcases GetLatestTrackedFrame_result self frame latestTimestamp with h | h
  · rw [h] at hfalse
    cases hfalse
  · rw [h]
    exact ⟨rfl, rfl, rfl⟩

/-- C30, at a concrete input: frames 5 and 2 arrived in this order; the query with
since = 3 returns false and leaves the caller's handle (here a snapshot obtained
before) and the client as they were. -/
theorem failed_query_leaves_cache_and_frame_witness :
    (GetLatestTrackedFrame Sample.unorderedClient
      (some (decodeTrackedFrame 7 (Sample.trackedFrame 1))) (some 3)).1 = false ∧
    (GetLatestTrackedFrame Sample.unorderedClient
      (some (decodeTrackedFrame 7 (Sample.trackedFrame 1))) (some 3)).2.1 =
      some (decodeTrackedFrame 7 (Sample.trackedFrame 1)) ∧
    (GetLatestTrackedFrame Sample.unorderedClient
      (some (decodeTrackedFrame 7 (Sample.trackedFrame 1))) (some 3)).2.2 =
      Sample.unorderedClient :=
  have hfalse : (GetLatestTrackedFrame Sample.unorderedClient
      (some (decodeTrackedFrame 7 (Sample.trackedFrame 1))) (some 3)).1 = false := by decide
  have h := failed_query_leaves_cache_and_frame Sample.unorderedClient
    (some (decodeTrackedFrame 7 (Sample.trackedFrame 1))) (some 3) hfalse
  ⟨hfalse, h.2.1, h.2.2⟩

end Content.IGTLinkClient

/-! ## A body that does not unpack -/

/-- C26. Body decode failure is atomic, in both revisions. In every iteration in
which a header and the body of a non-status message are received but the body
`Unpack` does not report `UNPACK_BODY`, the loop continues with the client
exactly as it was at the start of the iteration (deque, tracked-frame cache,
command cache, callback registry) and no callback is invoked. -/
theorem body_unpack_failure_changes_nothing (client : IGTLinkClient)
    (content : Content.IGTLinkClient) (io : PumpIteration) (m : Message)
    (hio : io.BodyUnpackFails m) :
    ((client.DataReceiverPumpBody io).client = client ∧
      (client.DataReceiverPumpBody io).invoked = [] ∧
      (client.DataReceiverPumpBody io).outcome = PumpOutcome.Continue) ∧
    ((content.DataReceiverPumpBody io).client = content ∧
      (content.DataReceiverPumpBody io).client.m_receiveMessages = content.m_receiveMessages ∧
      (content.DataReceiverPumpBody io).client.m_receiveUWPMessages =
        content.m_receiveUWPMessages ∧
      (content.DataReceiverPumpBody io).client.m_receiveUWPCommands =
        content.m_receiveUWPCommands ∧
      (content.DataReceiverPumpBody io).outcome = PumpOutcome.Continue) := by
  obtain ⟨h1, h2, h3, h4, h5, h6, h7, h8, h9, h10⟩ := hio
  have hne : ¬ (io.numOfBytesReceived = 0 ∨ io.numOfBytesReceived ≠ io.headerSize) := by
    rintro (h | h)
    · exact h3 h
    · exact h h4
  have hclient : client.DataReceiverPumpBody io =
      { client := client, outcome := PumpOutcome.Continue, invoked := [],
        socket := [SocketCall.ReceiveHeader, SocketCall.ReceiveBody io.bodySizeToRead] } := by
    unfold IGTLinkClient.DataReceiverPumpBody
    simp only [h1, h2, h5, h6, h7, h8, h9, h10, hne, if_false, Bool.not_true, Bool.not_false,
      Bool.false_eq_true, if_true]
  have hcontent : content.DataReceiverPumpBody io =
      { client := content, outcome := PumpOutcome.Continue,
        socket := [SocketCall.ReceiveHeader, SocketCall.ReceiveBody io.bodySizeToRead] } := by
    unfold Content.IGTLinkClient.DataReceiverPumpBody
    simp only [h1, h2, h5, h6, h7, h8, h9, h10, hne, if_false, Bool.not_true, Bool.not_false,
      Bool.false_eq_true, if_true]
  rw [hclient, hcontent]
  exact ⟨⟨rfl, rfl, rfl⟩, ⟨rfl, rfl, rfl, rfl, rfl⟩⟩

/-- C26, at a concrete input: the body of a tracked frame does not unpack, on a
client with a subscriber and on a client with a cached snapshot. -/
theorem body_unpack_failure_changes_nothing_witness :
    Sample.corruptBody.BodyUnpackFails (Sample.trackedFrame 9) ∧
    (Sample.subscribed.DataReceiverPumpBody Sample.corruptBody).invoked = [] ∧
    (Content.IGTLinkClient.DataReceiverPumpBody Sample.onceQueriedClient
      Sample.corruptBody).client = Sample.onceQueriedClient ∧
    (Content.IGTLinkClient.DataReceiverPumpBody Sample.onceQueriedClient
      Sample.corruptBody).outcome = PumpOutcome.Continue :=
  have hio : Sample.corruptBody.BodyUnpackFails (Sample.trackedFrame 9) :=
    ⟨rfl, rfl, by decide, rfl, rfl, rfl, rfl, rfl, rfl, rfl⟩
  have h := body_unpack_failure_changes_nothing Sample.subscribed Sample.onceQueriedClient
    Sample.corruptBody (Sample.trackedFrame 9) hio
  ⟨hio, h.1.2.1, h.2.1, h.2.2.2.2.2⟩

/-! ## Disconnecting -/

/-- C22. Disconnect is idempotent, in both revisions. For every client state
(whatever the token source and the socket report beforehand), disconnecting
twice gives the same state as disconnecting once; after the call the
cancellation token is cancelled and the socket is closed; the message store,
the caches and the callback registry with its token counter are unchanged. -/
theorem Disconnect_idempotent (client : IGTLinkClient) (content : Content.IGTLinkClient) :
    (client.Disconnect.Disconnect = client.Disconnect ∧
      client.Disconnect.m_cancellationTokenSource.canceled = true ∧
      client.Disconnect.m_clientSocket.connected = false ∧
      client.Disconnect.m_messages = client.m_messages ∧
      client.Disconnect.m_trackedFrameCallbacks = client.m_trackedFrameCallbacks ∧
      client.Disconnect.m_lastUnusedCallbackToken = client.m_lastUnusedCallbackToken) ∧
    (content.Disconnect.Disconnect = content.Disconnect ∧
      content.Disconnect.m_cancellationTokenSource.canceled = true ∧
      content.Disconnect.m_clientSocket.connected = false ∧
      content.Disconnect.m_receiveMessages = content.m_receiveMessages ∧
      content.Disconnect.m_receiveUWPMessages = content.m_receiveUWPMessages ∧
      content.Disconnect.m_receiveUWPCommands = content.m_receiveUWPCommands) :=
  ⟨⟨rfl, rfl, rfl, rfl, rfl, rfl⟩, ⟨rfl, rfl, rfl, rfl, rfl, rfl⟩⟩

/-! ## The retry sleep -/

/-- C27, what the code does instead. The sleep is the last statement of the loop
body and is not guarded by the error code: for every timeout, when the first
connect attempt succeeds and the elapsed time has not passed the timeout,
`ConnectAsync` still sleeps for one second before the loop condition ends the
loop. It makes no further attempt and returns true, one second late. -/
theorem ConnectAsync_sleeps_after_success (timeoutSec : Int) (attempt : ConnectAttempt)
    (rest : List ConnectAttempt) (hok : attempt.errorCode = 0)
    (hin : (attempt.durationMsec : Int) ≤ timeoutSec * 1000) :
    ConnectAsync timeoutSec (attempt :: rest) =
      { result := some true, attempts := 1, sleeps := 1,
        elapsedMsec := attempt.durationMsec + 1000, pumpStarted := true } := by
  have hup : ¬ ((attempt.durationMsec : Int) > timeoutSec * 1000) := by omega
  simp only [ConnectAsync, connectLoop, Nat.zero_add, hup, if_false, hok, ne_eq,
    not_true_eq_false]

/-- C27, at the failing input: timeoutSec = 2 and a first attempt that succeeds
after 20 ms: one attempt, one sleep, and true is returned after 1020 ms. -/
theorem ConnectAsync_sleeps_after_success_witness :
    (ConnectAsync 2 [{ errorCode := 0, durationMsec := 20 }]).result = some true ∧
    (ConnectAsync 2 [{ errorCode := 0, durationMsec := 20 }]).attempts = 1 ∧
    (ConnectAsync 2 [{ errorCode := 0, durationMsec := 20 }]).sleeps = 1 ∧
    (ConnectAsync 2 [{ errorCode := 0, durationMsec := 20 }]).elapsedMsec = 1020 :=
  have h := ConnectAsync_sleeps_after_success 2 { errorCode := 0, durationMsec := 20 } []
    rfl (by decide)
  ⟨congrArg ConnectRun.result h, congrArg ConnectRun.attempts h,
    congrArg ConnectRun.sleeps h, congrArg ConnectRun.elapsedMsec h⟩

/-! ## A callback that raises -/

namespace IGTLinkClient

/-- The dispatch loop ends at the first callback that raises. -/
theorem invokeCallbacks_of_throwing (tfMsg : Option Message)
    (before after : List (Nat × Callback)) (thrower : Nat × Callback)
    (hret : ∀ p ∈ before, p.2 tfMsg = CallResult.Returned)
    (hthrow : thrower.2 tfMsg = CallResult.Threw) :
    invokeCallbacks tfMsg (before ++ thrower :: after) =
      ((before ++ [thrower]).map (fun p => (p.1, tfMsg)), false) := by
  induction before with
  | nil => simp only [List.nil_append, invokeCallbacks, hthrow, List.map_cons, List.map_nil]
  | cons p rest ih =>
    have hp := hret p (List.mem_cons_self _ _)
    have hrest := ih (fun q hq => hret q (List.mem_cons_of_mem _ hq))
    simp only [List.cons_append, invokeCallbacks, hp, List.map_cons]
    show ((p.1, tfMsg) :: (invokeCallbacks tfMsg (rest ++ thrower :: after)).1,
      (invokeCallbacks tfMsg (rest ++ thrower :: after)).2) = _
    rw [hrest]

/-- C25, the claim fails. Three callbacks are registered (tokens 0, 1, 2), the
second of which raises. In an iteration that stores a message and dispatches,
the callbacks 0 and 1 are invoked and callback 2 is not; the step does not
return Continue but is left by the exception, and so is the loop, which does
not run its next iteration. -/
theorem callback_failure_aborts_dispatch :
    Sample.failingSecond.m_trackedFrameCallbacks.map Prod.fst = [0, 1, 2] ∧
    (Sample.failingSecond.DataReceiverPumpBody
      (PumpIteration.receive (Sample.transform 5))).invoked = [(0, none), (1, none)] ∧
    (Sample.failingSecond.DataReceiverPumpBody
      (PumpIteration.receive (Sample.transform 5))).outcome = PumpOutcome.Threw ∧
    (Sample.failingSecond.DataReceiverPumpBody
      (PumpIteration.receive (Sample.transform 5))).outcome ≠ PumpOutcome.Continue ∧
    (Sample.failingSecond.DataReceiverPump
      [PumpIteration.receive (Sample.transform 5),
        PumpIteration.receive (Sample.transform 6)]).outcome = PumpOutcome.Threw ∧
    (Sample.failingSecond.DataReceiverPump
      [PumpIteration.receive (Sample.transform 5),
        PumpIteration.receive (Sample.transform 6)]).client.m_messages =
      [Sample.transform 5] :=
  ⟨rfl, rfl, rfl, by decide, rfl, rfl⟩

/-- C25, amended. There is no isolation of callback failures: in every iteration
in which the loop stores a message and dispatches (the code dispatches for a
message that is not a tracked frame, with a null pointer), if a registered
callback raises, then exactly the callbacks before it in token order and the
raising callback itself have been invoked, in this order, and none after it;
the iteration is left by the exception with the message appended to the deque
and the deque not trimmed; and `DataReceiverPump` ends with that exception,
whatever further iterations the transport would have allowed. -/
theorem callback_failure_ends_pump (self : IGTLinkClient) (io : PumpIteration)
    (rest : List PumpIteration) (m : Message)
    (before after : List (Nat × Callback)) (thrower : Nat × Callback)
    (hio : io.Stores m) (hdispatch : m.isTrackedFrame = false)
    (hregistry : self.m_trackedFrameCallbacks = before ++ thrower :: after)
    (hret : ∀ p ∈ before, p.2 none = CallResult.Returned)
    (hthrow : thrower.2 none = CallResult.Threw) :
    (self.DataReceiverPumpBody io).invoked =
      (before ++ [thrower]).map (fun p => (p.1, (none : Option Message))) ∧
    (self.DataReceiverPumpBody io).outcome = PumpOutcome.Threw ∧
    (self.DataReceiverPumpBody io).client.m_messages = self.m_messages ++ [m] ∧
    (self.DataReceiverPump (io :: rest)).outcome = PumpOutcome.Threw ∧
    (self.DataReceiverPump (io :: rest)).invoked =
      (before ++ [thrower]).map (fun p => (p.1, (none : Option Message))) ∧
    (self.DataReceiverPump (io :: rest)).client.m_messages = self.m_messages ++ [m] := by
  obtain ⟨h1, h2, h3, h4, h5, h6, h7, h8, h9, h10⟩ := hio
  have hne : ¬ (io.numOfBytesReceived = 0 ∨ io.numOfBytesReceived ≠ io.headerSize) := by
    rintro (h | h)
    · exact h3 h
    · exact h h4
  have hinv := invokeCallbacks_of_throwing none before after thrower hret hthrow
  have hbody : self.DataReceiverPumpBody io =
      { client := { self with m_messages := self.m_messages ++ [m] },
        outcome := PumpOutcome.Threw,
        invoked := (before ++ [thrower]).map (fun p => (p.1, (none : Option Message))),
        socket := [SocketCall.ReceiveHeader, SocketCall.ReceiveBody io.bodySizeToRead] } := by
    unfold DataReceiverPumpBody
    simp only [h1, h2, h5, h6, h7, h8, h9, h10, hne, if_false, Bool.not_true, Bool.not_false,
      Bool.false_eq_true, if_true, hdispatch, hregistry, hinv]
  have hpump : self.DataReceiverPump (io :: rest) =
      { client := { self with m_messages := self.m_messages ++ [m] },
        outcome := PumpOutcome.Threw,
        invoked := (before ++ [thrower]).map (fun p => (p.1, (none : Option Message))) } := by
    simp only [DataReceiverPump, hbody]
  rw [hbody, hpump]
  exact ⟨rfl, rfl, rfl, rfl, rfl, rfl⟩

/-- C25 amended, at a concrete input: of three callbacks the second raises while
a message that is not a tracked frame is stored. -/
theorem callback_failure_ends_pump_witness :
    (PumpIteration.receive (Sample.transform 5)).Stores (Sample.transform 5) ∧
    (Sample.failingSecond.DataReceiverPumpBody
      (PumpIteration.receive (Sample.transform 5))).invoked = [(0, none), (1, none)] ∧
    (Sample.failingSecond.DataReceiverPump
      [PumpIteration.receive (Sample.transform 5),
        PumpIteration.receive (Sample.transform 6)]).outcome = PumpOutcome.Threw :=
  have hio : (PumpIteration.receive (Sample.transform 5)).Stores (Sample.transform 5) :=
    ⟨rfl, rfl, by show (58 : Int) ≠ 0; decide, rfl, rfl, rfl, rfl, rfl, rfl, rfl⟩
  have h := callback_failure_ends_pump Sample.failingSecond
    (PumpIteration.receive (Sample.transform 5)) [PumpIteration.receive (Sample.transform 6)]
    (Sample.transform 5) [(0, Sample.subscriber)] [(2, Sample.subscriber)] (1, Sample.failing)
    hio rfl rfl (fun p hp => by rw [List.mem_singleton.mp hp]; rfl) rfl
  ⟨hio, h.1, h.2.2.2.1⟩

end IGTLinkClient

/-! ## Dispatch order -/

namespace StdMap

/-- Placing a fresh key keeps the keys in strictly ascending order. -/
theorem sorted_keys_insertSorted {V : Type} (m : List (Nat × V)) (k : Nat) (v : V)
    (h : (keys m).Pairwise (fun a b => a < b)) (hk : k ∉ keys m) :
    (keys (insertSorted k v m)).Pairwise (fun a b => a < b) := by
  induction m with
  | nil => simp [insertSorted, keys]
  | cons p rest ih =>
    simp only [keys, List.map_cons, List.pairwise_cons, List.mem_cons, not_or] at h hk
    unfold insertSorted
    split
    · rename_i hlt
      simp only [keys, List.map_cons, List.pairwise_cons, List.mem_cons]
      refine ⟨?_, h.1, h.2⟩
      rintro x (hx | hx)
      · rw [hx]; exact hlt
      · exact Nat.lt_trans hlt (h.1 x hx)
    · rename_i hlt
      have hpk : p.1 < k := by omega
      simp only [keys, List.map_cons, List.pairwise_cons]
      refine ⟨?_, ih h.2 hk.2⟩
      intro x hx
      obtain ⟨q, hq, rfl⟩ := List.mem_map.mp hx
      rcases (mem_insertSorted rest k v q).mp hq with hq | hq
      · rw [hq]; exact hpk
      · exact h.1 q.1 (List.mem_map_of_mem _ hq)

/-- An erasure keeps the keys in strictly ascending order. -/
theorem sorted_keys_erase {V : Type} (m : List (Nat × V)) (k : Nat)
    (h : (keys m).Pairwise (fun a b => a < b)) :
    (keys (erase m k)).Pairwise (fun a b => a < b) :=
  List.Pairwise.sublist ((List.filter_sublist m).map Prod.fst) h

/-- An assignment keeps the keys in strictly ascending order. -/
theorem sorted_keys_assign {V : Type} (m : List (Nat × V)) (k : Nat) (v : V)
    (h : (keys m).Pairwise (fun a b => a < b)) :
    (keys (assign m k v)).Pairwise (fun a b => a < b) := by
  unfold assign
  apply sorted_keys_insertSorted _ _ _ (sorted_keys_erase m k h)
  intro hmem
  obtain ⟨q, hq, hk⟩ := List.mem_map.mp hmem
  exact mem_erase_key_ne m k q hq hk

end StdMap

/-- Two members of a strictly ascending list occur in it in ascending order. -/
theorem pair_sublist_of_pairwise_lt (l : List Nat) (h : l.Pairwise (fun a b => a < b))
    (a b : Nat) (ha : a ∈ l) (hb : b ∈ l) (hab : a < b) : List.Sublist [a, b] l := by
  induction l with
  | nil => cases ha
  | cons x xs ih =>
    rw [List.pairwise_cons] at h
    rcases List.mem_cons.mp ha with ha | ha
    · rcases List.mem_cons.mp hb with hb | hb
      · omega
      · rw [ha]
        exact List.Sublist.cons₂ x (List.singleton_sublist.mpr hb)
    · rcases List.mem_cons.mp hb with hb | hb
      · have := h.1 a ha
        omega
      · exact List.Sublist.cons x (ih h.2 ha hb)

namespace IGTLinkClient

/-- The registry of a client that starts with ascending tokens stays in ascending
token order under every sequence of registry calls. -/
theorem runRegistryCalls_sorted (calls : List RegistryCall) (self : IGTLinkClient)
    (h : (StdMap.keys self.m_trackedFrameCallbacks).Pairwise (fun a b => a < b)) :
    (StdMap.keys (runRegistryCalls self calls).2.m_trackedFrameCallbacks).Pairwise
      (fun a b => a < b) := by
  induction calls generalizing self with
  | nil => exact h
  | cons call rest ih =>
    cases call with
    | Register f =>
      simp only [runRegistryCalls]
      exact ih _ (StdMap.sorted_keys_assign _ _ _ h)
    | Unregister token =>
      simp only [runRegistryCalls]
      apply ih
      unfold UnregisterTrackedFrameCallback
      split
      · exact StdMap.sorted_keys_erase _ _ h
      · exact h

/-- The dispatch loop invokes an initial segment of the registry, in map order. -/
theorem invokeCallbacks_tokens_prefix (tfMsg : Option Message)
    (callbacks : List (Nat × Callback)) :
    (invokeCallbacks tfMsg callbacks).1.map Prod.fst <+: StdMap.keys callbacks := by
  induction callbacks with
  | nil => exact List.prefix_refl _
  | cons p rest ih =>
    cases hp : p.2 tfMsg with
    | Returned =>
      simp only [invokeCallbacks, hp, StdMap.keys, List.map_cons]
      exact (List.prefix_cons_inj p.1).mpr ih
    | Threw =>
      simp only [invokeCallbacks, hp, StdMap.keys, List.map_cons, List.map_nil]
      exact (List.prefix_cons_inj p.1).mpr List.nil_prefix

/-- Whatever an iteration observes, the callbacks it invokes are an initial segment
of the registry, in map order. -/
theorem DataReceiverPumpBody_invoked_prefix (self : IGTLinkClient) (io : PumpIteration) :
    (self.DataReceiverPumpBody io).invoked.map Prod.fst <+:
      StdMap.keys self.m_trackedFrameCallbacks := by
  unfold DataReceiverPumpBody
  by_cases h1 : io.isCanceled = true
  · rw [if_pos h1]; exact List.nil_prefix
  rw [if_neg h1]
  by_cases h2 : (!io.connectedBeforeHeader) = true
  · rw [if_pos h2]; exact List.nil_prefix
  rw [if_neg h2]
  by_cases h3 : io.numOfBytesReceived = 0 ∨ io.numOfBytesReceived ≠ io.headerSize
  · rw [if_pos h3]; exact List.nil_prefix
  rw [if_neg h3]
  by_cases h5 : (!io.headerUnpacked) = true
  · rw [if_pos h5]; exact List.nil_prefix
  rw [if_neg h5]
  by_cases hthrows : io.createThrows = true
  · rw [if_pos hthrows]; exact List.nil_prefix
  rw [if_neg hthrows]
  cases h6 : io.bodyMsg with
  | none => exact List.nil_prefix
  | some b =>
    dsimp only
    by_cases hs : (!b.isStatus) = true
    · rw [if_pos hs]
      by_cases h9 : (!io.connectedBeforeBody) = true
      · rw [if_pos h9]; exact List.nil_prefix
      rw [if_neg h9]
      by_cases h10 : (!io.bodyUnpacked) = true
      · rw [if_pos h10]; exact List.nil_prefix
      rw [if_neg h10]
      by_cases htf : (!b.isTrackedFrame) = true
      · rw [if_pos htf]
        repeat' split
        all_goals exact invokeCallbacks_tokens_prefix _ self.m_trackedFrameCallbacks
      · rw [if_neg htf]
        exact List.nil_prefix
    · rw [if_neg hs]
      by_cases h9 : (!io.connectedBeforeBody) = true
      · rw [if_pos h9]; exact List.nil_prefix
      rw [if_neg h9]
      exact List.nil_prefix

/-- C24. Callback dispatch order. On a client constructed fresh and put through
any interleaved sequence of register and unregister calls (fewer than 2^64
registrations), the registry is iterated in strictly ascending token order;
whatever an iteration of the receive loop observes, the callbacks it invokes
are an initial segment of the registry in that order, all of them when every
callback returns and the iteration dispatches; the tokens were handed out as
0, 1, 2, ... in registration order; hence of any two callbacks that are both
invoked (so both still registered), the one registered earlier is invoked
before the one registered later. -/
theorem callbacks_invoked_in_registration_order (calls : List RegistryCall)
    (io : PumpIteration) (hcount : registrations calls < 2 ^ 64) :
    (runRegistryCalls {} calls).1 = List.range (registrations calls) ∧
    (StdMap.keys (runRegistryCalls {} calls).2.m_trackedFrameCallbacks).Pairwise
      (fun a b => a < b) ∧
    (((runRegistryCalls {} calls).2.DataReceiverPumpBody io).invoked.map Prod.fst <+:
      StdMap.keys (runRegistryCalls {} calls).2.m_trackedFrameCallbacks) ∧
    (∀ m : Message, io.Stores m → m.isTrackedFrame = false →
      (∀ p ∈ (runRegistryCalls {} calls).2.m_trackedFrameCallbacks,
        ∀ arg, p.2 arg = CallResult.Returned) →
      ((runRegistryCalls {} calls).2.DataReceiverPumpBody io).invoked.map Prod.fst =
        StdMap.keys (runRegistryCalls {} calls).2.m_trackedFrameCallbacks) ∧
    (∀ earlier later : Nat,
      List.Sublist [earlier, later] (runRegistryCalls {} calls).1 →
      earlier ∈ ((runRegistryCalls {} calls).2.DataReceiverPumpBody io).invoked.map Prod.fst →
      later ∈ ((runRegistryCalls {} calls).2.DataReceiverPumpBody io).invoked.map Prod.fst →
      List.Sublist [earlier, later]
        (((runRegistryCalls {} calls).2.DataReceiverPumpBody io).invoked.map Prod.fst)) := by
  have htokens := runRegistryCalls_tokens calls {}
    (by show 0 + registrations calls ≤ 2 ^ 64; omega)
  have hrange : List.range' 0 (registrations calls) = List.range (registrations calls) :=
    (List.range_eq_range' _).symm
  rw [show ({} : IGTLinkClient).m_lastUnusedCallbackToken = 0 from rfl, hrange] at htokens
  have hsorted := runRegistryCalls_sorted calls {} List.Pairwise.nil
  have hprefix := DataReceiverPumpBody_invoked_prefix (runRegistryCalls {} calls).2 io
  refine ⟨htokens, hsorted, hprefix, ?_, ?_⟩
  · intro m hio hdispatch hcb
    rw [DataReceiverPumpBody_invoked _ io m hio hcb, hdispatch]
    simp only [Bool.false_eq_true, if_false, List.map_map, StdMap.keys]
    rfl
  · intro earlier later hregistered hearlier hlater
    rw [htokens] at hregistered
    have hpair := List.Pairwise.sublist hregistered (List.pairwise_lt_range _)
    have hlt : earlier < later :=
      (List.pairwise_cons.mp hpair).1 later (List.mem_singleton_self _)
    exact pair_sublist_of_pairwise_lt _ (List.Pairwise.sublist hprefix.sublist hsorted)
      earlier later hearlier hlater hlt

/-- C24, at a concrete input: four callbacks are registered and the first is
unregistered again; an iteration that dispatches invokes the callback with
token 1 (second registration) before the one with token 3 (fourth). -/
theorem callbacks_invoked_in_registration_order_witness :
    registrations Sample.registryCalls < 2 ^ 64 ∧
    (runRegistryCalls {} Sample.registryCalls).1 = [0, 1, 2, 3] ∧
    List.Sublist [1, 3]
      (((runRegistryCalls {} Sample.registryCalls).2.DataReceiverPumpBody
        (PumpIteration.receive (Sample.transform 5))).invoked.map Prod.fst) :=
  have hcount : registrations Sample.registryCalls < 2 ^ 64 := by decide
  have h := callbacks_invoked_in_registration_order Sample.registryCalls
    (PumpIteration.receive (Sample.transform 5)) hcount
  ⟨hcount, h.1, h.2.2.2.2 1 3 (by decide) (by decide) (by decide)⟩

end IGTLinkClient

/-! ## Merging the metadata into the parameters -/

namespace IGTLinkClient

/-- A lookup after a run of insertions: the last inserted value under the key, or
else what the map held before. -/
theorem find_insertAll (pairs : List (String × String)) (m : List (String × String))
    (k : String) :
    StdMap.find (insertAll m pairs) k =
      match StdMap.lastValue pairs k with
      | some v => some v
      | none => StdMap.find m k := by
  induction pairs generalizing m with
  | nil => rfl
  | cons p rest ih =>
    have hstep : insertAll m (p :: rest) = insertAll (StdMap.assign m p.1 p.2) rest := rfl
    rw [hstep, ih]
    cases hrest : StdMap.lastValue rest k with
    | some v => simp only [StdMap.lastValue, hrest]
    | none =>
      simp only [StdMap.lastValue, hrest]
      by_cases hk : p.1 = k
      · rw [if_pos hk, ← hk]
        exact StdMap.find_assign_self m p.1 p.2
      · rw [if_neg hk]
        exact StdMap.find_assign_ne m p.1 k p.2 (fun e => hk e.symm)

/-- When the loop over the `Parameter` elements runs to its end, it has inserted
their Name and Value pairs in document order. -/
theorem insertParameters_of_complete {Doc Node : Type} (dom : XmlDom Doc Node)
    (nodes : List Node) (parameters : List (String × String))
    (h : (insertParameters dom parameters nodes).2 = true) :
    (insertParameters dom parameters nodes).1 =
      insertAll parameters (parameterPairs dom nodes) := by
  induction nodes generalizing parameters with
  | nil => rfl
  | cons entry rest ih =>
    cases hn : dom.GetNamedItem entry "Name" with
    | none =>
      simp only [insertParameters, hn] at h
      cases h
    | some nameItem =>
      cases hv : dom.GetNamedItem entry "Value" with
      | none =>
        simp only [insertParameters, hn, hv] at h
        cases h
      | some valueItem =>
        simp only [insertParameters, hn, hv] at h ⊢
        rw [ih _ h]
        simp only [parameterPairs, hn, hv]
        rfl

/-- The two loops of lines 338 to 351, taken by themselves, give the metadata
priority: when the loop over the `Parameter` elements has run to its end and the
loop over the metadata after it, a key of the metadata carries the metadata's
value and any other key the Value of the last `Parameter` element with that
Name. -/
theorem parameter_loops_metadata_wins {Doc Node : Type} (dom : XmlDom Doc Node)
    (nodes : List Node) (metaData : List (String × String))
    (hcomplete : (insertParameters dom [] nodes).2 = true) (k : String) :
    StdMap.find (insertAll (insertParameters dom [] nodes).1 metaData) k =
      match StdMap.lastValue metaData k with
      | some v => some v
      | none => StdMap.lastValue (parameterPairs dom nodes) k := by
  rw [insertParameters_of_complete dom nodes [] hcomplete, find_insertAll]
  cases StdMap.lastValue metaData k with
  | some v => rfl
  | none =>
    simp only
    rw [find_insertAll]
    cases StdMap.lastValue (parameterPairs dom nodes) k <;> rfl

/-- C28, what the code does instead. For every XML parser that takes element names
from the text, every client whose deque holds an RTS command reply, whatever
`Parameter` elements its payload has and whatever its metadata maps: the call
is left by the exception of line 337 before the loops of lines 338 to 351 run,
no reply is decoded, and `reply.Parameters` is the empty map of line 304. No key
of the payload and no key of the metadata is present in it. -/
theorem ParseCommandReply_parameters_stay_empty {Doc Node : Type} (dom : XmlDom Doc Node)
    (self : IGTLinkClient) (reply : CommandReply) (message : Message)
    (hdom : dom.NamesFromText)
    (hfound : self.m_messages.find? Message.isRTSCommand = some message) :
    (ParseCommandReply dom self reply).1 = none ∧
    (ParseCommandReply dom self reply).2.1.Parameters = [] ∧
    (∀ k, StdMap.find (ParseCommandReply dom self reply).2.1.Parameters k = none) := by
  rw [ParseCommandReply_raises_of_found dom hdom self reply message hfound]
  exact ⟨rfl, rfl, fun _ => rfl⟩

/-- C28, at the failing input: the payload has the parameters X = 1 and Z = 4, the
metadata maps X to 2 and Y to 3. The call is left by the exception and the
reply's parameters hold none of X, Y, Z. -/
theorem ParseCommandReply_parameters_stay_empty_witness :
    (Sample.w3c Sample.library).NamesFromText ∧
    StdMap.lastValue (Sample.collidingReply 0).metaData "X" = some "2" ∧
    (ParseCommandReply (Sample.w3c Sample.library)
      { m_messages := [Sample.collidingReply 0] } {}).1 = none ∧
    StdMap.find (ParseCommandReply (Sample.w3c Sample.library)
      { m_messages := [Sample.collidingReply 0] } {}).2.1.Parameters "X" = none ∧
    StdMap.find (ParseCommandReply (Sample.w3c Sample.library)
      { m_messages := [Sample.collidingReply 0] } {}).2.1.Parameters "Y" = none ∧
    StdMap.find (ParseCommandReply (Sample.w3c Sample.library)
      { m_messages := [Sample.collidingReply 0] } {}).2.1.Parameters "Z" = none :=
  have hdom : (Sample.w3c Sample.library).NamesFromText :=
    w3c_namesFromText Sample.library (by decide)
  have h := ParseCommandReply_parameters_stay_empty (Sample.w3c Sample.library)
    { m_messages := [Sample.collidingReply 0] } {} (Sample.collidingReply 0) hdom rfl
  ⟨hdom, by decide, h.1, h.2.2 "X", h.2.2 "Y", h.2.2 "Z"⟩

end IGTLinkClient

/-! ## The default of the command query -/

namespace Content.IGTLinkClient

/-- C21, what the code does instead. For every behaviour of the XML library and
every client: with since omitted the reference time stamp is that of the newest
tracked frame in the deque (or -1 when there is none), the value of
`GetLatestTrackedFrameTimestamp()` at line 232, not that of a command message.
So when the newest RTS command reply is newer than the newest tracked frame and
the command cache holds nothing under the tracked frame's time stamp, the call
does not return false: it creates a `Command` for that reply, hands it to the
caller and caches it under the tracked frame's time stamp, a key different from
the reply's own time stamp. -/
theorem GetLatestCommand_default_uses_tracked_frame_timestamp {Doc Node : Type}
    (dom : UWPOpenIGTLink.IGTLinkClient.XmlDom Doc Node) (self : IGTLinkClient)
    (cmd : Option Command) (cmdMsg : Message)
    (hcache : StdMap.find self.m_receiveUWPCommands self.GetLatestTrackedFrameTimestamp = none)
    (hnewest : newest self.m_receiveMessages Message.isRTSCommand = some cmdMsg)
    (hnewer : self.GetLatestTrackedFrameTimestamp < cmdMsg.timeStamp) :
    (GetLatestCommand dom self cmd none).1 ≠ some false ∧
    self.GetLatestTrackedFrameTimestamp ≠ cmdMsg.timeStamp ∧
    (∃ created : Command,
      (GetLatestCommand dom self cmd none).2.1 = some created ∧
      created.objectId = self.objectsCreated ∧
      created.OriginalCommandId = cmdMsg.commandId ∧
      created.CommandName = cmdMsg.commandName ∧
      created.CommandContent = cmdMsg.commandContent ∧
      StdMap.find (GetLatestCommand dom self cmd none).2.2.m_receiveUWPCommands
        self.GetLatestTrackedFrameTimestamp = some created) := by
  have hne : self.GetLatestTrackedFrameTimestamp ≠ cmdMsg.timeStamp := by omega
  have hfields : ∀ (doc : Doc) (c : Command),
      (decodeCommand dom doc cmdMsg c).objectId = c.objectId ∧
      (decodeCommand dom doc cmdMsg c).OriginalCommandId = c.OriginalCommandId ∧
      (decodeCommand dom doc cmdMsg c).CommandName = c.CommandName ∧
      (decodeCommand dom doc cmdMsg c).CommandContent = c.CommandContent := by
    intro doc c
    unfold decodeCommand
    dsimp only
    split <;> split <;> (try split) <;> exact ⟨rfl, rfl, rfl, rfl⟩
  unfold GetLatestCommand
  simp only [hcache, hnewest]
  rw [if_neg (by omega)]
  cases hdoc : dom.LoadXml cmdMsg.commandContent with
  | none =>
    refine ⟨by simp, hne, _, rfl, rfl, rfl, rfl, rfl, ?_⟩
    exact StdMap.find_assign_self _ _ _
  | some doc =>
    obtain ⟨h1, h2, h3, h4⟩ := hfields doc
      { objectId := self.objectsCreated, CommandContent := cmdMsg.commandContent,
        CommandName := cmdMsg.commandName, OriginalCommandId := cmdMsg.commandId }
    refine ⟨by simp, hne, _, rfl, h1, h2, h3, h4, ?_⟩
    exact StdMap.find_assign_self _ _ _

/-- C21, at the failing input: the deque holds a command message with time stamp 3,
a command reply with time stamp 8 and a tracked frame with time stamp 5. With
since omitted the call does not return false and caches the reply under key 5,
the tracked frame's time stamp, which is neither 3 nor 8. -/
theorem GetLatestCommand_default_uses_tracked_frame_timestamp_witness :
    Sample.mixedClient.m_receiveMessages.map (fun m => (m.typeId, m.timeStamp)) =
      [(MessageType.CommandMessage, 3), (MessageType.RTSCommandMessage, 8),
        (MessageType.TrackedFrameMessage, 5)] ∧
    Sample.mixedClient.GetLatestCommandTimestamp = 3 ∧
    Sample.mixedClient.GetLatestTrackedFrameTimestamp = 5 ∧
    (GetLatestCommand (Sample.w3c Sample.library) Sample.mixedClient none none).1 ≠
      some false ∧
    StdMap.keys (GetLatestCommand (Sample.w3c Sample.library)
      Sample.mixedClient none none).2.2.m_receiveUWPCommands = [5] :=
  have h := GetLatestCommand_default_uses_tracked_frame_timestamp (Sample.w3c Sample.library)
    Sample.mixedClient none (Sample.commandReply 8) (by decide) (by decide) (by decide)
  ⟨by decide, by decide, by decide, h.1, by decide⟩

end Content.IGTLinkClient

/-! ## Lock non-nesting -/

theorem lockWalk_append (a b : List LockEvent) (held : List Mutex) :
    lockWalk held (a ++ b) = (lockWalk held a).bind (fun h => lockWalk h b) := by
  induction a generalizing held with
  | nil => rfl
  | cons e rest ih =>
    cases e with
    | acquire mutex =>
      simp only [List.cons_append, lockWalk]
      split
      · rfl
      · exact ih _
    | release mutex =>
      simp only [List.cons_append, lockWalk]
      exact ih _

/-- Two stretches of code that each respect the discipline and release what they
took do so one after the other. -/
theorem lockWalk_append_released (a b : List LockEvent) (ha : lockWalk [] a = some [])
    (hb : lockWalk [] b = some []) : lockWalk [] (a ++ b) = some [] := by
  rw [lockWalk_append, ha]
  exact hb

theorem lockWalk_scoped_lock (mutex : Mutex) : lockWalk [] (scoped_lock mutex []) = some [] := by
  cases mutex <;> rfl

theorem lockWalk_ite (c : Prop) [Decidable c] (a b : List LockEvent)
    (ha : lockWalk [] a = some []) (hb : lockWalk [] b = some []) :
    lockWalk [] (if c then a else b) = some [] := by
  split
  · exact ha
  · exact hb

theorem lockWalk_eraseFrontLocks (messages : List Message) :
    lockWalk [] (eraseFrontLocks messages) = some [] :=
  lockWalk_ite _ _ _ (lockWalk_scoped_lock _) rfl

namespace IGTLinkClient

theorem lockWalk_DataReceiverPumpBodyLocks (self : IGTLinkClient) (io : PumpIteration) :
    lockWalk [] (DataReceiverPumpBodyLocks self io) = some [] := by
  have hs := lockWalk_scoped_lock Mutex.m_socketMutex
  have hss := lockWalk_append_released _ _ hs hs
  unfold DataReceiverPumpBodyLocks
  refine lockWalk_ite _ _ _ rfl (lockWalk_ite _ _ _ hs (lockWalk_ite _ _ _ hs
    (lockWalk_ite _ _ _ hs (lockWalk_ite _ _ _ hs ?_))))
  cases io.bodyMsg with
  | none => exact hs
  | some bodyMsg =>
    dsimp only
    refine lockWalk_ite _ _ _ (lockWalk_ite _ _ _ hss (lockWalk_ite _ _ _ hss ?_))
      (lockWalk_ite _ _ _ hss ?_)
    · exact lockWalk_append_released _ _
        (lockWalk_append_released _ _ hss (lockWalk_scoped_lock _))
        (lockWalk_ite _ _ _ (lockWalk_eraseFrontLocks _) rfl)
    · exact lockWalk_append_released _ _ hss (lockWalk_eraseFrontLocks _)

theorem lockWalk_DataReceiverPumpLocks (ios : List PumpIteration) (self : IGTLinkClient) :
    lockWalk [] (DataReceiverPumpLocks self ios) = some [] := by
  induction ios generalizing self with
  | nil => rfl
  | cons io rest ih =>
    simp only [DataReceiverPumpLocks]
    split
    · exact lockWalk_append_released _ _ (lockWalk_DataReceiverPumpBodyLocks self io) (ih _)
    · exact lockWalk_DataReceiverPumpBodyLocks self io

end IGTLinkClient

namespace Content.IGTLinkClient

theorem lockWalk_pruneLoopLocks {V : Type} (oldest : Int) (entries : List (Int × V)) :
    lockWalk [] (pruneLoopLocks oldest entries) = some [] := by
  induction entries using pruneLoopLocks.induct oldest with
  | case1 => rfl
  | case2 p => rfl
  | case3 p q rest hlt ih =>
    simp only [pruneLoopLocks, hlt, if_true]
    exact lockWalk_append_released _ _ (lockWalk_scoped_lock _) ih
  | case4 p q rest hge ih =>
    simp only [pruneLoopLocks, hge, if_false]
    exact lockWalk_append_released _ _ (lockWalk_scoped_lock _) ih

theorem lockWalk_trimAndPruneLocks (self : IGTLinkClient) :
    lockWalk [] (trimAndPruneLocks self) = some [] := by
  have hframes : ∀ client : IGTLinkClient, lockWalk []
      (GetOldestTrackedFrameTimestampLocks ++
        (if client.GetOldestTrackedFrameTimestamp > 0 then
          pruneLoopLocks client.GetOldestTrackedFrameTimestamp client.m_receiveUWPMessages
        else [])) = some [] := fun client =>
    lockWalk_append_released _ _ (lockWalk_scoped_lock _)
      (lockWalk_ite _ _ _ (lockWalk_pruneLoopLocks _ _) rfl)
  unfold trimAndPruneLocks
  dsimp only
  split
  · exact lockWalk_append_released _ _ (lockWalk_eraseFrontLocks _) (hframes _)
  · exact lockWalk_append_released _ _
      (lockWalk_append_released _ _
        (lockWalk_append_released _ _ (lockWalk_eraseFrontLocks _) (hframes _))
        (lockWalk_scoped_lock _))
      (lockWalk_ite _ _ _ (lockWalk_pruneLoopLocks _ _) rfl)

theorem lockWalk_cachePumpBodyLocks (self : IGTLinkClient) (io : PumpIteration) :
    lockWalk [] (DataReceiverPumpBodyLocks self io) = some [] := by
  have hs := lockWalk_scoped_lock Mutex.m_socketMutex
  have hss := lockWalk_append_released _ _ hs hs
  unfold DataReceiverPumpBodyLocks
  refine lockWalk_ite _ _ _ rfl (lockWalk_ite _ _ _ hs (lockWalk_ite _ _ _ hs
    (lockWalk_ite _ _ _ hs (lockWalk_ite _ _ _ hs ?_))))
  cases io.bodyMsg with
  | none => exact hs
  | some bodyMsg =>
    dsimp only
    refine lockWalk_ite _ _ _ (lockWalk_ite _ _ _ hss (lockWalk_ite _ _ _ hss ?_))
      (lockWalk_ite _ _ _ hss ?_)
    · exact lockWalk_append_released _ _
        (lockWalk_append_released _ _ hss (lockWalk_scoped_lock _))
        (lockWalk_trimAndPruneLocks _)
    · exact lockWalk_append_released _ _ hss (lockWalk_trimAndPruneLocks _)

theorem lockWalk_cachePumpLocks (ios : List PumpIteration) (self : IGTLinkClient) :
    lockWalk [] (DataReceiverPumpLocks self ios) = some [] := by
  induction ios generalizing self with
  | nil => rfl
  | cons io rest ih =>
    simp only [DataReceiverPumpLocks]
    split
    · exact lockWalk_append_released _ _ (lockWalk_cachePumpBodyLocks self io) (ih _)
    · exact lockWalk_cachePumpBodyLocks self io

theorem lockWalk_GetLatestTrackedFrameLocks (self : IGTLinkClient)
    (latestTimestamp : Option Int) :
    lockWalk [] (GetLatestTrackedFrameLocks self latestTimestamp) = some [] := by
  unfold GetLatestTrackedFrameLocks
  cases latestTimestamp <;> dsimp only <;> split <;> rfl

theorem lockWalk_GetLatestCommandLocks (self : IGTLinkClient)
    (latestTimestamp : Option Int) :
    lockWalk [] (GetLatestCommandLocks self latestTimestamp) = some [] := by
  unfold GetLatestCommandLocks
  cases latestTimestamp <;> dsimp only <;> split <;> rfl

end Content.IGTLinkClient

/-- The walk does reject a trace in which one lock is taken inside the block of
the other, in either order. -/
theorem lockWalk_rejects_nesting :
    lockWalk [] (scoped_lock Mutex.m_messageListMutex (scoped_lock Mutex.m_socketMutex [])) =
      none ∧
    lockWalk [] (scoped_lock Mutex.m_socketMutex (scoped_lock Mutex.m_messageListMutex [])) =
      none :=
  ⟨rfl, rfl⟩

/-- C23. Lock non-nesting. On every path of the client, in both revisions, no lock
is acquired while the other lock is held, and every lock taken is released at
the end of the path: `ConnectAsync`, `Disconnect`, `SendMessage` and
`SocketReceive`; every run of `DataReceiverPump`, for every client state and
whatever the iterations observe (including the trimming and, in the cache
revision, the pruning loops with their calls of
`GetOldestTrackedFrameTimestamp`); `ParseCommandReply` and
`ParseTrackedFrameReply`; `GetLatestTrackedFrame` and `GetLatestCommand` for
every client state and argument; and the four time stamp queries. -/
theorem locks_never_nested (client : IGTLinkClient) (content : Content.IGTLinkClient)
    (ios : List PumpIteration) (latestTimestamp : Option Int) :
    lockWalk [] ConnectAsyncLocks = some [] ∧
    lockWalk [] DisconnectLocks = some [] ∧
    lockWalk [] SendMessageLocks = some [] ∧
    lockWalk [] SocketReceiveLocks = some [] ∧
    lockWalk [] (client.DataReceiverPumpLocks ios) = some [] ∧
    lockWalk [] IGTLinkClient.ParseCommandReplyLocks = some [] ∧
    lockWalk [] IGTLinkClient.ParseTrackedFrameReplyLocks = some [] ∧
    lockWalk [] (content.DataReceiverPumpLocks ios) = some [] ∧
    lockWalk [] (content.GetLatestTrackedFrameLocks latestTimestamp) = some [] ∧
    lockWalk [] (content.GetLatestCommandLocks latestTimestamp) = some [] ∧
    lockWalk [] Content.IGTLinkClient.GetLatestTrackedFrameTimestampLocks = some [] ∧
    lockWalk [] Content.IGTLinkClient.GetOldestTrackedFrameTimestampLocks = some [] ∧
    lockWalk [] Content.IGTLinkClient.GetLatestCommandTimestampLocks = some [] ∧
    lockWalk [] Content.IGTLinkClient.GetOldestCommandTimestampLocks = some [] :=
  ⟨rfl, rfl, rfl, rfl, IGTLinkClient.lockWalk_DataReceiverPumpLocks ios client, rfl, rfl,
    Content.IGTLinkClient.lockWalk_cachePumpLocks ios content,
    Content.IGTLinkClient.lockWalk_GetLatestTrackedFrameLocks content latestTimestamp,
    Content.IGTLinkClient.lockWalk_GetLatestCommandLocks content latestTimestamp,
    rfl, rfl, rfl, rfl⟩

end UWPOpenIGTLink
